import Mathlib

/-!
# Matrix Brandy file I/O (`src/fileio.c`, the build that is not for RISC OS)

A shallow embedding of the file table, of the handle mapping and of the
`PRINT#` / `INPUT#` item formats, with the properties of the item formats and
of the handle table proved about it.

Conventions of the embedding

* A C `int32` / `int64` value is an `Int`; where the C code can leave the range
  of the type (shifts into the sign bit, conversions) the result is wrapped
  explicitly by `toInt32` / `toInt64`.
* A byte held in memory or in a file is a `Nat` below 256.  A plain `char` is
  signed, as it is for gcc on x86: `charval` converts a stored byte to the
  `int` the C code sees.
* A `FILE` is an in-memory byte sequence with a position.  A `FILE *` held in
  a local variable `stream` is represented by the index of the slot of
  `fileinfo` that owns the stream.
* `error(...)` leaves the function by `longjmp`; the embedding returns
  `Outcome.error` with the state at the moment of the call.
* A call of a stdio function on a pointer that is not a `FILE` (NIL, or the
  dummy value 42 stored for a network channel) is undefined behaviour in C.
  The embedding returns `Outcome.fault` there (`on_stream`).
-/

namespace Brandy

/-! ## Constants -/

/-- Maximum number of files that can be open simultaneously. -/
def MAXFILES : Nat := 25

/-- Number of the first handle. -/
def FIRSTHANDLE : Int := 254

def PRINT_INT : Int := 0x40
def PRINT_UINT8 : Int := 0x50
def PRINT_INT64 : Int := 0x60
def PRINT_FLOAT5 : Int := 0x80
def PRINT_FLOAT : Int := 0x88
def PRINT_SHORTSTR : Int := 0x00
def PRINT_LONGSTR : Int := 0x01

/-- The value `EOF` of stdio.h. -/
def EOF : Int := -1

/-- Strings shorter than this are written in the Acorn format (strings.h). -/
def SHORT_STRING : Int := 256

/-- Length of the longest string the interpreter allows (target.h). -/
def MAXSTRING : Nat := 65536

/-- Modelled from the spec: `BYTEMASK` is declared in common.h, which is not
among the sources.  The value is the one the comment of `fileio_printstring`
requires: the length is written one byte at a time. -/
def BYTEMASK : Int := 0xFF

/-- Modelled from the spec: `BYTESHIFT` is declared in common.h, which is not
among the sources.  The value is the one the comments of `fileio_printstring`
and `fileio_getstring` require: the length takes four bytes, little endian. -/
def BYTESHIFT : Nat := 8

/-! ## Machine integers -/

/-- Wrap an integer into the range of `int32` (two's complement). -/
def toInt32 (i : Int) : Int :=
  if i % 4294967296 < 2147483648 then i % 4294967296 else i % 4294967296 - 4294967296

/-- Wrap an integer into the range of `int64` (two's complement). -/
def toInt64 (i : Int) : Int :=
  if i % 18446744073709551616 < 9223372036854775808 then i % 18446744073709551616
  else i % 18446744073709551616 - 18446744073709551616

/-- The 32-bit two's complement pattern of an integer. -/
def bits32 (i : Int) : Nat := (i % 4294967296).toNat

/-- The 64-bit two's complement pattern of an integer. -/
def bits64 (i : Int) : Nat := (i % 18446744073709551616).toNat

/-- `a | b` on `int32` operands. -/
def or32 (a b : Int) : Int := toInt32 ((bits32 a ||| bits32 b : Nat) : Int)

/-- `a | b` on `int64` operands. -/
def or64 (a b : Int) : Int := toInt64 ((bits64 a ||| bits64 b : Nat) : Int)

/-- `a & b` on `int32` operands. -/
def and32 (a b : Int) : Int := toInt32 ((bits32 a &&& bits32 b : Nat) : Int)

/-- `a << n` on an `int32` operand, wrapped to 32 bits. -/
def shl32 (a : Int) (n : Nat) : Int := toInt32 (a * 2 ^ n)

/-- `a << n` on an `int64` operand, wrapped to 64 bits. -/
def shl64 (a : Int) (n : Nat) : Int := toInt64 (a * 2 ^ n)

/-- `a >> n` on a signed operand: the arithmetic shift. -/
def asr (a : Int) (n : Nat) : Int := Int.shiftRight a n

/-- The value of a plain (signed) `char` holding the byte `b`. -/
def charval (b : Nat) : Int := if b < 128 then (b : Int) else (b : Int) - 256

/-- Conversion of an `int` to `unsigned char`, as `fputc` and an assignment to
a `char` in memory do it. -/
def tobyte (c : Int) : Nat := (c % 256).toNat

/-- The predicate that an integer is a value of type `int32`. -/
def isInt32 (i : Int) : Prop := -2147483648 ≤ i ∧ i < 2147483648

/-- The predicate that an integer is a value of type `int64`. -/
def isInt64 (i : Int) : Prop := -9223372036854775808 ≤ i ∧ i < 9223372036854775808

/-- The predicate that an integer is a value of type `uint8`. -/
def isUint8 (i : Int) : Prop := 0 ≤ i ∧ i < 256

instance (i : Int) : Decidable (isInt32 i) := by unfold isInt32; infer_instance
instance (i : Int) : Decidable (isInt64 i) := by unfold isInt64; infer_instance
instance (i : Int) : Decidable (isUint8 i) := by unfold isUint8; infer_instance

/-! ## Data model -/

/-- Floating point number format of the host. -/
inductive floatformat where
  | XMIXED_ENDIAN
  | XLITTLE_ENDIAN
  | XBIG_ENDIAN
  | XBIG_MIXED_ENDIAN
  deriving DecidableEq, Repr

inductive filestate where
  | CLOSED
  | OPENIN
  | OPENUP
  | OPENOUT
  | NETWORK
  deriving DecidableEq, Repr

inductive eofstate where
  | OKAY
  | PENDING
  | ATEOF
  deriving DecidableEq, Repr

/-- The error numbers that fileio.c raises. -/
inductive errnum where
  | ERR_BADHANDLE
  | ERR_MAXHANDLE
  | ERR_INVALIDFNAME
  | ERR_OPENWRITE
  | ERR_HITEOF
  | ERR_CANTREAD
  | ERR_CANTWRITE
  | ERR_OPENIN
  | ERR_TYPENUM
  | ERR_TYPESTR
  | ERR_SETPTRFAIL
  | ERR_GETPTRFAIL
  | ERR_GETEXTFAIL
  | ERR_CMDFAIL
  | WARN_FUNNYFLOAT
  deriving DecidableEq, Repr

/-- A stdio stream: the bytes of the file and the file position. -/
structure FILE where
  data : List Nat
  pos : Nat
  deriving DecidableEq, Repr

/-- A value of type `FILE *`: NIL, a real stream, or another address that is
not a stream (`(void *)42` for a network channel). -/
inductive streamptr where
  | NIL
  | file (f : FILE)
  | raw (addr : Nat)
  deriving DecidableEq, Repr

structure fileblock where
  /-- The C file handle for the file. -/
  stream : streamptr
  /-- Way in which file has been opened. -/
  filetype : filestate
  /-- Current end-of-file status. -/
  eofstatus : eofstate
  /-- TRUE if the last operation on a file was a write. -/
  lastwaswrite : Bool
  /-- Network handle. -/
  nethandle : Int
  deriving DecidableEq, Repr

/-- The static data of fileio.c, and the flag of `matrixflags` it uses. -/
structure State where
  fileinfo : Nat → fileblock
  double_type : floatformat
  matrixflags_translatefname : Int

/-- A `float64` result of `fileio_getnumber`: either the eight bytes copied
into the variable, or the number computed from Acorn's five byte format, which
is kept as its exact rational value (the arithmetic of the C code is exact for
every mantissa and exponent byte). -/
inductive float64 where
  | image (bytes : List Nat)
  | value (q : ℚ)
  deriving DecidableEq

/-- How a function of fileio.c ends: by returning, by `error`, or in undefined
behaviour of the C program. -/
inductive Outcome (α : Type) where
  | ok (v : α) (s : State)
  | error (e : errnum) (s : State)
  | fault (s : State)

/-- A function of fileio.c acting on the static data. -/
def Basic (α : Type) : Type := State → Outcome α

def Basic.pure {α : Type} (a : α) : Basic α := fun s => Outcome.ok a s

def Basic.bind {α β : Type} (m : Basic α) (f : α → Basic β) : Basic β := fun s =>
  match m s with
  | Outcome.ok a s' => f a s'
  | Outcome.error e s' => Outcome.error e s'
  | Outcome.fault s' => Outcome.fault s'

instance : Monad Basic where
  pure := Basic.pure
  bind := Basic.bind

/-- The call `error(e)`. -/
def error {α : Type} (e : errnum) : Basic α := fun s => Outcome.error e s

/-- Read `double_type`. -/
def get_double_type : Basic floatformat := fun s => Outcome.ok s.double_type s

/-- Read `fileinfo[n]`. -/
def getfb (n : Nat) : Basic fileblock := fun s => Outcome.ok (s.fileinfo n) s

/-- Assign to `fileinfo[n]`. -/
def State.setfb (s : State) (n : Nat) (fb : fileblock) : State :=
  { s with fileinfo := Function.update s.fileinfo n fb }

/-- Change fields of `fileinfo[n]`. -/
def modfb (n : Nat) (g : fileblock → fileblock) : Basic Unit := fun s =>
  Outcome.ok () (s.setfb n (g (s.fileinfo n)))

/-! ## The stdio functions used -/

/-- The function `fgetc`: the next byte and the advanced stream, or `EOF`. -/
def fgetc (f : FILE) : Int × FILE :=
  match f.data[f.pos]? with
  | some b => ((b : Int), { f with pos := f.pos + 1 })
  | none => (EOF, f)

/-- Store one byte at the file position; a position beyond the end of the file
fills the gap with zero bytes. -/
def putbyte (b : Nat) (f : FILE) : FILE :=
  if f.pos < f.data.length then { data := f.data.set f.pos b, pos := f.pos + 1 }
  else { data := f.data ++ List.replicate (f.pos - f.data.length) 0 ++ [b], pos := f.pos + 1 }

/-- The function `fputc`: the character is converted to `unsigned char` and
written, and returned as the result.  The in-memory stream has room for every
write, so the result is never `EOF`. -/
def fputc (c : Int) (f : FILE) : Int × FILE := ((tobyte c : Nat), putbyte (tobyte c) f)

/-- Write the bytes of a list one after the other. -/
def putbytes : List Nat → FILE → FILE
  | [], f => f
  | b :: bs, f => putbytes bs (putbyte b f)

/-- The call `fwrite(ptr, sizeof(char), nmemb, stream)`: the number of items
written and the stream. `ptr` is the memory the pointer addresses. -/
def fwrite (ptr : List Nat) (nmemb : Nat) (f : FILE) : Int × FILE :=
  (nmemb, putbytes ((List.range nmemb).map (fun i => ptr.getD i 0)) f)

/-- The call `fseek(stream, offset, SEEK_SET)`. -/
def fseek_set (offset : Int) (f : FILE) : Int × FILE :=
  if offset < 0 then (-1, f) else (0, { f with pos := offset.toNat })

/-- The call `fseek(stream, 0, SEEK_END)`. -/
def fseek_end (f : FILE) : Int × FILE := (0, { f with pos := f.data.length })

/-- The function `ftell`. -/
def ftell (f : FILE) : Int × FILE := ((f.pos : Int), f)

/-- The function `feof`, for a stream whose position has reached the end of the
file. -/
def feof (f : FILE) : Int × FILE := (if f.data.length ≤ f.pos then 1 else 0, f)

/-- The function `fflush`: the in-memory stream has nothing to flush. -/
def fflush (f : FILE) : Int × FILE := (0, f)

/-- The function `fclose`, as far as the stream is concerned; the pointer is
set to NIL by the caller. -/
def fclose (f : FILE) : Int × FILE := (0, f)

/-- The characters `fgets` takes from `rest`: at most `limit`, up to and
including the first linefeed. -/
def fgets_take : Nat → List Nat → List Nat
  | 0, _ => []
  | _ + 1, [] => []
  | k + 1, c :: rest => if c = 10 then [c] else c :: fgets_take k rest

/-- The call `fgets(buffer, size, stream)`: the characters stored in the buffer
(a NUL follows them), or `none` for NIL when nothing could be read, and the
stream. -/
def fgets (size : Nat) (f : FILE) : Option (List Nat) × FILE :=
  let line := fgets_take (size - 1) (f.data.drop f.pos)
  if line = [] then (none, f) else (some line, { f with pos := f.pos + line.length })

/-- The call `ftruncate(fileno(stream), length)`: 0 and the stream, or -1. -/
def ftruncate (length : Int) (f : FILE) : Int × FILE :=
  if length < 0 then (-1, f)
  else (0, { f with data := f.data.take length.toNat ++
                      List.replicate (length.toNat - f.data.length) 0 })

/-- The C string held in a buffer: the bytes before the first NUL. -/
def cstr (buf : List Nat) : List Nat := buf.takeWhile (fun c => c ≠ 0)

/-- The stream of slot `n` is replaced by `f`. -/
def State.setstream (s : State) (n : Nat) (f : FILE) : State :=
  s.setfb n { s.fileinfo n with stream := streamptr.file f }

/-- A call of a stdio function on the stream that `fileinfo[n].stream` points
at: the result of the call, with the stream updated.  On a pointer that is
not a stream the call is undefined. -/
def on_stream {α : Type} (n : Nat) (call : FILE → α × FILE) : Basic α := fun s =>
  match (s.fileinfo n).stream with
  | streamptr.file f => Outcome.ok (call f).1 (s.setstream n (call f).2)
  | _ => Outcome.fault s

/-! ## Handles -/

/-- The function `map_handle` maps a Basic-style file handle to the corresponding entry
in the `fileinfo` table and checks that the handle is valid. -/
def map_handle (handle : Int) : Basic Nat := fun s =>
  let handle := toInt32 (FIRSTHANDLE - handle)
  if handle < 0 ∨ handle ≥ MAXFILES ∨ (s.fileinfo handle.toNat).filetype = filestate.CLOSED
  then Outcome.error errnum.ERR_BADHANDLE s
  else Outcome.ok handle.toNat s

/-- The function `fileio_read` reads a byte from the stream of slot `n`. -/
def fileio_read (n : Nat) : Basic Int := do
  let ch ← on_stream n fgetc
  if ch = EOF then error errnum.ERR_CANTREAD
  pure ch

/-- The function `fileio_write` writes a byte to the stream of slot `n`. -/
def fileio_write (n : Nat) (value : Int) : Basic Unit := do
  let result ← on_stream n (fputc value)
  if result = EOF then error errnum.ERR_CANTWRITE

/-- The check at the start of the functions that read an item: a pending end
of file is an error. -/
def check_eof (handle : Nat) : Basic Unit := do
  if (← getfb handle).eofstatus ≠ eofstate.OKAY then
    modfb handle (fun b => { b with eofstatus := eofstate.ATEOF })
    error errnum.ERR_HITEOF

/-- The code that ensures everything has been written to disk before a
read. -/
def flush_written (handle : Nat) : Basic Unit := do
  if (← getfb handle).lastwaswrite then
    let _ ← on_stream handle fflush
    modfb handle (fun b => { b with lastwaswrite := false })

/-! ## Reading numbers -/

/-- The `switch (double_type)` of `fileio_getnumber` and `fileio_printfloat`:
the four cases run the same loop over `n` with the byte index `n`, `n^4`,
`n^3` and `n^7`, that is, `n ^ k` for the value of `k` given here. -/
def index_xor : floatformat → Nat
  | floatformat.XMIXED_ENDIAN => 0
  | floatformat.XLITTLE_ENDIAN => 4
  | floatformat.XBIG_ENDIAN => 3
  | floatformat.XBIG_MIXED_ENDIAN => 7

/-- The values behind the pointers `isint`, `ip` and `fp` of `fileio_getnumber`. -/
structure numvars where
  isint : Bool
  ip : Int
  fp : float64

/-- The value Acorn's five byte format stands for. -/
def float5_value (mantissa exponent : Int) : ℚ :=
  if exponent ≠ 0 ∨ mantissa ≠ 0 then
    (((and32 mantissa 0x7FFFFFFF : Int) : ℚ) / 4294967296 + 1 / 2)
      * (2 : ℚ) ^ (exponent - 0x80)
      * (if mantissa < 0 then -1 else 1)
  else 0

/-- The `switch (marker)` statement of `fileio_getnumber`, for the stream of
slot `handle`.  `temp` is the local buffer of `fileio_getnumber`. -/
def getnumber_switch (handle : Nat) (out : numvars) (temp : List Nat) (marker : Int) :
    Basic numvars :=
  if marker = PRINT_INT then do
    let ip ← [24, 16, 8, 0].foldlM
      (fun (ip : Int) (n : Nat) => do
        let ch ← fileio_read handle
        pure (or64 ip (shl32 ch n))) 0
    pure { out with ip := ip, isint := true }
  else if marker = PRINT_UINT8 then do
    let ch ← fileio_read handle
    pure { out with ip := ch, isint := true }
  else if marker = PRINT_INT64 then do
    let ip ← [56, 48, 40, 32, 24, 16, 8, 0].foldlM
      (fun (ip : Int) (n : Nat) => do
        let ch ← fileio_read handle
        pure (or64 ip (shl64 ch n))) 0
    pure { out with ip := ip, isint := true }
  else if marker = PRINT_FLOAT then do
    let k : Nat := index_xor (← get_double_type)
    let temp ← [0, 1, 2, 3, 4, 5, 6, 7].foldlM
      (fun (temp : List Nat) (n : Nat) => do
        let ch ← fileio_read handle
        pure (temp.set (n ^^^ k) (tobyte ch))) temp
    pure { out with fp := float64.image temp, isint := false }
  else if marker = PRINT_FLOAT5 then do
    let mantissa ← fileio_read handle
    let mantissa := or32 mantissa (shl32 (← fileio_read handle) 8)
    let mantissa := or32 mantissa (shl32 (← fileio_read handle) 16)
    let mantissa := or32 mantissa (shl32 (← fileio_read handle) 24)
    let exponent ← fileio_read handle
    pure { out with fp := float64.value (float5_value mantissa exponent), isint := false }
  else error errnum.ERR_TYPENUM

/-- The function `fileio_getnumber` reads a binary number from the file with handle
`handle`.  The record `out` holds the variables `isint`, `ip` and `fp` point
at; the result is their contents on return. -/
def fileio_getnumber (handle : Int) (out : numvars) : Basic numvars := do
  let temp : List Nat := List.replicate 8 0
  if handle = 0 then error errnum.ERR_BADHANDLE
  let handle ← map_handle handle
  check_eof handle
  flush_written handle
  let marker ← fileio_read handle
  getnumber_switch handle out temp marker

/-! ## Reading strings -/

/-- The loop `for (n=1; n<=length; n++) p[length-n] = fileio_read(stream)` of
`fileio_getstring`, with `k = length - n + 1` iterations still to run: the
next byte goes to `p[k - 1]`. -/
def getstring_short (handle : Nat) : Nat → List Nat → Basic (List Nat)
  | 0, p => pure p
  | k + 1, p => do
    let ch ← fileio_read handle
    getstring_short handle k (p.set k (tobyte ch))

/-- The loop `for (n=0; n<length; n++) p[n] = fileio_read(stream)` of
`fileio_getstring`, with `k = length - n` iterations still to run. -/
def getstring_long (handle : Nat) : Nat → Nat → List Nat → Basic (List Nat)
  | 0, _, p => pure p
  | k + 1, n, p => do
    let ch ← fileio_read handle
    getstring_long handle k (n + 1) (p.set n (tobyte ch))

/-- The `switch (marker)` statement of `fileio_getstring`, for the stream of
slot `handle`. -/
def getstring_switch (handle : Nat) (p : List Nat) (marker : Int) : Basic (Int × List Nat) :=
  if marker = PRINT_SHORTSTR then do
    let length ← fileio_read handle
    let p ← getstring_short handle length.toNat p
    pure (length, p)
  else if marker = PRINT_LONGSTR then do
    let length ← [0, 1, 2, 3].foldlM
      (fun (length : Int) (n : Nat) => do
        let ch ← fileio_read handle
        pure (toInt32 (length + shl32 ch (n * BYTESHIFT)))) 0
    let p ← getstring_long handle length.toNat 0 p
    pure (length, p)
  else error errnum.ERR_TYPESTR

/-- The function `fileio_getstring` reads a string from a file and returns the
length of the string read. `p` is the memory at the address the string is
stored at; the second component of the result is that memory on return. -/
def fileio_getstring (handle : Int) (p : List Nat) : Basic (Int × List Nat) := do
  if handle = 0 then error errnum.ERR_BADHANDLE
  let handle ← map_handle handle
  check_eof handle
  flush_written handle
  let marker ← fileio_read handle
  getstring_switch handle p marker

/-! ## Writing numbers and strings -/

/-- The common start of the `fileio_print` functions: the handle is mapped, a
file open for input is refused and the end-of-file status is reset. -/
def print_start (handle : Int) : Basic Nat := do
  if handle = 0 then error errnum.ERR_BADHANDLE
  let handle ← map_handle handle
  if (← getfb handle).filetype = filestate.OPENIN then error errnum.ERR_OPENIN
  modfb handle (fun b => { b with eofstatus := eofstate.OKAY })
  pure handle

/-- The function `fileio_printint` writes a four byte integer to a file in binary
preceded with 0x40 to mark it as an integer. -/
def fileio_printint (handle : Int) (value : Int) : Basic Unit := do
  let handle ← print_start handle
  fileio_write handle PRINT_INT
  [24, 16, 8, 0].forM (fun (n : Nat) => fileio_write handle (asr value n))
  modfb handle (fun b => { b with lastwaswrite := true })

/-- The function `fileio_printuint8`. -/
def fileio_printuint8 (handle : Int) (value : Int) : Basic Unit := do
  let handle ← print_start handle
  fileio_write handle PRINT_UINT8
  fileio_write handle value
  modfb handle (fun b => { b with lastwaswrite := true })

/-- The function `fileio_printint64`: the shifted 64-bit value is converted to the
`int32` parameter of `fileio_write`. -/
def fileio_printint64 (handle : Int) (value : Int) : Basic Unit := do
  let handle ← print_start handle
  fileio_write handle PRINT_INT64
  [56, 48, 40, 32, 24, 16, 8, 0].forM
    (fun (n : Nat) => fileio_write handle (toInt32 (asr value n)))
  modfb handle (fun b => { b with lastwaswrite := true })

/-- The function `fileio_printfloat` writes an eight byte floating point value to a
file in binary preceded with 0x88. `value` is the memory image of the
`float64`, which the C code copies to `temp`. -/
def fileio_printfloat (handle : Int) (value : List Nat) : Basic Unit := do
  let handle ← print_start handle
  fileio_write handle PRINT_FLOAT
  let temp := value
  let k : Nat := index_xor (← get_double_type)
  [0, 1, 2, 3, 4, 5, 6, 7].forM
    (fun (n : Nat) => fileio_write handle (charval (temp.getD (n ^^^ k) 0)))
  modfb handle (fun b => { b with lastwaswrite := true })

/-- The loop `for (n=length-1; n>=0; n--) fileio_write(stream, string[n])` of
`fileio_printstring`, with `k = n + 1`. -/
def printstring_short (handle : Nat) (string : List Nat) : Nat → Basic Unit
  | 0 => pure ()
  | k + 1 => do
    fileio_write handle (charval (string.getD k 0))
    printstring_short handle string k

/-- The loop of `fileio_printstring` that writes the four byte length to the
file, with `k` iterations still to run. -/
def printstring_length (handle : Nat) : Nat → Int → Basic Unit
  | 0, _ => pure ()
  | k + 1, temp => do
    fileio_write handle (and32 temp BYTEMASK)
    printstring_length handle k (asr temp BYTESHIFT)

/-- The call of `fwrite` on the stream of slot `n`. -/
def stream_fwrite (n : Nat) (ptr : List Nat) (nmemb : Nat) : Basic Int :=
  on_stream n (fwrite ptr nmemb)

/-- The function `fileio_printstring` writes a string to a file. `string` is the
memory at the address of the string. -/
def fileio_printstring (handle : Int) (string : List Nat) (length : Int) : Basic Unit := do
  let handle ← print_start handle
  if length < SHORT_STRING then
    fileio_write handle PRINT_SHORTSTR
    fileio_write handle length
    if length > 0 then printstring_short handle string length.toNat
  else
    fileio_write handle PRINT_LONGSTR
    printstring_length handle 4 length
    let result ← stream_fwrite handle string length.toNat
    if result ≠ length then error errnum.ERR_CANTWRITE
  modfb handle (fun b => { b with lastwaswrite := true })

/-! ## Opening and closing files -/

/-- The modes files are opened in: "r", "w+" and "r+" ("rb", "wb+" and "rb+"
under DOS). -/
inductive openmode where
  | INMODE
  | OUTMODE
  | UPMODE
  deriving DecidableEq, Repr

/-- What fileio.c takes from the host system and from other modules.  The
results of these calls are not determined by fileio.c, so they are parameters
of the embedding. -/
structure Host where
  /-- `FNAMESIZE` is `FILENAME_MAX` of the C library. -/
  FNAMESIZE : Int
  /-- `fopen`: a fresh stream, or `none` for NIL. -/
  fopen : List Nat → openmode → Option FILE
  /-- `translatefname` of miscprocs.c. -/
  translatefname : List Nat → List Nat
  /-- `brandynet_connect` of net.c: a network handle, or -1. -/
  brandynet_connect : List Nat → Nat → Int → Int
  /-- `net_bget` of net.c: a character, or -2. -/
  net_bget : Int → Int
  /-- `net_bput` of net.c: not zero if the write failed. -/
  net_bput : Int → Int → Int
  /-- `net_bputstr` of net.c: not zero if the write failed. -/
  net_bputstr : Int → List Nat → Int → Int
  /-- `net_eof` of net.c. -/
  net_eof : Int → Int
  /-- `kbd_pending` of keyboard.c. -/
  kbd_pending : Int
  /-- The bytes of the `float64` value 1.0 in the memory of the host. -/
  one_image : List Nat

/-- The loop `for (n=0; n<MAXFILES && fileinfo[n].stream!=NIL; n++);` that finds
an unused handle. `fuel` bounds the number of iterations; `MAXFILES`
iterations are enough (`find_unused_exit`). -/
def find_unused (fileinfo : Nat → fileblock) : Nat → Nat → Nat
  | 0, n => n
  | fuel + 1, n =>
    if n < MAXFILES ∧ (fileinfo n).stream ≠ streamptr.NIL then find_unused fileinfo fuel (n + 1)
    else n

/-- The assignments that enter an opened stream in slot `n`. -/
def State.enter (s : State) (n : Nat) (stream : streamptr) (filetype : filestate) : State :=
  s.setfb n { s.fileinfo n with
    stream := stream, filetype := filetype, eofstatus := eofstate.OKAY, lastwaswrite := false }

/-- The suffix ".bbc". -/
def bbc_suffix : List Nat := [46, 98, 98, 99]

/-- The function `fileio_openin` opens a file for input. -/
def fileio_openin (host : Host) (name : List Nat) (namelen : Int) : Basic Int := fun s =>
  if namelen < 0 ∨ namelen > host.FNAMESIZE - 1 then Outcome.error errnum.ERR_INVALIDFNAME s
  else
    let n := find_unused s.fileinfo MAXFILES 0
    if n ≥ MAXFILES then Outcome.error errnum.ERR_MAXHANDLE s
    else
      let filename := cstr (name.take namelen.toNat)
      match host.fopen filename openmode.INMODE with
      | some thefile =>
        Outcome.ok (FIRSTHANDLE - n) (s.enter n (streamptr.file thefile) filestate.OPENIN)
      | none =>
        match host.fopen (filename ++ bbc_suffix) openmode.INMODE with
        | some thefile =>
          Outcome.ok (FIRSTHANDLE - n) (s.enter n (streamptr.file thefile) filestate.OPENIN)
        | none =>
          if s.matrixflags_translatefname = 0 then Outcome.ok 0 s
          else
            match host.fopen (host.translatefname filename) openmode.INMODE with
            | none => Outcome.ok 0 s
            | some thefile =>
              Outcome.ok (FIRSTHANDLE - n)
                ({ s with matrixflags_translatefname := 1 }.enter n
                  (streamptr.file thefile) filestate.OPENIN)

/-- The function `fileio_openout` opens file `name` for output, creating the file (or
recreating it if it already exists). -/
def fileio_openout (host : Host) (name : List Nat) (namelen : Int) : Basic Int := fun s =>
  if namelen < 0 ∨ namelen > host.FNAMESIZE - 1 then Outcome.error errnum.ERR_INVALIDFNAME s
  else
    let n := find_unused s.fileinfo MAXFILES 0
    if n ≥ MAXFILES then Outcome.error errnum.ERR_MAXHANDLE s
    else
      let filename := cstr (name.take namelen.toNat)
      let thefile :=
        if s.matrixflags_translatefname = 1 then
          host.fopen (host.translatefname filename) openmode.OUTMODE
        else host.fopen filename openmode.OUTMODE
      match thefile with
      | none => Outcome.error errnum.ERR_OPENWRITE s
      | some thefile =>
        Outcome.ok (FIRSTHANDLE - n) (s.enter n (streamptr.file thefile) filestate.OPENOUT)

/-- The names "ip0:", "ip4:" and "ip6:" that start a network address. -/
def ip_names : List (List Nat) := [[105, 112, 48, 58], [105, 112, 52, 58], [105, 112, 54, 58]]

/-- The function `fileio_openup` opens a file for update. The file must exist
already. -/
def fileio_openup (host : Host) (name : List Nat) (namelen : Int) : Basic Int := fun s =>
  if namelen < 0 ∨ namelen > host.FNAMESIZE - 1 then Outcome.error errnum.ERR_INVALIDFNAME s
  else
    let n := find_unused s.fileinfo MAXFILES 0
    if n ≥ MAXFILES then Outcome.error errnum.ERR_MAXHANDLE s
    else
      let filename := cstr (name.take namelen.toNat)
      if filename.take 4 ∈ ip_names then
        let handle := host.brandynet_connect (filename.drop 4) (filename.getD 2 0) 1
        if handle = -1 then Outcome.ok 0 s
        else
          Outcome.ok (FIRSTHANDLE - n)
            (s.setfb n { stream := streamptr.raw 42, filetype := filestate.NETWORK,
                         eofstatus := eofstate.OKAY, lastwaswrite := false, nethandle := handle })
      else
        match host.fopen filename openmode.UPMODE with
        | some thefile =>
          Outcome.ok (FIRSTHANDLE - n) (s.enter n (streamptr.file thefile) filestate.OPENUP)
        | none =>
          match host.fopen (filename ++ bbc_suffix) openmode.UPMODE with
          | some thefile =>
            Outcome.ok (FIRSTHANDLE - n) (s.enter n (streamptr.file thefile) filestate.OPENUP)
          | none =>
            if s.matrixflags_translatefname = 0 then Outcome.ok 0 s
            else
              match host.fopen (host.translatefname filename) openmode.UPMODE with
              | none => Outcome.ok 0 s
              | some thefile =>
                Outcome.ok (FIRSTHANDLE - n)
                  ({ s with matrixflags_translatefname := 1 }.enter n
                    (streamptr.file thefile) filestate.OPENUP)

/-- The function `close_file` is used locally to close a file or network channel;
`handle` is an index of `fileinfo`.  The call of `brandynet_close` acts on the
data of net.c only, which is not part of the state. -/
def close_file (handle : Nat) : Basic Unit := do
  if (handle : Int) ≤ FIRSTHANDLE ∧ (← getfb handle).filetype = filestate.NETWORK then
    modfb handle (fun b => { b with
      stream := streamptr.NIL, filetype := filestate.CLOSED, lastwaswrite := false,
      nethandle := -1 })
  else
    let _ ← on_stream handle fclose
    modfb handle (fun b => { b with
      stream := streamptr.NIL, filetype := filestate.CLOSED, lastwaswrite := false })

/-- The loop of `fileio_close` that closes all open files, for the slots `n` to
`n + k - 1`. -/
def close_all : Nat → Nat → Basic Unit
  | 0, _ => pure ()
  | k + 1, n => do
    if (← getfb n).filetype ≠ filestate.CLOSED then close_file n
    close_all k (n + 1)

/-- The function `fileio_close` closes the file given by `handle` or all open files if
`handle` is zero. -/
def fileio_close (handle : Int) : Basic Unit := do
  if handle = 0 then
    close_all MAXFILES 0
  else
    let n ← map_handle handle
    if (← getfb n).filetype ≠ filestate.CLOSED then close_file n

/-! ## The other functions that take a handle -/

/-- The function `fileio_bget` returns the next character from file `handle`. -/
def fileio_bget (host : Host) (handle : Int) : Basic Int := do
  if handle = 0 then error errnum.ERR_BADHANDLE
  let handle ← map_handle handle
  if (← getfb handle).filetype = filestate.NETWORK then
    let ch := host.net_bget (← getfb handle).nethandle
    if ch = -2 then
      if (← getfb handle).eofstatus = eofstate.PENDING then
        modfb handle (fun b => { b with eofstatus := eofstate.ATEOF })
        error errnum.ERR_HITEOF
      else
        modfb handle (fun b => { b with eofstatus := eofstate.PENDING })
    pure ch
  else
    if (← getfb handle).eofstatus ≠ eofstate.OKAY then
      modfb handle (fun b => { b with eofstatus := eofstate.ATEOF })
      error errnum.ERR_HITEOF
    else if (← getfb handle).filetype = filestate.OPENOUT then
      modfb handle (fun b => { b with eofstatus := eofstate.PENDING })
    flush_written handle
    let ch ← on_stream handle fgetc
    if ch = EOF then
      modfb handle (fun b => { b with eofstatus := eofstate.PENDING, lastwaswrite := false })
      pure 0
    else
      modfb handle (fun b => { b with lastwaswrite := false })
      pure ch

/-- The function `fileio_getdol` reads a string from a file. The result is the number
of characters read (minus line end characters) and the contents of `buffer`,
the NUL that `fgets` adds included.  A line that starts with NUL makes the
function look at the byte before the buffer, which is undefined. -/
def fileio_getdol (handle : Int) : Basic (Int × List Nat) := do
  if handle = 0 then error errnum.ERR_BADHANDLE
  let handle ← map_handle handle
  check_eof handle
  flush_written handle
  match (← on_stream handle (fgets MAXSTRING)) with
  | none => error errnum.ERR_CANTREAD
  | some line =>
    let buffer := line ++ [0]
    let length : Nat := (cstr buffer).length
    if length = 0 then
      (fun s => Outcome.fault s : Basic (Int × List Nat))
    else if buffer.getD (length - 1) 0 = 10 then
      if length - 1 > 0 ∧ buffer.getD (length - 2) 0 = 13 then
        pure (((length - 2 : Nat) : Int), buffer)
      else pure (((length - 1 : Nat) : Int), buffer)
    else pure ((length : Int), buffer)

/-- The function `fileio_bput` writes a character to a file. -/
def fileio_bput (host : Host) (handle : Int) (value : Int) : Basic Unit := do
  if handle = 0 then error errnum.ERR_BADHANDLE
  let handle ← map_handle handle
  if (← getfb handle).filetype = filestate.NETWORK then
    if host.net_bput (← getfb handle).nethandle value ≠ 0 then error errnum.ERR_CANTWRITE
  else
    if (← getfb handle).filetype = filestate.OPENIN then error errnum.ERR_OPENIN
    modfb handle (fun b => { b with eofstatus := eofstate.OKAY })
    let result ← on_stream handle (fputc value)
    if result = EOF then error errnum.ERR_CANTWRITE
    modfb handle (fun b => { b with lastwaswrite := true })

/-- The function `fileio_bputstr` writes a string to a file. -/
def fileio_bputstr (host : Host) (handle : Int) (string : List Nat) (length : Int) :
    Basic Unit := do
  if handle = 0 then error errnum.ERR_BADHANDLE
  let handle ← map_handle handle
  if (← getfb handle).filetype = filestate.NETWORK then
    if host.net_bputstr (← getfb handle).nethandle string length ≠ 0 then
      error errnum.ERR_CANTWRITE
  else
    if (← getfb handle).filetype = filestate.OPENIN then error errnum.ERR_OPENIN
    modfb handle (fun b => { b with eofstatus := eofstate.OKAY })
    let result ← stream_fwrite handle string length.toNat
    if result ≠ length then error errnum.ERR_CANTWRITE
    modfb handle (fun b => { b with lastwaswrite := true })

/-- The function `fileio_setptr` is used to set the current file pointer. -/
def fileio_setptr (handle : Int) (newoffset : Int) : Basic Unit := do
  if handle = 0 then error errnum.ERR_BADHANDLE
  let handle ← map_handle handle
  let result ← on_stream handle (fseek_set newoffset)
  if result = -1 then error errnum.ERR_SETPTRFAIL
  modfb handle (fun b => { b with eofstatus := eofstate.OKAY })

/-- The function `fileio_getptr` returns the current value of the file pointer. -/
def fileio_getptr (handle : Int) : Basic Int := do
  if handle = 0 then pure 0
  else
    let handle ← map_handle handle
    let result ← on_stream handle ftell
    if result = -1 then error errnum.ERR_GETPTRFAIL
    pure result

/-- The function `fileio_getext` returns the size of a file. -/
def fileio_getext (handle : Int) : Basic Int := do
  if handle = 0 then error errnum.ERR_BADHANDLE
  let handle ← map_handle handle
  let position ← on_stream handle ftell
  if position = -1 then error errnum.ERR_GETEXTFAIL
  let _ ← on_stream handle fseek_end
  let length ← on_stream handle ftell
  let _ ← on_stream handle (fseek_set position)
  pure length

/-- The function `fileio_setext` allows the size of a file to be changed. -/
def fileio_setext (handle : Int) (newsize : Int) : Basic Unit := do
  let handle ← map_handle handle
  let type := (← getfb handle).filetype
  if type = filestate.OPENOUT ∨ type = filestate.OPENUP then
    if (← on_stream handle (ftruncate newsize)) ≠ 0 then error errnum.ERR_CMDFAIL
  else error errnum.ERR_CANTWRITE

/-- The function `fileio_eof` returns the current end-of-file state of file
`handle`, returning TRUE (1) if it is at end-of-file. -/
def fileio_eof (host : Host) (handle : Int) : Basic Int := do
  if handle = 0 then pure host.kbd_pending
  else
    let handle ← map_handle handle
    if (← getfb handle).filetype = filestate.NETWORK then
      pure (host.net_eof (← getfb handle).nethandle)
    else
      let position ← on_stream handle ftell
      if position = -1 then
        pure (if (← on_stream handle feof) ≠ 0 then 1 else 0)
      else
        let _ ← on_stream handle fseek_end
        let ateof : Int := if (← on_stream handle ftell) = position then 1 else 0
        let _ ← on_stream handle (fseek_set position)
        pure ateof

/-- The loop of `fileio_shutdown` over the slots `n` to `n + k - 1`; the
result is the number of files closed, added to `count`. -/
def shutdown_slots : Nat → Nat → Nat → Basic Nat
  | 0, _, count => pure count
  | k + 1, n, count => do
    if (← getfb n).filetype ≠ filestate.CLOSED then
      close_file n
      shutdown_slots k (n + 1) (count + 1)
    else shutdown_slots k (n + 1) count

/-- The function `fileio_shutdown` is called at the end of a run to ensure that all
files opened by the program have been closed.  The result is the number of
files it closed, which decides the note it prints. -/
def fileio_shutdown : Basic Nat := shutdown_slots MAXFILES 0 0

/-- The function `find_floatformat` works out what format the machine stores eight byte
floating point numbers in, from the bytes of the value 1.0. -/
def find_floatformat (host : Host) : Basic Unit := fun s =>
  if host.one_image.getD 3 0 = 0x3f then
    Outcome.ok () { s with double_type := floatformat.XMIXED_ENDIAN }
  else if host.one_image.getD 7 0 = 0x3f then
    Outcome.ok () { s with double_type := floatformat.XLITTLE_ENDIAN }
  else if host.one_image.getD 0 0 = 0x3f then
    Outcome.ok () { s with double_type := floatformat.XBIG_ENDIAN }
  else if host.one_image.getD 4 0 = 0x3f then
    Outcome.ok () { s with double_type := floatformat.XBIG_MIXED_ENDIAN }
  else
    Outcome.error errnum.WARN_FUNNYFLOAT { s with double_type := floatformat.XLITTLE_ENDIAN }

/-- The loop of `init_fileio` over the slots `n` to `n + k - 1`. -/
def init_slots : Nat → Nat → Basic Unit
  | 0, _ => pure ()
  | k + 1, n => do
    modfb n (fun b => { b with
      stream := streamptr.NIL, filetype := filestate.CLOSED, eofstatus := eofstate.ATEOF })
    init_slots k (n + 1)

/-- The function `init_fileio` is called to initialise the file handling. -/
def init_fileio (host : Host) : Basic Unit := do
  init_slots MAXFILES 0
  find_floatformat host

/-! ## Vocabulary of the properties -/

/-- The index of `fileinfo` a handle stands for. -/
def slot_of (handle : Int) : Nat := (FIRSTHANDLE - handle).toNat

/-- The handle is one of the handles 230 to 254 and its slot holds the open
stream `f`. -/
def OpenFile (s : State) (handle : Int) (f : FILE) : Prop :=
  230 ≤ handle ∧ handle ≤ 254 ∧
  (s.fileinfo (slot_of handle)).filetype ≠ filestate.CLOSED ∧
  (s.fileinfo (slot_of handle)).stream = streamptr.file f

/-- The handle is open for writing (by OPENOUT or OPENUP) on the stream `f`. -/
def OpenForWriting (s : State) (handle : Int) (f : FILE) : Prop :=
  OpenFile s handle f ∧
  ((s.fileinfo (slot_of handle)).filetype = filestate.OPENOUT ∨
   (s.fileinfo (slot_of handle)).filetype = filestate.OPENUP)

/-- The handle is open on the stream `f` and no end of file is pending, so
that the next item can be read. -/
def OpenForReading (s : State) (handle : Int) (f : FILE) : Prop :=
  OpenFile s handle f ∧ (s.fileinfo (slot_of handle)).eofstatus = eofstate.OKAY

/-- The bytes that were written to a stream between the moment it was `f` and
the moment it is `f1`: the contents of the file from the old to the new file
position. -/
def written (f f1 : FILE) : List Nat := (f1.data.drop f.pos).take (f1.pos - f.pos)

/-- The function never leaves by `error(e)`. -/
def NeverRaises {α : Type} (e : errnum) (m : Basic α) : Prop :=
  ∀ s s', m s ≠ Outcome.error e s'

/-- The state a `fileio_print` function leaves when the stream of slot `n` has
become `f1`: the end-of-file status is reset and the write is recorded. -/
def State.printed (s : State) (n : Nat) (f1 : FILE) : State :=
  s.setfb n { s.fileinfo n with
    stream := streamptr.file f1, eofstatus := eofstate.OKAY, lastwaswrite := true }

/-- The state a function that reads an item leaves when the stream of slot `n`
has become `g1`: a write is no longer recorded as the last operation. -/
def State.afterread (s : State) (n : Nat) (g1 : FILE) : State :=
  s.setfb n { s.fileinfo n with stream := streamptr.file g1, lastwaswrite := false }

/-! ## Concrete states on which the properties are exercised -/

/-- The contents of a slot after `init_fileio`. -/
def closed_block : fileblock :=
  { stream := streamptr.NIL, filetype := filestate.CLOSED, eofstatus := eofstate.ATEOF,
    lastwaswrite := false, nethandle := 0 }

/-- A file table in which only slot 0 (handle 254) is in use: it holds the
stream `f`, opened in the way `filetype` says. -/
def demo_state (f : FILE) (filetype : filestate) : State :=
  { fileinfo := fun n =>
      if n = 0 then
        { stream := streamptr.file f, filetype := filetype, eofstatus := eofstate.OKAY,
          lastwaswrite := false, nethandle := 0 }
      else closed_block
    double_type := floatformat.XLITTLE_ENDIAN
    matrixflags_translatefname := 0 }

/-- An empty stream. -/
def empty_file : FILE := { data := [], pos := 0 }

/-- Some contents of the variables `fileio_getnumber` stores its result in. -/
def demo_out : numvars := { isint := false, ip := 0, fp := float64.image [] }

/-- The state in which a function of fileio.c ends. -/
def Outcome.state {α : Type} : Outcome α → State
  | Outcome.ok _ s => s
  | Outcome.error _ s => s
  | Outcome.fault s => s

/-- What a stream pointer is (NIL, a stream, another address), whatever the
contents of the stream. -/
def streamptr.kind : streamptr → streamptr
  | streamptr.file _ => streamptr.file empty_file
  | p => p

/-- The slots of the two file tables are open in the same way, on streams of
the same kind. -/
def SameTable (s s' : State) : Prop :=
  ∀ n, (s'.fileinfo n).filetype = (s.fileinfo n).filetype ∧
    (s'.fileinfo n).stream.kind = (s.fileinfo n).stream.kind

/-- The function opens and closes nothing, however it ends. -/
def Keeps {α : Type} (m : Basic α) : Prop :=
  ∀ s, SameTable s (m s).state

/-- The three functions that open a file. -/
def opens : List (Host → List Nat → Int → Basic Int) :=
  [fileio_openin, fileio_openout, fileio_openup]

/-- A slot is in a state that `init_fileio` and the functions of fileio.c
produce: a closed slot has no stream, a network channel has the dummy stream
pointer and every other slot in use has a stream. -/
def fileblock.ok (b : fileblock) : Prop :=
  match b.filetype with
  | filestate.CLOSED => b.stream = streamptr.NIL
  | filestate.NETWORK => b.stream = streamptr.raw 42
  | _ => ∃ f, b.stream = streamptr.file f

/-- Every slot of the file table is in such a state. -/
def Consistent (s : State) : Prop :=
  ∀ n, n < MAXFILES → (s.fileinfo n).ok

/-- The contents of a slot after `close_file`. -/
def fileblock.closed (b : fileblock) : fileblock :=
  if b.filetype = filestate.NETWORK then
    { b with stream := streamptr.NIL, filetype := filestate.CLOSED, lastwaswrite := false,
             nethandle := -1 }
  else
    { b with stream := streamptr.NIL, filetype := filestate.CLOSED, lastwaswrite := false }

/-- The function leaves by `error(e)` without having changed anything. -/
def Raises {α : Type} (e : errnum) (m : Basic α) (s : State) : Prop :=
  m s = Outcome.error e s

/-- A host on which every file can be opened (as an empty file), no network
connection can be made and `FILENAME_MAX` is 4096. -/
def demo_host : Host :=
  { FNAMESIZE := 4096
    fopen := fun _ _ => some empty_file
    translatefname := fun name => name
    brandynet_connect := fun _ _ _ => -1
    net_bget := fun _ => -2
    net_bput := fun _ _ => 1
    net_bputstr := fun _ _ _ => 1
    net_eof := fun _ => 1
    kbd_pending := 0
    one_image := [0, 0, 0, 0, 0, 0, 240, 63] }

/-- The file table after `init_fileio`: every slot is closed. -/
def closed_table : State :=
  { fileinfo := fun _ => closed_block
    double_type := floatformat.XLITTLE_ENDIAN
    matrixflags_translatefname := 0 }

/-- A file table in which all slots are in use, each with an empty file that
is open for output. -/
def full_table : State :=
  { fileinfo := fun _ =>
      { stream := streamptr.file empty_file, filetype := filestate.OPENOUT,
        eofstatus := eofstate.OKAY, lastwaswrite := false, nethandle := 0 }
    double_type := floatformat.XLITTLE_ENDIAN
    matrixflags_translatefname := 0 }

/-- Every function of fileio.c that takes a handle (the read, write, pointer
and close operations), called with `handle` in the state `t`, raises
ERR_BADHANDLE and changes nothing, whatever its other arguments are. -/
def Rejected (host : Host) (handle : Int) (t : State) : Prop :=
  Raises errnum.ERR_BADHANDLE (fileio_bget host handle) t ∧
  Raises errnum.ERR_BADHANDLE (fileio_getdol handle) t ∧
  (∀ out, Raises errnum.ERR_BADHANDLE (fileio_getnumber handle out) t) ∧
  (∀ p, Raises errnum.ERR_BADHANDLE (fileio_getstring handle p) t) ∧
  (∀ value, Raises errnum.ERR_BADHANDLE (fileio_bput host handle value) t) ∧
  (∀ string length, Raises errnum.ERR_BADHANDLE (fileio_bputstr host handle string length) t) ∧
  (∀ value, Raises errnum.ERR_BADHANDLE (fileio_printint handle value) t) ∧
  (∀ value, Raises errnum.ERR_BADHANDLE (fileio_printuint8 handle value) t) ∧
  (∀ value, Raises errnum.ERR_BADHANDLE (fileio_printint64 handle value) t) ∧
  (∀ value, Raises errnum.ERR_BADHANDLE (fileio_printfloat handle value) t) ∧
  (∀ string length, Raises errnum.ERR_BADHANDLE (fileio_printstring handle string length) t) ∧
  (∀ newoffset, Raises errnum.ERR_BADHANDLE (fileio_setptr handle newoffset) t) ∧
  Raises errnum.ERR_BADHANDLE (fileio_getptr handle) t ∧
  Raises errnum.ERR_BADHANDLE (fileio_getext handle) t ∧
  (∀ newsize, Raises errnum.ERR_BADHANDLE (fileio_setext handle newsize) t) ∧
  Raises errnum.ERR_BADHANDLE (fileio_eof host handle) t ∧
  Raises errnum.ERR_BADHANDLE (fileio_close handle) t

/-- The states of the static data that a run of the interpreter can be in:
`init_fileio` has been called, and after it the functions of fileio.c, with
any arguments and ending in any way; other modules may change the flag
`matrixflags.translatefname`. -/
inductive Reachable (host : Host) : State → Prop where
  | init (s0 : State) : Reachable host (init_fileio host s0).state
  | flag (s : State) (v : Int) : Reachable host s →
      Reachable host { s with matrixflags_translatefname := v }
  | openin (s : State) (name : List Nat) (namelen : Int) : Reachable host s →
      Reachable host (fileio_openin host name namelen s).state
  | openout (s : State) (name : List Nat) (namelen : Int) : Reachable host s →
      Reachable host (fileio_openout host name namelen s).state
  | openup (s : State) (name : List Nat) (namelen : Int) : Reachable host s →
      Reachable host (fileio_openup host name namelen s).state
  | close (s : State) (handle : Int) : Reachable host s →
      Reachable host (fileio_close handle s).state
  | shutdown (s : State) : Reachable host s → Reachable host (fileio_shutdown s).state
  | bget (s : State) (handle : Int) : Reachable host s →
      Reachable host (fileio_bget host handle s).state
  | getdol (s : State) (handle : Int) : Reachable host s →
      Reachable host (fileio_getdol handle s).state
  | getnumber (s : State) (handle : Int) (out : numvars) : Reachable host s →
      Reachable host (fileio_getnumber handle out s).state
  | getstring (s : State) (handle : Int) (p : List Nat) : Reachable host s →
      Reachable host (fileio_getstring handle p s).state
  | bput (s : State) (handle value : Int) : Reachable host s →
      Reachable host (fileio_bput host handle value s).state
  | bputstr (s : State) (handle : Int) (string : List Nat) (length : Int) : Reachable host s →
      Reachable host (fileio_bputstr host handle string length s).state
  | printint (s : State) (handle value : Int) : Reachable host s →
      Reachable host (fileio_printint handle value s).state
  | printuint8 (s : State) (handle value : Int) : Reachable host s →
      Reachable host (fileio_printuint8 handle value s).state
  | printint64 (s : State) (handle value : Int) : Reachable host s →
      Reachable host (fileio_printint64 handle value s).state
  | printfloat (s : State) (handle : Int) (value : List Nat) : Reachable host s →
      Reachable host (fileio_printfloat handle value s).state
  | printstring (s : State) (handle : Int) (string : List Nat) (length : Int) :
      Reachable host s → Reachable host (fileio_printstring handle string length s).state
  | setptr (s : State) (handle newoffset : Int) : Reachable host s →
      Reachable host (fileio_setptr handle newoffset s).state
  | getptr (s : State) (handle : Int) : Reachable host s →
      Reachable host (fileio_getptr handle s).state
  | getext (s : State) (handle : Int) : Reachable host s →
      Reachable host (fileio_getext handle s).state
  | setext (s : State) (handle newsize : Int) : Reachable host s →
      Reachable host (fileio_setext handle newsize s).state
  | eof (s : State) (handle : Int) : Reachable host s →
      Reachable host (fileio_eof host handle s).state

/-! # The Basic stack and the error handlers (`src/basicdefs.h`)

basicdefs.h declares the items found on the Basic stack, the error block and
the interpreter's work space.  The functions that act on them (stack.c,
errors.c) are not part of the sources at hand: they are modelled from the
contracts of the specification, over these declarations.

Conventions

* An address is a `Nat`; NIL is 0.  Memory is a function from addresses to
  the values stored there, one unit of memory for the `itemtype` of a stack
  entry and one for each further value of it.
* A value of the enumeration `stackitem` is the `Nat` that C gives it.
-/

/-! ## The types describing items found on the Basic stack -/

/-- The values of the enumeration `stackitem`, in the order of the declaration:
`STACK_UNKNOWN` is 0 and `STACK_HIGHEST` is 0x22. -/
def STACK_UNKNOWN : Nat := 0
def STACK_LVALUE : Nat := 1
def STACK_UINT8 : Nat := 2
def STACK_INT : Nat := 3
def STACK_INT64 : Nat := 4
def STACK_FLOAT : Nat := 5
def STACK_STRING : Nat := 6
def STACK_STRTEMP : Nat := 7
def STACK_INTARRAY : Nat := 8
def STACK_IATEMP : Nat := 9
def STACK_UINT8ARRAY : Nat := 10
def STACK_U8ATEMP : Nat := 11
def STACK_INT64ARRAY : Nat := 12
def STACK_I64ATEMP : Nat := 13
def STACK_FLOATARRAY : Nat := 14
def STACK_FATEMP : Nat := 15
def STACK_STRARRAY : Nat := 16
def STACK_SATEMP : Nat := 17
def STACK_LOCARRAY : Nat := 18
def STACK_LOCSTRING : Nat := 19
def STACK_GOSUB : Nat := 20
def STACK_PROC : Nat := 21
def STACK_FN : Nat := 22
def STACK_LOCAL : Nat := 23
def STACK_RETPARM : Nat := 24
def STACK_WHILE : Nat := 25
def STACK_REPEAT : Nat := 26
def STACK_INTFOR : Nat := 27
def STACK_INT64FOR : Nat := 28
def STACK_FLOATFOR : Nat := 29
def STACK_ERROR : Nat := 30
def STACK_DATA : Nat := 31
def STACK_OPSTACK : Nat := 32
def STACK_RESTART : Nat := 33
def STACK_HIGHEST : Nat := 34

/-- The address NIL. -/
def NIL : Nat := 0

/-- The structure `errorblock`. -/
structure errorblock where
  /-- TRUE if this is a 'ON ERROR LOCAL' error block. -/
  islocal : Bool
  /-- Value of `current` when restarting after an error; NIL when no handler
  is installed. -/
  current : Nat
  /-- Value of the Basic stack pointer when restarting. -/
  stacktop : Nat
  deriving DecidableEq, Repr

/-- The fields of the structure `workspace` that the Basic stack and the error
handlers use, and the contents of Basic's memory.  The `sigjmp_buf` fields hold
the C control state of a restart; the embedding gives the point where control
resumes as the result of `raise` instead. -/
structure workspace where
  /-- The contents of Basic's memory. -/
  memory : Nat → Nat
  /-- Point beyond which stack dares not tread. -/
  stacklimit : Nat
  /-- Basic stack pointer (full, descending stack). -/
  stacktop : Nat
  /-- Current pointer into Basic program. -/
  current : Nat
  /-- Line number of last error. -/
  error_line : Int
  /-- Number of last error. -/
  error_number : Int
  /-- 'ON ERROR' error handler details. -/
  error_handler : errorblock

/-- An entry of the Basic stack: every `stack_...` structure starts with
`stackitem itemtype`; `payload` holds the values of the fields after it. -/
structure frame where
  itemtype : Nat
  payload : List Nat
  deriving DecidableEq, Repr

/-- The failures of the stack operations. -/
inductive stackerr where
  | StackOverflow
  | StackCorruption
  deriving DecidableEq, Repr

/-- Store the values `cells` at the addresses from `addr` on. -/
def store (memory : Nat → Nat) (addr : Nat) (cells : List Nat) : Nat → Nat :=
  fun a => if addr ≤ a ∧ a < addr + cells.length then cells.getD (a - addr) 0 else memory a

/-- The `n` values at the addresses from `addr` on. -/
def load (memory : Nat → Nat) (addr : Nat) (n : Nat) : List Nat :=
  (List.range n).map (fun i => memory (addr + i))

/-- Modelled from the spec: `push(frame)` of stack.c, which is not among the
sources. "`push(frame)` writes a tagged frame below the current top and
decrements the stack pointer by the frame's size; fails with `StackOverflow`
if the new pointer would cross `stacklimit`."  The tag determines the size of
the frame: `entrysize` is the table of the sizes of the entries (kept at the
top of stack.c), the `itemtype` included. -/
def push (entrysize : Nat → Nat) (f : frame) (w : workspace) : Except stackerr workspace :=
  if w.stacktop < w.stacklimit + entrysize f.itemtype then
    Except.error stackerr.StackOverflow
  else
    Except.ok { w with
      stacktop := w.stacktop - entrysize f.itemtype
      memory := store w.memory (w.stacktop - entrysize f.itemtype)
        (f.itemtype :: (List.range (entrysize f.itemtype - 1)).map (fun i => f.payload.getD i 0)) }

/-- Modelled from the spec: `peekTag()` of stack.c. "`peekTag()` reads the top
frame's discriminant without popping." -/
def peekTag (w : workspace) : Nat := w.memory w.stacktop

/-- Modelled from the spec: `pop(expectedTag)` of stack.c. "`pop(expectedTag)`
removes and returns the top frame's payload; fails with `StackCorruption` if
`expectedTag` does not match the physical tag." -/
def pop (entrysize : Nat → Nat) (expectedTag : Nat) (w : workspace) :
    Except stackerr (List Nat × workspace) :=
  if peekTag w ≠ expectedTag then Except.error stackerr.StackCorruption
  else
    Except.ok (load w.memory (w.stacktop + 1) (entrysize expectedTag - 1),
      { w with stacktop := w.stacktop + entrysize expectedTag })

/-- A sequence of pushes, the first frame of the list first. -/
def pushall (entrysize : Nat → Nat) : List frame → workspace → Except stackerr workspace
  | [], w => Except.ok w
  | f :: fs, w => do
    let w1 ← push entrysize f w
    pushall entrysize fs w1

/-- A sequence of pops, one for each expected tag of the list.  Before each
pop the tag of the top frame is read; the result lists the tag read and the
payload popped, in the order of the pops. -/
def popall (entrysize : Nat → Nat) : List Nat → workspace →
    Except stackerr (List frame × workspace)
  | [], w => Except.ok ([], w)
  | t :: ts, w => do
    let tag := peekTag w
    let (payload, w1) ← pop entrysize t w
    let (rest, w2) ← popall entrysize ts w1
    pure ({ itemtype := tag, payload := payload } :: rest, w2)

/-- The frame has the size that its tag gives it. -/
def frame.sized (entrysize : Nat → Nat) (f : frame) : Prop :=
  f.payload.length + 1 = entrysize f.itemtype

instance (entrysize : Nat → Nat) (f : frame) : Decidable (f.sized entrysize) := by
  unfold frame.sized; exact inferInstance

/-- The room that a sequence of pushes takes on the stack. -/
def room (entrysize : Nat → Nat) (fs : List frame) : Nat :=
  (fs.map (fun f => entrysize f.itemtype)).sum

/-! ## The error handlers -/

/-- The values of an `errorblock`, as the entry `stack_error` holds them after
its `itemtype`. -/
def errorblock.cells (h : errorblock) : List Nat :=
  [if h.islocal then 1 else 0, h.current, h.stacktop]

/-- The `errorblock` that the values of a `stack_error` entry stand for. -/
def errorblock.ofCells (cells : List Nat) : errorblock :=
  { islocal := cells.getD 0 0 ≠ 0, current := cells.getD 1 0, stacktop := cells.getD 2 0 }

/-- Modelled from the spec: `installHandler(isLocal, resumeTarget)`, the code of
`ON ERROR` and `ON ERROR LOCAL`, which is not among the sources.
"`installHandler(isLocal, resumeTarget)` pushes (for local) or overwrites (for
global) the relevant jump target and, for local handlers, pushes a
`saved-error-handler` frame recording the previous handler so it can be
restored when the local scope exits normally."  The descriptor of the handler
holds the "saved resume point in program text" and the "saved stack-top at
time of installation": the watermark is the stack pointer at the moment of the
call, so that the saved-error-handler frame is one of the "frames pushed since
installation". -/
def installHandler (entrysize : Nat → Nat) (isLocal : Bool) (resumeTarget : Nat)
    (w : workspace) : Except stackerr workspace :=
  if isLocal then do
    let w1 ← push entrysize { itemtype := STACK_ERROR, payload := w.error_handler.cells } w
    pure { w1 with
      error_handler := { islocal := true, current := resumeTarget, stacktop := w.stacktop } }
  else
    Except.ok { w with
      error_handler := { islocal := false, current := resumeTarget, stacktop := w.stacktop } }

/-- Where control goes when an error is raised: to the resume address of a
handler, or to the top-level run-restart target, which aborts the current
program run. -/
inductive resume where
  | handler (target : Nat)
  | aborted
  deriving DecidableEq, Repr

/-- Modelled from the spec: `raise(errorKind, context)` of errors.c, which is
not among the sources. "It sets the process-wide last-error code/line, then
transfers control to the innermost active handler — local handler if one is
installed and still in scope, otherwise the global `ON ERROR` target, otherwise
the top-level run-restart target which aborts the current program run.
Unwinding must reset the stack pointer to the value recorded at
handler-installation time (the "safe stack" watermark) before resuming
execution at the handler's resume address, discarding any frames pushed since
installation."  A local handler that catches is removed ("spent"): its
saved-error-handler frame, the first frame pushed since its installation, is
popped last and restores the enclosing handler, as on a normal exit from the
scope. -/
def raise (entrysize : Nat → Nat) (errorKind line : Int) (w : workspace) :
    Except stackerr (resume × workspace) :=
  let w := { w with error_number := errorKind, error_line := line }
  let h := w.error_handler
  if h.current = NIL then Except.ok (resume.aborted, w)
  else if h.islocal then do
    let (saved, w1) ← pop entrysize STACK_ERROR
      { w with stacktop := h.stacktop - entrysize STACK_ERROR }
    pure (resume.handler h.current,
      { w1 with current := h.current, error_handler := errorblock.ofCells saved })
  else
    Except.ok (resume.handler h.current,
      { w with stacktop := h.stacktop, current := h.current })

/-- The handler that is active in `w` has been installed and, when it is a
local handler, its saved-error-handler frame is on the stack, above the stack
pointer. -/
def HandlerActive (entrysize : Nat → Nat) (w : workspace) : Prop :=
  w.error_handler.current ≠ NIL ∧
  (w.error_handler.islocal = true →
    w.stacktop + entrysize STACK_ERROR ≤ w.error_handler.stacktop ∧
    w.memory (w.error_handler.stacktop - entrysize STACK_ERROR) = STACK_ERROR)

/-! ## Concrete stacks on which the properties are exercised -/

/-- A table of entry sizes: one unit for the `itemtype` and one for each
further value of the entry. -/
def demo_entrysize (itemtype : Nat) : Nat :=
  if itemtype = STACK_ERROR then 4
  else if itemtype = STACK_STRING ∨ itemtype = STACK_WHILE then 3
  else 2

/-- An integer, a string descriptor and a WHILE block. -/
def demo_frames : List frame :=
  [{ itemtype := STACK_INT, payload := [42] },
   { itemtype := STACK_STRING, payload := [5, 4096] },
   { itemtype := STACK_WHILE, payload := [700, 704] }]

/-- A work space with an empty stack of 100 units on which `ON ERROR` has
installed a handler that resumes at address 600. -/
def demo_work : workspace :=
  { memory := fun _ => 0
    stacklimit := 900
    stacktop := 1000
    current := 640
    error_line := 0
    error_number := 0
    error_handler := { islocal := false, current := 600, stacktop := 1000 } }

/-- The example of the specification with one more level: on `demo_work`, whose
handler H0 resumes at 600, the local handlers H1 (650) and H2 (660) are
installed, frames are pushed and three errors are raised.  The result lists
where each raise resumes and the stack pointer it leaves. -/
def demo_nested : Except stackerr (List (resume × Nat)) := do
  let w1 ← installHandler demo_entrysize true 650 demo_work
  let w2 ← installHandler demo_entrysize true 660 w1
  let w3 ← pushall demo_entrysize demo_frames w2
  let (r1, w4) ← raise demo_entrysize 18 120 w3
  let w5 ← pushall demo_entrysize demo_frames w4
  let (r2, w6) ← raise demo_entrysize 18 130 w5
  let (r3, w7) ← raise demo_entrysize 18 140 w6
  pure [(r1, w4.stacktop), (r2, w6.stacktop), (r3, w7.stacktop)]

/-! # Variable type flags (`src/basicdefs.h`) -/

/-- One-byte integer. -/
def VAR_INTBYTE : Nat := 1
/-- Four-byte integer. -/
def VAR_INTWORD : Nat := 2
/-- Eight byte floating point. -/
def VAR_FLOAT : Nat := 3
/-- String ('string$' type). -/
def VAR_STRINGDOL : Nat := 4
/-- String ('$string' type). -/
def VAR_DOLSTRING : Nat := 5
/-- The 64-bit integer. -/
def VAR_INTLONG : Nat := 6
/-- Unsigned 8-bit integer. -/
def VAR_UINT8 : Nat := 7
/-- Array. -/
def VAR_ARRAY : Nat := 0x08
def VAR_INTARRAY : Nat := VAR_INTWORD + VAR_ARRAY
def VAR_UINT8ARRAY : Nat := VAR_UINT8 + VAR_ARRAY
def VAR_INT64ARRAY : Nat := VAR_INTLONG + VAR_ARRAY
def VAR_FLOATARRAY : Nat := VAR_FLOAT + VAR_ARRAY
def VAR_STRARRAY : Nat := VAR_STRINGDOL + VAR_ARRAY
/-- Pointer. -/
def VAR_POINTER : Nat := 0x10
def VAR_INTBYTEPTR : Nat := VAR_INTBYTE + VAR_POINTER
def VAR_INTWORDPTR : Nat := VAR_INTWORD + VAR_POINTER
def VAR_INT64PTR : Nat := VAR_INTLONG + VAR_POINTER
def VAR_FLOATPTR : Nat := VAR_FLOAT + VAR_POINTER
def VAR_DOLSTRPTR : Nat := VAR_DOLSTRING + VAR_POINTER
/-- Entry is for a procedure. -/
def VAR_PROC : Nat := 0x20
/-- Entry is for a function. -/
def VAR_FUNCTION : Nat := 0x40
/-- Entry marks location of a proc/fn. -/
def VAR_MARKER : Nat := 0x80
/-- Marks variable as a constant. -/
def VAR_FIXED : Nat := 0x100
/-- Marks variable as a 'return' variable. -/
def VAR_RETURN : Nat := 0x200
/-- Mask to extract type of item. -/
def TYPEMASK : Nat := 0x07
/-- Mask for type checking PROC/FN parameters. -/
def TYPECHECKMASK : Nat := 0x0F
/-- Mask to extract PROC/FN parameter type. -/
def PARMTYPEMASK : Nat := 0x1F

/-- The scalar type tags. -/
def scalar_tags : List Nat :=
  [VAR_INTBYTE, VAR_INTWORD, VAR_FLOAT, VAR_STRINGDOL, VAR_DOLSTRING, VAR_INTLONG, VAR_UINT8]

/-- The array tags, each with the type of its elements: the tag that
`VAR_ARRAY` is added to in its definition. -/
def array_tags : List (Nat × Nat) :=
  [(VAR_INTARRAY, VAR_INTWORD), (VAR_UINT8ARRAY, VAR_UINT8), (VAR_INT64ARRAY, VAR_INTLONG),
   (VAR_FLOATARRAY, VAR_FLOAT), (VAR_STRARRAY, VAR_STRINGDOL)]

/-- The pointer tags, each with the type it points to: the tag that
`VAR_POINTER` is added to in its definition. -/
def pointer_tags : List (Nat × Nat) :=
  [(VAR_INTBYTEPTR, VAR_INTBYTE), (VAR_INTWORDPTR, VAR_INTWORD), (VAR_INT64PTR, VAR_INTLONG),
   (VAR_FLOATPTR, VAR_FLOAT), (VAR_DOLSTRPTR, VAR_DOLSTRING)]

/-- All type tags: scalars, arrays, pointers, `VAR_PROC`, `VAR_FUNCTION` and
`VAR_MARKER`. -/
def type_tags : List Nat :=
  scalar_tags ++ array_tags.map Prod.fst ++ pointer_tags.map Prod.fst ++
    [VAR_PROC, VAR_FUNCTION, VAR_MARKER]

/-- The values the flag bits of a variable can have. -/
def flag_values : List Nat := [0, VAR_FIXED, VAR_RETURN, VAR_FIXED ||| VAR_RETURN]

/-! ## Evaluation rules of the embedding

The rules hold by unfolding the definitions.  They are stated through `id` so
that a rewrite with one of them is recorded as a step of the proof: the terms
of the embedding contain arithmetic on 64-bit constants, which must not be
unfolded when a proof is checked. -/

@[simp] theorem pure_run {α : Type} (a : α) (s : State) :
    (pure a : Basic α) s = Outcome.ok a s := id rfl

@[simp] theorem bind_run {α β : Type} (m : Basic α) (g : α → Basic β) (s : State) :
    (m >>= g) s = match m s with
      | Outcome.ok a s' => g a s'
      | Outcome.error e s' => Outcome.error e s'
      | Outcome.fault s' => Outcome.fault s' := id rfl

@[simp] theorem error_run {α : Type} (e : errnum) (s : State) :
    (error e : Basic α) s = Outcome.error e s := id rfl

@[simp] theorem getfb_run (n : Nat) (s : State) : getfb n s = Outcome.ok (s.fileinfo n) s := id rfl

@[simp] theorem modfb_run (n : Nat) (g : fileblock → fileblock) (s : State) :
    modfb n g s = Outcome.ok () (s.setfb n (g (s.fileinfo n))) := id rfl

@[simp] theorem get_double_type_run (s : State) :
    get_double_type s = Outcome.ok s.double_type s := id rfl

@[simp] theorem setfb_fileinfo_same (s : State) (n : Nat) (fb : fileblock) :
    (s.setfb n fb).fileinfo n = fb := by
  simp [State.setfb]

theorem setfb_fileinfo_other (s : State) (n m : Nat) (fb : fileblock) (h : m ≠ n) :
    (s.setfb n fb).fileinfo m = s.fileinfo m := by
  simp [State.setfb, Function.update_noteq h]

@[simp] theorem setfb_setfb (s : State) (n : Nat) (a b : fileblock) :
    (s.setfb n a).setfb n b = s.setfb n b := by
  simp [State.setfb]

@[simp] theorem setfb_double_type (s : State) (n : Nat) (fb : fileblock) :
    (s.setfb n fb).double_type = s.double_type := rfl

@[simp] theorem setfb_translatefname (s : State) (n : Nat) (fb : fileblock) :
    (s.setfb n fb).matrixflags_translatefname = s.matrixflags_translatefname := rfl

theorem setfb_self (s : State) (n : Nat) : s.setfb n (s.fileinfo n) = s := by
  cases s; simp [State.setfb]

/-! ## The in-memory stream -/

theorem tobyte_lt (c : Int) : tobyte c < 256 := by
  unfold tobyte; omega

theorem tobyte_of_lt (b : Nat) (h : b < 256) : tobyte (b : Int) = b := by
  unfold tobyte; omega

theorem tobyte_charval (b : Nat) (h : b < 256) : tobyte (charval b) = b := by
  unfold tobyte charval; split <;> omega

theorem fgetc_of_drop (f : FILE) (b : Nat) (rest : List Nat)
    (h : f.data.drop f.pos = b :: rest) :
    fgetc f = ((b : Int), { f with pos := f.pos + 1 }) := by
  have h1 : f.data[f.pos]? = some b := by
    have := congrArg (fun l => l[0]?) h
    simpa using this
  simp [fgetc, h1]

theorem drop_succ_of_drop (l : List Nat) (n : Nat) (b : Nat) (rest : List Nat)
    (h : l.drop n = b :: rest) : l.drop (n + 1) = rest := by
  have := congrArg (fun l => l.drop 1) h
  simpa [List.drop_drop, Nat.add_comm] using this

theorem fgetc_of_drop_nil (f : FILE) (h : f.data.drop f.pos = []) : fgetc f = (EOF, f) := by
  have h1 : f.data[f.pos]? = none := by
    have := congrArg (fun l => l[0]?) h
    simpa using this
  simp [fgetc, h1]

theorem byte_ne_EOF (b : Nat) : ¬ ((b : Int) = EOF) := by
  unfold EOF; omega

theorem putbyte_pos (b : Nat) (f : FILE) : (putbyte b f).pos = f.pos + 1 := by
  unfold putbyte; split <;> rfl

theorem putbyte_data (b : Nat) (f : FILE) :
    (putbyte b f).data = f.data.take f.pos ++ List.replicate (f.pos - f.data.length) 0
      ++ b :: f.data.drop (f.pos + 1) := by
  unfold putbyte
  split
  · rename_i h
    simp only [List.set_eq_take_append_cons_drop, h, if_true]
    have : f.pos - f.data.length = 0 := by omega
    simp [this]
  · rename_i h
    have h1 : f.data.take f.pos = f.data := List.take_of_length_le (by omega)
    have h2 : f.data.drop (f.pos + 1) = [] := List.drop_of_length_le (by omega)
    simp [h1, h2]

theorem putbytes_pos (bs : List Nat) (f : FILE) : (putbytes bs f).pos = f.pos + bs.length := by
  induction bs generalizing f with
  | nil => rfl
  | cons b bs ih => simp [putbytes, ih, putbyte_pos]; omega

theorem putbytes_data (bs : List Nat) (f : FILE) (h : bs ≠ []) :
    (putbytes bs f).data = f.data.take f.pos ++ List.replicate (f.pos - f.data.length) 0
      ++ bs ++ f.data.drop (f.pos + bs.length) := by
  induction bs generalizing f with
  | nil => exact absurd rfl h
  | cons b bs ih =>
    by_cases hb : bs = []
    · subst hb
      simp [putbytes, putbyte_data]
    · rw [putbytes, ih _ hb, putbyte_pos, putbyte_data]
      have hl : (f.data.take f.pos ++ List.replicate (f.pos - f.data.length) 0).length = f.pos := by
        simp; omega
      generalize f.data.take f.pos ++ List.replicate (f.pos - f.data.length) 0 = pre at hl
      have e1 : (pre ++ b :: f.data.drop (f.pos + 1)).take (f.pos + 1) = pre ++ [b] := by
        rw [List.take_append_eq_append_take]
        simp [hl, List.take_of_length_le]
      have e2 : (pre ++ b :: f.data.drop (f.pos + 1)).drop (f.pos + 1 + bs.length)
          = f.data.drop (f.pos + (b :: bs).length) := by
        rw [List.drop_append_eq_append_drop]
        have e4 : f.pos + 1 + bs.length - pre.length = bs.length + 1 := by omega
        have e5 : pre.drop (f.pos + 1 + bs.length) = [] := List.drop_of_length_le (by omega)
        rw [e4, e5]
        simp only [List.nil_append, List.drop_succ_cons, List.drop_drop, List.length_cons]
        congr 1; omega
      have e3 : f.pos + 1 - (pre ++ b :: f.data.drop (f.pos + 1)).length = 0 := by
        simp [hl]
      rw [e1, e2, e3]
      simp

theorem written_putbytes (bs : List Nat) (f : FILE) : written f (putbytes bs f) = bs := by
  unfold written
  by_cases h : bs = []
  · subst h; simp [putbytes]
  · rw [putbytes_pos, putbytes_data bs f h]
    have hl : (f.data.take f.pos ++ List.replicate (f.pos - f.data.length) 0).length = f.pos := by
      simp; omega
    generalize f.data.take f.pos ++ List.replicate (f.pos - f.data.length) 0 = pre at hl
    rw [List.append_assoc, List.drop_append_eq_append_drop]
    simp [hl, List.drop_of_length_le]

theorem putbytes_at_end (bs : List Nat) (f : FILE) (h : f.pos = f.data.length) :
    (putbytes bs f).data = f.data ++ bs := by
  by_cases hb : bs = []
  · subst hb; simp [putbytes]
  · rw [putbytes_data bs f hb, h]
    simp [List.drop_of_length_le]

theorem putbytes_append (as bs : List Nat) (f : FILE) :
    putbytes (as ++ bs) f = putbytes bs (putbytes as f) := by
  induction as generalizing f with
  | nil => rfl
  | cons a as ih => simp [putbytes, ih]

/-! ## Streams in the file table -/

@[simp] theorem setstream_fileinfo_same (s : State) (n : Nat) (f : FILE) :
    (s.setstream n f).fileinfo n = { s.fileinfo n with stream := streamptr.file f } := by
  simp [State.setstream]

theorem setstream_fileinfo_other (s : State) (n m : Nat) (f : FILE) (h : m ≠ n) :
    (s.setstream n f).fileinfo m = s.fileinfo m := by
  simp [State.setstream, setfb_fileinfo_other _ _ _ _ h]

@[simp] theorem setstream_setstream (s : State) (n : Nat) (f g : FILE) :
    (s.setstream n f).setstream n g = s.setstream n g := by
  simp [State.setstream]

@[simp] theorem setstream_double_type (s : State) (n : Nat) (f : FILE) :
    (s.setstream n f).double_type = s.double_type := rfl

theorem setstream_self (s : State) (n : Nat) (f : FILE)
    (h : (s.fileinfo n).stream = streamptr.file f) : s.setstream n f = s := by
  unfold State.setstream
  rw [← h]
  exact setfb_self s n

theorem on_stream_file {α : Type} (n : Nat) (call : FILE → α × FILE) (s : State) (f : FILE)
    (h : (s.fileinfo n).stream = streamptr.file f) :
    on_stream n call s = Outcome.ok (call f).1 (s.setstream n (call f).2) := by
  simp [on_stream, h]

theorem fileio_write_file (n : Nat) (value : Int) (s : State) (f : FILE)
    (h : (s.fileinfo n).stream = streamptr.file f) :
    fileio_write n value s = Outcome.ok () (s.setstream n (putbyte (tobyte value) f)) := by
  simp only [fileio_write, bind_run, on_stream_file n _ s f h, fputc, byte_ne_EOF, if_false,
    pure_run]

theorem fileio_read_file (n : Nat) (s : State) (f : FILE) (b : Nat) (rest : List Nat)
    (h : (s.fileinfo n).stream = streamptr.file f) (hd : f.data.drop f.pos = b :: rest) :
    fileio_read n s = Outcome.ok (b : Int) (s.setstream n { f with pos := f.pos + 1 }) := by
  simp only [fileio_read, bind_run, on_stream_file n _ s f h, fgetc_of_drop f b rest hd,
    byte_ne_EOF, if_false, pure_run]

theorem fileio_read_eof (n : Nat) (s : State) (f : FILE)
    (h : (s.fileinfo n).stream = streamptr.file f) (hd : f.data.drop f.pos = []) :
    fileio_read n s = Outcome.error errnum.ERR_CANTREAD s := by
  simp only [fileio_read, bind_run, on_stream_file n _ s f h, fgetc_of_drop_nil f hd, if_true,
    error_run, setstream_self s n f h]

/-- A sequence of calls of `fileio_write` on slot `n` writes the bytes one
after the other and changes nothing else. -/
theorem forM_fileio_write {α : Type} (n : Nat) (g : α → Int) (l : List α) (s : State) (f : FILE)
    (h : (s.fileinfo n).stream = streamptr.file f) :
    (l.forM (fun x => fileio_write n (g x))) s
      = Outcome.ok () (s.setstream n (putbytes (l.map (fun x => tobyte (g x))) f)) := by
  induction l generalizing s f with
  | nil =>
    simp only [List.map_nil, putbytes, State.setstream, ← h]
    exact congrArg (Outcome.ok ()) (setfb_self s n).symm
  | cons a l ih =>
    have e : ((a :: l).forM (fun x => fileio_write n (g x)))
        = (fileio_write n (g a) >>= fun _ => l.forM (fun x => fileio_write n (g x))) := rfl
    rw [e]
    simp only [bind_run, fileio_write_file n (g a) s f h]
    rw [ih (s.setstream n (putbyte (tobyte (g a)) f)) (putbyte (tobyte (g a)) f) (by simp)]
    simp [putbytes]

/-! ## Handles -/

theorem toInt32_of_isInt32 (i : Int) (h : isInt32 i) : toInt32 i = i := by
  unfold isInt32 at h; unfold toInt32; split <;> omega

theorem toInt64_of_isInt64 (i : Int) (h : isInt64 i) : toInt64 i = i := by
  unfold isInt64 at h; unfold toInt64; split <;> omega

/-- What `map_handle` does, for every `int32` handle. -/
theorem map_handle_run (handle : Int) (s : State) (hh : isInt32 handle) :
    map_handle handle s =
      if 230 ≤ handle ∧ handle ≤ 254 ∧ (s.fileinfo (slot_of handle)).filetype ≠ filestate.CLOSED
      then Outcome.ok (slot_of handle) s
      else Outcome.error errnum.ERR_BADHANDLE s := by
  unfold isInt32 at hh
  unfold map_handle slot_of
  simp only [FIRSTHANDLE, MAXFILES]
  by_cases h1 : 230 ≤ handle ∧ handle ≤ 254
  · have e : toInt32 (254 - handle) = 254 - handle := by unfold toInt32; split <;> omega
    rw [e]
    have a1 : ¬ (254 - handle < 0) := by omega
    have a2 : ¬ (254 - handle ≥ ((25 : Nat) : Int)) := by omega
    by_cases h2 : (s.fileinfo (254 - handle).toNat).filetype = filestate.CLOSED
    · simp [h1, h2]
    · simp only [h1, h2, a1, a2, false_or, if_false, ne_eq, not_false_eq_true, and_self, if_true]
  · have a : toInt32 (254 - handle) < 0 ∨ toInt32 (254 - handle) ≥ ((25 : Nat) : Int) := by
      unfold toInt32; split <;> omega
    have : ¬ (230 ≤ handle ∧ handle ≤ 254 ∧
        (s.fileinfo (254 - handle).toNat).filetype ≠ filestate.CLOSED) := fun h => h1 ⟨h.1, h.2.1⟩
    rw [if_neg this]
    rcases a with a | a
    · rw [if_pos (Or.inl a)]
    · rw [if_pos (Or.inr (Or.inl a))]

theorem isInt32_of_OpenFile {s : State} {handle : Int} {f : FILE} (h : OpenFile s handle f) :
    isInt32 handle := by
  unfold OpenFile at h; unfold isInt32; omega

theorem map_handle_open (handle : Int) (s : State) (f : FILE) (h : OpenFile s handle f) :
    map_handle handle s = Outcome.ok (slot_of handle) s := by
  rw [map_handle_run handle s (isInt32_of_OpenFile h)]
  rw [if_pos ⟨h.1, h.2.1, h.2.2.1⟩]

theorem handle_ne_zero {s : State} {handle : Int} {f : FILE} (h : OpenFile s handle f) :
    handle ≠ 0 := by
  unfold OpenFile at h; omega

theorem slot_lt {s : State} {handle : Int} {f : FILE} (h : OpenFile s handle f) :
    slot_of handle < MAXFILES := by
  unfold OpenFile at h; unfold slot_of FIRSTHANDLE MAXFILES; omega

/-- The state a `fileio_print` function leaves when it has written the bytes
`bs` to the stream `f` of slot `n`. -/
theorem print_start_open (handle : Int) (s : State) (f : FILE) (h : OpenForWriting s handle f) :
    print_start handle s = Outcome.ok (slot_of handle)
      (s.setfb (slot_of handle)
        { s.fileinfo (slot_of handle) with eofstatus := eofstate.OKAY }) := by
  have hne := handle_ne_zero h.1
  have hin : (s.fileinfo (slot_of handle)).filetype ≠ filestate.OPENIN := by
    rcases h.2 with h2 | h2 <;> simp [h2]
  simp [print_start, hne, map_handle_open handle s f h.1, hin]

/-! ## What the print functions write -/

theorem printint_run (handle value : Int) (s : State) (f : FILE)
    (hw : OpenForWriting s handle f) :
    fileio_printint handle value s = Outcome.ok () (s.printed (slot_of handle)
      (putbytes [0x40, tobyte (asr value 24), tobyte (asr value 16), tobyte (asr value 8),
        tobyte (asr value 0)] f)) := by
  have hs := hw.1.2.2.2
  simp only [fileio_printint, bind_run, print_start_open handle s f hw]
  rw [fileio_write_file _ _ _ f (by simp [hs])]
  simp only []
  rw [forM_fileio_write _ _ _ _ (putbyte (tobyte PRINT_INT) f) (by simp)]
  simp [State.printed, State.setstream, putbytes, PRINT_INT, tobyte]

theorem printuint8_run (handle value : Int) (s : State) (f : FILE)
    (hw : OpenForWriting s handle f) :
    fileio_printuint8 handle value s = Outcome.ok () (s.printed (slot_of handle)
      (putbytes [0x50, tobyte value] f)) := by
  have hs := hw.1.2.2.2
  simp only [fileio_printuint8, bind_run, print_start_open handle s f hw]
  rw [fileio_write_file _ _ _ f (by simp [hs])]
  simp only []
  rw [fileio_write_file _ _ _ (putbyte (tobyte PRINT_UINT8) f) (by simp)]
  simp [State.printed, State.setstream, putbytes, PRINT_UINT8, tobyte]

theorem printint64_run (handle value : Int) (s : State) (f : FILE)
    (hw : OpenForWriting s handle f) :
    fileio_printint64 handle value s = Outcome.ok () (s.printed (slot_of handle)
      (putbytes [0x60, tobyte (toInt32 (asr value 56)), tobyte (toInt32 (asr value 48)),
        tobyte (toInt32 (asr value 40)), tobyte (toInt32 (asr value 32)),
        tobyte (toInt32 (asr value 24)), tobyte (toInt32 (asr value 16)),
        tobyte (toInt32 (asr value 8)), tobyte (toInt32 (asr value 0))] f)) := by
  have hs := hw.1.2.2.2
  simp only [fileio_printint64, bind_run, print_start_open handle s f hw]
  rw [fileio_write_file _ _ _ f (by simp [hs])]
  simp only []
  rw [forM_fileio_write _ _ _ _ (putbyte (tobyte PRINT_INT64) f) (by simp)]
  simp [State.printed, State.setstream, putbytes, PRINT_INT64, tobyte]

theorem printfloat_run (handle : Int) (value : List Nat) (s : State) (f : FILE)
    (hw : OpenForWriting s handle f) :
    fileio_printfloat handle value s = Outcome.ok () (s.printed (slot_of handle)
      (putbytes (0x88 :: [0, 1, 2, 3, 4, 5, 6, 7].map
        (fun n => tobyte (charval (value.getD (n ^^^ index_xor s.double_type) 0)))) f)) := by
  have hs := hw.1.2.2.2
  simp only [fileio_printfloat, bind_run, print_start_open handle s f hw]
  rw [fileio_write_file _ _ _ f (by simp [hs])]
  simp only [get_double_type_run, setstream_double_type, setfb_double_type]
  rw [forM_fileio_write _ _ _ _ (putbyte (tobyte PRINT_FLOAT) f) (by simp)]
  simp [State.printed, State.setstream, putbytes, PRINT_FLOAT, tobyte]

theorem printstring_short_run (n : Nat) (string : List Nat) (k : Nat) (s : State) (f : FILE)
    (h : (s.fileinfo n).stream = streamptr.file f) :
    printstring_short n string k s = Outcome.ok () (s.setstream n
      (putbytes ((List.range k).reverse.map (fun i => tobyte (charval (string.getD i 0)))) f)) := by
  induction k generalizing s f with
  | zero =>
    simp only [printstring_short, List.range_zero, List.reverse_nil, List.map_nil, putbytes,
      State.setstream, ← h]
    exact congrArg (Outcome.ok ()) (setfb_self s n).symm
  | succ k ih =>
    simp only [printstring_short, bind_run, fileio_write_file n _ s f h]
    rw [ih _ (putbyte (tobyte (charval (string.getD k 0))) f) (by simp)]
    simp [List.range_succ, putbytes]

theorem map_getD_range (l : List Nat) :
    (List.range l.length).map (fun i => l.getD i 0) = l := by
  apply List.ext_getElem
  · simp
  · intro i h1 h2
    simp [List.getD_eq_getElem?_getD, List.getElem?_eq_getElem h2]

theorem reverse_map_charval (l : List Nat) (hb : ∀ b ∈ l, b < 256) :
    (List.range l.length).reverse.map (fun i => tobyte (charval (l.getD i 0))) = l.reverse := by
  rw [List.map_reverse]
  congr 1
  apply List.ext_getElem
  · simp
  · intro i h1 h2
    simp only [List.getElem_map, List.getElem_range, List.getD_eq_getElem?_getD,
      List.getElem?_eq_getElem h2, Option.getD_some]
    exact tobyte_charval _ (hb _ (List.getElem_mem h2))

theorem stream_fwrite_run (n : Nat) (ptr : List Nat) (nmemb : Nat) (s : State) (f : FILE)
    (h : (s.fileinfo n).stream = streamptr.file f) :
    stream_fwrite n ptr nmemb s = Outcome.ok (nmemb : Int) (s.setstream n
      (putbytes ((List.range nmemb).map (fun i => ptr.getD i 0)) f)) := by
  simp only [stream_fwrite, on_stream_file n _ s f h, fwrite]

/-! The same rules for a state whose stream has just been set. -/

theorem fileio_write_setstream (n : Nat) (value : Int) (s : State) (f : FILE) :
    fileio_write n value (s.setstream n f)
      = Outcome.ok () (s.setstream n (putbyte (tobyte value) f)) := by
  rw [fileio_write_file n value _ f (by simp)]; simp

theorem printstring_short_setstream (n : Nat) (string : List Nat) (k : Nat) (s : State)
    (f : FILE) :
    printstring_short n string k (s.setstream n f) = Outcome.ok () (s.setstream n
      (putbytes ((List.range k).reverse.map (fun i => tobyte (charval (string.getD i 0)))) f)) := by
  rw [printstring_short_run n string k _ f (by simp)]; simp

theorem stream_fwrite_setstream (n : Nat) (ptr : List Nat) (nmemb : Nat) (s : State) (f : FILE) :
    stream_fwrite n ptr nmemb (s.setstream n f) = Outcome.ok (nmemb : Int) (s.setstream n
      (putbytes ((List.range nmemb).map (fun i => ptr.getD i 0)) f)) := by
  rw [stream_fwrite_run n ptr nmemb _ f (by simp)]; simp

theorem printstring_run_short (handle : Int) (string : List Nat) (length : Int) (s : State)
    (f : FILE) (hl : length < 256) (hw : OpenForWriting s handle f) :
    fileio_printstring handle string length s = Outcome.ok () (s.printed (slot_of handle)
      (putbytes (0 :: tobyte length :: (List.range length.toNat).reverse.map
        (fun i => tobyte (charval (string.getD i 0)))) f)) := by
  have hs := hw.1.2.2.2
  simp only [fileio_printstring, bind_run, print_start_open handle s f hw, SHORT_STRING, hl,
    if_true]
  rw [fileio_write_file _ _ _ f (by simp [hs])]
  by_cases h0 : length > 0
  · simp only [h0, if_true, fileio_write_setstream, printstring_short_setstream, bind_run]
    simp [State.printed, State.setstream, putbytes, PRINT_SHORTSTR, tobyte]
  · have e : length.toNat = 0 := by omega
    simp only [h0, if_false, fileio_write_setstream, bind_run, pure_run]
    simp [e, State.printed, State.setstream, putbytes, PRINT_SHORTSTR, tobyte]

theorem printstring_run_long (handle : Int) (string : List Nat) (length : Int) (s : State)
    (f : FILE) (hl : 256 ≤ length) (hw : OpenForWriting s handle f) :
    fileio_printstring handle string length s = Outcome.ok () (s.printed (slot_of handle)
      (putbytes ([1, tobyte (and32 length 255), tobyte (and32 (asr length 8) 255),
          tobyte (and32 (asr (asr length 8) 8) 255),
          tobyte (and32 (asr (asr (asr length 8) 8) 8) 255)]
        ++ (List.range length.toNat).map (fun i => string.getD i 0)) f)) := by
  have hs := hw.1.2.2.2
  have hl' : ¬ length < 256 := by omega
  have e : ((length.toNat : Nat) : Int) = length := by omega
  simp only [fileio_printstring, bind_run, print_start_open handle s f hw, SHORT_STRING, hl',
    if_false, printstring_length, BYTEMASK, BYTESHIFT]
  rw [fileio_write_file _ _ _ f (by simp [hs])]
  simp only [fileio_write_setstream, stream_fwrite_setstream, bind_run, pure_run, e, ne_eq,
    not_true_eq_false, if_false]
  simp [State.printed, State.setstream, putbytes, PRINT_LONGSTR, tobyte, putbytes_append]

/-! ## Reading from a stream -/

theorem fileio_read_setstream (n : Nat) (s : State) (f : FILE) (b : Nat) (rest : List Nat)
    (hd : f.data.drop f.pos = b :: rest) :
    fileio_read n (s.setstream n f)
      = Outcome.ok (b : Int) (s.setstream n { f with pos := f.pos + 1 }) := by
  rw [fileio_read_file n _ f b rest (by simp) hd]; simp

/-- A loop that reads one byte in each iteration and combines it with an
accumulator reads the bytes in the order they are in the file. -/
theorem foldlM_read {β ι : Type} (n : Nat) (step : β → ι → Int → β) (l : List ι) (init : β)
    (s : State) (f : FILE) (bs rest : List Nat) (hlen : bs.length = l.length)
    (hd : f.data.drop f.pos = bs ++ rest) :
    (l.foldlM (fun acc i => fileio_read n >>= fun ch => pure (step acc i ch)) init)
        (s.setstream n f)
      = Outcome.ok ((l.zip bs).foldl (fun acc p => step acc p.1 (p.2 : Int)) init)
          (s.setstream n { f with pos := f.pos + l.length }) := by
  induction l generalizing init f bs with
  | nil =>
    simp
  | cons i l ih =>
    cases bs with
    | nil => simp at hlen
    | cons b bs =>
      simp only [List.foldlM_cons, bind_run, fileio_read_setstream n s f b (bs ++ rest) hd,
        pure_run]
      rw [ih (step init i b) { f with pos := f.pos + 1 } bs (by simpa using hlen)
        (drop_succ_of_drop _ _ _ _ hd)]
      simp [Nat.add_assoc, Nat.add_comm 1]

theorem foldlM_read4 {β ι : Type} (n : Nat) (step : β → ι → Int → β) (i0 i1 i2 i3 : ι)
    (init : β) (s : State) (f : FILE) (b0 b1 b2 b3 : Nat) (rest : List Nat)
    (hd : f.data.drop f.pos = b0 :: b1 :: b2 :: b3 :: rest) :
    ([i0, i1, i2, i3].foldlM (fun acc i => fileio_read n >>= fun ch => pure (step acc i ch)) init)
        (s.setstream n f)
      = Outcome.ok (step (step (step (step init i0 b0) i1 b1) i2 b2) i3 b3)
          (s.setstream n { f with pos := f.pos + 4 }) :=
  foldlM_read n step [i0, i1, i2, i3] init s f [b0, b1, b2, b3] rest rfl hd

theorem foldlM_read4_val {β ι : Type} (n : Nat) (step : β → ι → Int → β) (i0 i1 i2 i3 : ι)
    (init : β) (s : State) (f : FILE) (b0 b1 b2 b3 : Nat) (rest : List Nat)
    (hd : f.data.drop f.pos = b0 :: b1 :: b2 :: b3 :: rest) (v : β)
    (hv : step (step (step (step init i0 b0) i1 b1) i2 b2) i3 b3 = v) :
    ([i0, i1, i2, i3].foldlM (fun acc i => fileio_read n >>= fun ch => pure (step acc i ch)) init)
        (s.setstream n f)
      = Outcome.ok v (s.setstream n { f with pos := f.pos + 4 }) := by
  rw [foldlM_read4 n step i0 i1 i2 i3 init s f b0 b1 b2 b3 rest hd, hv]

theorem foldlM_read8 {β ι : Type} (n : Nat) (step : β → ι → Int → β)
    (i0 i1 i2 i3 i4 i5 i6 i7 : ι) (init : β) (s : State) (f : FILE)
    (b0 b1 b2 b3 b4 b5 b6 b7 : Nat) (rest : List Nat)
    (hd : f.data.drop f.pos = b0 :: b1 :: b2 :: b3 :: b4 :: b5 :: b6 :: b7 :: rest) :
    ([i0, i1, i2, i3, i4, i5, i6, i7].foldlM
        (fun acc i => fileio_read n >>= fun ch => pure (step acc i ch)) init) (s.setstream n f)
      = Outcome.ok
          (step (step (step (step (step (step (step (step init i0 b0) i1 b1) i2 b2) i3 b3)
            i4 b4) i5 b5) i6 b6) i7 b7)
          (s.setstream n { f with pos := f.pos + 8 }) :=
  foldlM_read n step [i0, i1, i2, i3, i4, i5, i6, i7] init s f
    [b0, b1, b2, b3, b4, b5, b6, b7] rest rfl hd

theorem check_eof_run (n : Nat) (s : State) (h : (s.fileinfo n).eofstatus = eofstate.OKAY) :
    check_eof n s = Outcome.ok () s := by
  simp [check_eof, h]

theorem flush_written_run (n : Nat) (s : State) (f : FILE)
    (hs : (s.fileinfo n).stream = streamptr.file f) :
    flush_written n s
      = Outcome.ok () (s.setfb n { s.fileinfo n with lastwaswrite := false }) := by
  by_cases h : (s.fileinfo n).lastwaswrite = true
  · simp only [flush_written, bind_run, getfb_run, h, if_true, on_stream_file n _ s f hs, fflush,
      setstream_self s n f hs, modfb_run]
  · have e : { s.fileinfo n with lastwaswrite := false } = s.fileinfo n := by
      cases hfb : s.fileinfo n
      simp [hfb] at h
      simp [h]
    simp only [flush_written, bind_run, getfb_run, h, Bool.false_eq_true, if_false, pure_run]
    rw [e, setfb_self]

theorem flushed_setstream (s : State) (n : Nat) (g : FILE)
    (h : (s.fileinfo n).stream = streamptr.file g) :
    s.setfb n { s.fileinfo n with lastwaswrite := false }
      = (s.setfb n { s.fileinfo n with lastwaswrite := false }).setstream n g := by
  simp [State.setstream, ← h]

theorem flushed_setstream_eq (s : State) (n : Nat) (g g1 : FILE) :
    (s.setfb n { s.fileinfo n with lastwaswrite := false }).setstream n g1
      = s.afterread n g1 := by
  simp [State.setstream, State.afterread]

theorem getnumber_int_run (handle : Int) (out : numvars) (r : State) (g : FILE)
    (b3 b2 b1 b0 : Nat) (rest : List Nat) (hr : OpenForReading r handle g)
    (hd : g.data.drop g.pos = 0x40 :: b3 :: b2 :: b1 :: b0 :: rest) :
    fileio_getnumber handle out r = Outcome.ok
      { out with
        ip := or64 (or64 (or64 (or64 0 (shl32 b3 24)) (shl32 b2 16)) (shl32 b1 8)) (shl32 b0 0),
        isint := true }
      (r.afterread (slot_of handle) { g with pos := g.pos + 5 }) := by
  have hne := handle_ne_zero hr.1
  have hs := hr.1.2.2.2
  simp only [fileio_getnumber, getnumber_switch, bind_run, hne, if_false, pure_run, map_handle_open handle r g hr.1,
    check_eof_run _ r hr.2, flush_written_run _ r g hs]
  rw [flushed_setstream r _ g hs]
  simp only [fileio_read_setstream _ _ g _ _ hd]
  simp only [PRINT_INT, Nat.cast_ofNat, if_true]
  have := foldlM_read4 (slot_of handle) (fun (ip : Int) (n : Nat) (ch : Int) => or64 ip (shl32 ch n))
    24 16 8 0 0 (r.setfb (slot_of handle) { r.fileinfo (slot_of handle) with lastwaswrite := false })
    { g with pos := g.pos + 1 } b3 b2 b1 b0 rest (drop_succ_of_drop _ _ _ _ hd)
  simp only [bind_run, this, pure_run, Nat.add_assoc, Nat.reduceAdd]
  exact congrArg (Outcome.ok _) (flushed_setstream_eq r (slot_of handle) g _)

/-! ## Arithmetic of the integer formats -/

theorem asr_eq (v : Int) (n : Nat) : asr v n = v / 2 ^ n := by
  unfold asr
  have := Int.shiftRight_eq_div_pow v n
  simpa using this

theorem or_step (P p : Nat) (k q : Nat) (hP : P = 2 ^ k * q) (hp : p < 2 ^ k) :
    P ||| p = P + p := by
  subst hP
  exact (Nat.mul_add_lt_is_or hp q).symm

theorem bits64_lt (a : Int) : bits64 a < 2 ^ 64 := by
  unfold bits64; omega

theorem or64_eq (a b : Int) : or64 a b = toInt64 ((bits64 a ||| bits64 b : Nat) : Int) := id rfl

theorem bits64_toInt64 (n : Nat) (h : n < 2 ^ 64) : bits64 (toInt64 (n : Int)) = n := by
  unfold bits64 toInt64
  split <;> omega

theorem bits64_or64 (a b : Int) : bits64 (or64 a b) = bits64 a ||| bits64 b := by
  rw [or64_eq]
  exact bits64_toInt64 _ (Nat.or_lt_two_pow (bits64_lt a) (bits64_lt b))

theorem bits64_zero : bits64 0 = 0 := by
  unfold bits64; omega

theorem bits64_shl32 (b : Nat) (hb : b < 256) (k : Nat) (hk : k < 24) :
    bits64 (shl32 (b : Int) k) = b * 2 ^ k := by
  have h1 : 2 ^ k ≤ 2 ^ 23 := Nat.pow_le_pow_right (by norm_num) (by omega)
  have h2 : b * 2 ^ k < 2 ^ 31 := by
    calc b * 2 ^ k ≤ 255 * 2 ^ 23 := Nat.mul_le_mul (by omega) h1
      _ < 2 ^ 31 := by norm_num
  have e : ((b : Int) * 2 ^ k) = ((b * 2 ^ k : Nat) : Int) := by push_cast; ring
  unfold bits64 shl32 toInt32
  rw [e]
  generalize b * 2 ^ k = x at h2
  norm_num at h2
  split <;> omega

theorem bits64_shl32_top (b : Nat) (hb : b < 256) :
    bits64 (shl32 (b : Int) 24)
      = if b < 128 then b * 2 ^ 24 else 2 ^ 64 - 2 ^ 32 + b * 2 ^ 24 := by
  unfold bits64 shl32 toInt32
  norm_num
  split <;> split <;> omega

/-- The four bytes `fileio_printint` writes are the base 256 digits of the
two's complement pattern of the value. -/
theorem bytes_be32 (v : Int) :
    ((tobyte (asr v 24) * 2 ^ 24 + tobyte (asr v 16) * 2 ^ 16 + tobyte (asr v 8) * 2 ^ 8
      + tobyte (asr v 0) : Nat) : Int) = v % 2 ^ 32 := by
  simp only [tobyte, asr_eq]
  norm_num
  omega

/-- Reading the four bytes back as `fileio_getnumber` does gives the value. -/
theorem decode_be32 (v : Int) (hv : isInt32 v) :
    or64 (or64 (or64 (or64 0 (shl32 (tobyte (asr v 24) : Nat) 24))
      (shl32 (tobyte (asr v 16) : Nat) 16)) (shl32 (tobyte (asr v 8) : Nat) 8))
      (shl32 (tobyte (asr v 0) : Nat) 0) = v := by
  have hsum := bytes_be32 v
  have h3 := tobyte_lt (asr v 24)
  have h2 := tobyte_lt (asr v 16)
  have h1 := tobyte_lt (asr v 8)
  have h0 := tobyte_lt (asr v 0)
  generalize tobyte (asr v 24) = b3 at *
  generalize tobyte (asr v 16) = b2 at *
  generalize tobyte (asr v 8) = b1 at *
  generalize tobyte (asr v 0) = b0 at *
  unfold isInt32 at hv
  rw [or64_eq, bits64_or64, bits64_or64, bits64_or64, bits64_zero, Nat.zero_or,
    bits64_shl32 b2 h2 16 (by norm_num), bits64_shl32 b1 h1 8 (by norm_num),
    bits64_shl32 b0 h0 0 (by norm_num), bits64_shl32_top b3 h3]
  norm_num at hsum ⊢
  by_cases hb : b3 < 128
  · rw [if_pos hb]
    rw [or_step (b3 * 16777216) (b2 * 65536) 24 b3 (by omega) (by norm_num; omega)]
    rw [or_step (b3 * 16777216 + b2 * 65536) (b1 * 256) 16 (b3 * 256 + b2) (by omega)
      (by norm_num; omega)]
    rw [or_step (b3 * 16777216 + b2 * 65536 + b1 * 256) b0 8 (b3 * 65536 + b2 * 256 + b1)
      (by omega) (by norm_num; omega)]
    unfold toInt64
    split <;> omega
  · rw [if_neg hb]
    rw [or_step (18446744069414584320 + b3 * 16777216) (b2 * 65536) 24
      (1099511627520 + b3) (by omega) (by norm_num; omega)]
    rw [or_step (18446744069414584320 + b3 * 16777216 + b2 * 65536) (b1 * 256) 16
      (281474976645120 + b3 * 256 + b2) (by omega) (by norm_num; omega)]
    rw [or_step (18446744069414584320 + b3 * 16777216 + b2 * 65536 + b1 * 256) b0 8
      (72057594021150720 + b3 * 65536 + b2 * 256 + b1) (by omega) (by norm_num; omega)]
    unfold toInt64
    split <;> omega

theorem tobyte_toInt32 (x : Int) : tobyte (toInt32 x) = tobyte x := by
  unfold tobyte toInt32
  split <;> omega

theorem bits64_shl64 (b : Nat) (hb : b < 256) (k : Nat) (hk : k ≤ 56) :
    bits64 (shl64 (b : Int) k) = b * 2 ^ k := by
  have h1 : 2 ^ k ≤ 2 ^ 56 := Nat.pow_le_pow_right (by norm_num) hk
  have h2 : b * 2 ^ k < 2 ^ 64 := by
    calc b * 2 ^ k ≤ 255 * 2 ^ 56 := Nat.mul_le_mul (by omega) h1
      _ < 2 ^ 64 := by norm_num
  have e : ((b : Int) * 2 ^ k) = ((b * 2 ^ k : Nat) : Int) := by push_cast; ring
  unfold shl64
  rw [e]
  exact bits64_toInt64 _ h2

theorem digits_chain (q0 q1 q2 q3 q4 q5 q6 q7 q8 r0 r1 r2 r3 r4 r5 r6 r7 : Int)
    (h0 : q0 = 256 * q1 + r0) (h1 : q1 = 256 * q2 + r1) (h2 : q2 = 256 * q3 + r2)
    (h3 : q3 = 256 * q4 + r3) (h4 : q4 = 256 * q5 + r4) (h5 : q5 = 256 * q6 + r5)
    (h6 : q6 = 256 * q7 + r6) (h7 : q7 = 256 * q8 + r7)
    (p0 : 0 ≤ r0) (p1 : 0 ≤ r1) (p2 : 0 ≤ r2) (p3 : 0 ≤ r3) (p4 : 0 ≤ r4) (p5 : 0 ≤ r5)
    (p6 : 0 ≤ r6) (p7 : 0 ≤ r7) :
    ((r7.toNat * 72057594037927936 + r6.toNat * 281474976710656 + r5.toNat * 1099511627776
      + r4.toNat * 4294967296 + r3.toNat * 16777216 + r2.toNat * 65536 + r1.toNat * 256
      + r0.toNat : Nat) : Int) = q0 - 18446744073709551616 * q8 := by
  omega

theorem digits64 (v : Int) :
    (((v / 72057594037927936 % 256).toNat * 72057594037927936
      + (v / 281474976710656 % 256).toNat * 281474976710656
      + (v / 1099511627776 % 256).toNat * 1099511627776
      + (v / 4294967296 % 256).toNat * 4294967296
      + (v / 16777216 % 256).toNat * 16777216 + (v / 65536 % 256).toNat * 65536
      + (v / 256 % 256).toNat * 256 + (v % 256).toNat : Nat) : Int)
      = v % 18446744073709551616 := by
  have e1 : v / 65536 = v / 256 / 256 := by omega
  have e2 : v / 16777216 = v / 65536 / 256 := by omega
  have e3 : v / 4294967296 = v / 16777216 / 256 := by omega
  have e4 : v / 1099511627776 = v / 4294967296 / 256 := by omega
  have e5 : v / 281474976710656 = v / 1099511627776 / 256 := by omega
  have e6 : v / 72057594037927936 = v / 281474976710656 / 256 := by omega
  have e7 : v / 18446744073709551616 = v / 72057594037927936 / 256 := by omega
  have e8 : v % 18446744073709551616 = v - 18446744073709551616 * (v / 18446744073709551616) := by
    omega
  rw [e8]
  exact digits_chain v (v / 256) (v / 65536) (v / 16777216) (v / 4294967296) (v / 1099511627776)
    (v / 281474976710656) (v / 72057594037927936) (v / 18446744073709551616)
    (v % 256) (v / 256 % 256) (v / 65536 % 256) (v / 16777216 % 256) (v / 4294967296 % 256)
    (v / 1099511627776 % 256) (v / 281474976710656 % 256) (v / 72057594037927936 % 256)
    (by omega) (by omega) (by omega) (by omega) (by omega) (by omega) (by omega) (by omega)
    (by omega) (by omega) (by omega) (by omega) (by omega) (by omega) (by omega) (by omega)

/-- The eight bytes `fileio_printint64` writes are the base 256 digits of the
two's complement pattern of the value. -/
theorem bytes_be64 (v : Int) :
    ((tobyte (toInt32 (asr v 56)) * 2 ^ 56 + tobyte (toInt32 (asr v 48)) * 2 ^ 48
      + tobyte (toInt32 (asr v 40)) * 2 ^ 40 + tobyte (toInt32 (asr v 32)) * 2 ^ 32
      + tobyte (toInt32 (asr v 24)) * 2 ^ 24 + tobyte (toInt32 (asr v 16)) * 2 ^ 16
      + tobyte (toInt32 (asr v 8)) * 2 ^ 8 + tobyte (toInt32 (asr v 0)) : Nat) : Int)
      = v % 2 ^ 64 := by
  rw [tobyte_toInt32, tobyte_toInt32, tobyte_toInt32, tobyte_toInt32, tobyte_toInt32,
    tobyte_toInt32, tobyte_toInt32, tobyte_toInt32]
  unfold tobyte
  rw [asr_eq, asr_eq, asr_eq, asr_eq, asr_eq, asr_eq, asr_eq, asr_eq]
  have h := digits64 v
  norm_num at h ⊢
  exact h

/-- Reading the eight bytes back as `fileio_getnumber` does gives the value. -/
theorem decode_be64 (v : Int) (hv : isInt64 v) :
    or64 (or64 (or64 (or64 (or64 (or64 (or64 (or64 0
      (shl64 (tobyte (toInt32 (asr v 56)) : Nat) 56))
      (shl64 (tobyte (toInt32 (asr v 48)) : Nat) 48))
      (shl64 (tobyte (toInt32 (asr v 40)) : Nat) 40))
      (shl64 (tobyte (toInt32 (asr v 32)) : Nat) 32))
      (shl64 (tobyte (toInt32 (asr v 24)) : Nat) 24))
      (shl64 (tobyte (toInt32 (asr v 16)) : Nat) 16))
      (shl64 (tobyte (toInt32 (asr v 8)) : Nat) 8))
      (shl64 (tobyte (toInt32 (asr v 0)) : Nat) 0) = v := by
  have hsum := bytes_be64 v
  have h7 := tobyte_lt (toInt32 (asr v 56))
  have h6 := tobyte_lt (toInt32 (asr v 48))
  have h5 := tobyte_lt (toInt32 (asr v 40))
  have h4 := tobyte_lt (toInt32 (asr v 32))
  have h3 := tobyte_lt (toInt32 (asr v 24))
  have h2 := tobyte_lt (toInt32 (asr v 16))
  have h1 := tobyte_lt (toInt32 (asr v 8))
  have h0 := tobyte_lt (toInt32 (asr v 0))
  generalize tobyte (toInt32 (asr v 56)) = b7 at *
  generalize tobyte (toInt32 (asr v 48)) = b6 at *
  generalize tobyte (toInt32 (asr v 40)) = b5 at *
  generalize tobyte (toInt32 (asr v 32)) = b4 at *
  generalize tobyte (toInt32 (asr v 24)) = b3 at *
  generalize tobyte (toInt32 (asr v 16)) = b2 at *
  generalize tobyte (toInt32 (asr v 8)) = b1 at *
  generalize tobyte (toInt32 (asr v 0)) = b0 at *
  unfold isInt64 at hv
  rw [or64_eq, bits64_or64, bits64_or64, bits64_or64, bits64_or64, bits64_or64, bits64_or64,
    bits64_or64, bits64_zero, Nat.zero_or,
    bits64_shl64 b7 h7 56 (by norm_num), bits64_shl64 b6 h6 48 (by norm_num),
    bits64_shl64 b5 h5 40 (by norm_num), bits64_shl64 b4 h4 32 (by norm_num),
    bits64_shl64 b3 h3 24 (by norm_num), bits64_shl64 b2 h2 16 (by norm_num),
    bits64_shl64 b1 h1 8 (by norm_num), bits64_shl64 b0 h0 0 (by norm_num)]
  norm_num at hsum ⊢
  rw [or_step (b7 * 72057594037927936) (b6 * 281474976710656) 56 b7 (by omega)
    (by norm_num; omega)]
  rw [or_step (b7 * 72057594037927936 + b6 * 281474976710656) (b5 * 1099511627776) 48
    (b7 * 256 + b6) (by omega) (by norm_num; omega)]
  rw [or_step (b7 * 72057594037927936 + b6 * 281474976710656 + b5 * 1099511627776)
    (b4 * 4294967296) 40 (b7 * 65536 + b6 * 256 + b5) (by omega) (by norm_num; omega)]
  rw [or_step (b7 * 72057594037927936 + b6 * 281474976710656 + b5 * 1099511627776
      + b4 * 4294967296)
    (b3 * 16777216) 32 (b7 * 16777216 + b6 * 65536 + b5 * 256 + b4) (by omega)
    (by norm_num; omega)]
  rw [or_step (b7 * 72057594037927936 + b6 * 281474976710656 + b5 * 1099511627776
      + b4 * 4294967296 + b3 * 16777216)
    (b2 * 65536) 24 (b7 * 4294967296 + b6 * 16777216 + b5 * 65536 + b4 * 256 + b3) (by omega)
    (by norm_num; omega)]
  rw [or_step (b7 * 72057594037927936 + b6 * 281474976710656 + b5 * 1099511627776
      + b4 * 4294967296 + b3 * 16777216 + b2 * 65536)
    (b1 * 256) 16
    (b7 * 1099511627776 + b6 * 4294967296 + b5 * 16777216 + b4 * 65536 + b3 * 256 + b2)
    (by omega) (by norm_num; omega)]
  rw [or_step (b7 * 72057594037927936 + b6 * 281474976710656 + b5 * 1099511627776
      + b4 * 4294967296 + b3 * 16777216 + b2 * 65536 + b1 * 256)
    b0 8
    (b7 * 281474976710656 + b6 * 1099511627776 + b5 * 4294967296 + b4 * 16777216 + b3 * 65536
      + b2 * 256 + b1)
    (by omega) (by norm_num; omega)]
  unfold toInt64
  split <;> omega

theorem or64_zero_byte (b : Int) (hb : isInt64 b) : or64 0 b = b := by
  rw [or64_eq, bits64_zero, Nat.zero_or]
  unfold isInt64 at hb
  unfold toInt64 bits64
  split <;> omega

theorem getnumber_uint8_run (handle : Int) (out : numvars) (r : State) (g : FILE)
    (b : Nat) (rest : List Nat) (hr : OpenForReading r handle g)
    (hd : g.data.drop g.pos = 0x50 :: b :: rest) :
    fileio_getnumber handle out r = Outcome.ok { out with ip := (b : Int), isint := true }
      (r.afterread (slot_of handle) { g with pos := g.pos + 2 }) := by
  have hne := handle_ne_zero hr.1
  have hs := hr.1.2.2.2
  have n1 : ¬ ((80 : Int) = 64) := by decide
  simp only [fileio_getnumber, getnumber_switch, bind_run, hne, if_false, pure_run, map_handle_open handle r g hr.1,
    check_eof_run _ r hr.2, flush_written_run _ r g hs]
  rw [flushed_setstream r _ g hs]
  simp only [fileio_read_setstream _ _ g _ _ hd]
  simp only [PRINT_INT, PRINT_UINT8, Nat.cast_ofNat, n1, if_true, if_false, bind_run]
  rw [fileio_read_setstream _ _ { g with pos := g.pos + 1 } b rest (drop_succ_of_drop _ _ _ _ hd)]
  simp only [pure_run, Nat.add_assoc, Nat.reduceAdd]
  exact congrArg (Outcome.ok _) (flushed_setstream_eq r (slot_of handle) g _)

theorem getnumber_int64_run (handle : Int) (out : numvars) (r : State) (g : FILE)
    (b7 b6 b5 b4 b3 b2 b1 b0 : Nat) (rest : List Nat) (hr : OpenForReading r handle g)
    (hd : g.data.drop g.pos = 0x60 :: b7 :: b6 :: b5 :: b4 :: b3 :: b2 :: b1 :: b0 :: rest) :
    fileio_getnumber handle out r = Outcome.ok
      { out with
        ip := or64 (or64 (or64 (or64 (or64 (or64 (or64 (or64 0 (shl64 b7 56)) (shl64 b6 48))
          (shl64 b5 40)) (shl64 b4 32)) (shl64 b3 24)) (shl64 b2 16)) (shl64 b1 8)) (shl64 b0 0),
        isint := true }
      (r.afterread (slot_of handle) { g with pos := g.pos + 9 }) := by
  have hne := handle_ne_zero hr.1
  have hs := hr.1.2.2.2
  have n1 : ¬ ((96 : Int) = 64) := by decide
  have n2 : ¬ ((96 : Int) = 80) := by decide
  simp only [fileio_getnumber, getnumber_switch, bind_run, hne, if_false, pure_run, map_handle_open handle r g hr.1,
    check_eof_run _ r hr.2, flush_written_run _ r g hs]
  rw [flushed_setstream r _ g hs]
  simp only [fileio_read_setstream _ _ g _ _ hd]
  simp only [PRINT_INT, PRINT_UINT8, PRINT_INT64, Nat.cast_ofNat, n1, n2, if_true, if_false]
  have := foldlM_read8 (slot_of handle) (fun (ip : Int) (n : Nat) (ch : Int) => or64 ip (shl64 ch n))
    56 48 40 32 24 16 8 0 0
    (r.setfb (slot_of handle) { r.fileinfo (slot_of handle) with lastwaswrite := false })
    { g with pos := g.pos + 1 } b7 b6 b5 b4 b3 b2 b1 b0 rest (drop_succ_of_drop _ _ _ _ hd)
  simp only [bind_run, this, pure_run, Nat.add_assoc, Nat.reduceAdd]
  exact congrArg (Outcome.ok _) (flushed_setstream_eq r (slot_of handle) g _)

theorem getnumber_float_run (handle : Int) (out : numvars) (r : State) (g : FILE)
    (b0 b1 b2 b3 b4 b5 b6 b7 : Nat) (rest : List Nat) (hr : OpenForReading r handle g)
    (hd : g.data.drop g.pos = 0x88 :: b0 :: b1 :: b2 :: b3 :: b4 :: b5 :: b6 :: b7 :: rest) :
    fileio_getnumber handle out r = Outcome.ok
      { out with
        fp := float64.image
          (List.set (List.set (List.set (List.set (List.set (List.set (List.set (List.set
            (List.replicate 8 0)
            (0 ^^^ index_xor r.double_type) (tobyte b0))
            (1 ^^^ index_xor r.double_type) (tobyte b1))
            (2 ^^^ index_xor r.double_type) (tobyte b2))
            (3 ^^^ index_xor r.double_type) (tobyte b3))
            (4 ^^^ index_xor r.double_type) (tobyte b4))
            (5 ^^^ index_xor r.double_type) (tobyte b5))
            (6 ^^^ index_xor r.double_type) (tobyte b6))
            (7 ^^^ index_xor r.double_type) (tobyte b7)),
        isint := false }
      (r.afterread (slot_of handle) { g with pos := g.pos + 9 }) := by
  have hne := handle_ne_zero hr.1
  have hs := hr.1.2.2.2
  have n1 : ¬ ((136 : Int) = 64) := by decide
  have n2 : ¬ ((136 : Int) = 80) := by decide
  have n3 : ¬ ((136 : Int) = 96) := by decide
  simp only [fileio_getnumber, getnumber_switch, bind_run, hne, if_false, pure_run, map_handle_open handle r g hr.1,
    check_eof_run _ r hr.2, flush_written_run _ r g hs]
  rw [flushed_setstream r _ g hs]
  simp only [fileio_read_setstream _ _ g _ _ hd]
  simp only [PRINT_INT, PRINT_UINT8, PRINT_INT64, PRINT_FLOAT, Nat.cast_ofNat, n1, n2, n3,
    if_true, if_false, get_double_type_run, bind_run, setstream_double_type, setfb_double_type]
  have := foldlM_read8 (slot_of handle)
    (fun (temp : List Nat) (n : Nat) (ch : Int) =>
      temp.set (n ^^^ index_xor r.double_type) (tobyte ch))
    0 1 2 3 4 5 6 7 (List.replicate 8 0)
    (r.setfb (slot_of handle) { r.fileinfo (slot_of handle) with lastwaswrite := false })
    { g with pos := g.pos + 1 } b0 b1 b2 b3 b4 b5 b6 b7 rest (drop_succ_of_drop _ _ _ _ hd)
  simp only [bind_run, this, pure_run, Nat.add_assoc, Nat.reduceAdd]
  exact congrArg (Outcome.ok _) (flushed_setstream_eq r (slot_of handle) g _)

/-! ## Reading strings -/

theorem drop_set_self (p : List Nat) (k x : Nat) (h : k < p.length) :
    (p.set k x).drop k = x :: p.drop (k + 1) := by
  induction p generalizing k with
  | nil => simp at h
  | cons a p ih =>
    cases k with
    | zero => simp
    | succ k => simpa using ih k (by simpa using h)

theorem take_set_self (p : List Nat) (k x : Nat) (h : k < p.length) :
    (p.set k x).take (k + 1) = p.take k ++ [x] := by
  induction p generalizing k with
  | nil => simp at h
  | cons a p ih =>
    cases k with
    | zero => simp
    | succ k => simpa using ih k (by simpa using h)

theorem drop_set_after (p : List Nat) (k x m : Nat) (h : k < m) :
    (p.set k x).drop m = p.drop m := by
  induction p generalizing k m with
  | nil => simp
  | cons a p ih =>
    cases m with
    | zero => omega
    | succ m =>
      cases k with
      | zero => simp
      | succ k => simpa using ih k m (by omega)

theorem getstring_short_run (n : Nat) (k : Nat) (bs rest p : List Nat) (s : State) (f : FILE)
    (hlen : bs.length = k) (hd : f.data.drop f.pos = bs ++ rest) (hp : k ≤ p.length) :
    getstring_short n k p (s.setstream n f)
      = Outcome.ok ((bs.map (fun (b : Nat) => tobyte (b : Int))).reverse ++ p.drop k)
          (s.setstream n { f with pos := f.pos + k }) := by
  induction k generalizing bs p f with
  | zero =>
    have : bs = [] := List.length_eq_zero.mp hlen
    subst this
    simp [getstring_short]
  | succ k ih =>
    cases bs with
    | nil => simp at hlen
    | cons b bs =>
      simp only [getstring_short, bind_run, fileio_read_setstream n s f b (bs ++ rest) hd]
      rw [ih bs (p.set k (tobyte (b : Int))) { f with pos := f.pos + 1 } (by simpa using hlen)
        (drop_succ_of_drop _ _ _ _ hd) (by simpa using (by omega : k ≤ p.length))]
      rw [drop_set_self p k _ (by omega)]
      simp [Nat.add_assoc, Nat.add_comm 1]

theorem getstring_long_run (n : Nat) (k m : Nat) (bs rest p : List Nat) (s : State) (f : FILE)
    (hlen : bs.length = k) (hd : f.data.drop f.pos = bs ++ rest) (hp : m + k ≤ p.length) :
    getstring_long n k m p (s.setstream n f)
      = Outcome.ok (p.take m ++ bs.map (fun (b : Nat) => tobyte (b : Int)) ++ p.drop (m + k))
          (s.setstream n { f with pos := f.pos + k }) := by
  induction k generalizing bs p f m with
  | zero =>
    have : bs = [] := List.length_eq_zero.mp hlen
    subst this
    simp [getstring_long]
  | succ k ih =>
    cases bs with
    | nil => simp at hlen
    | cons b bs =>
      simp only [getstring_long, bind_run, fileio_read_setstream n s f b (bs ++ rest) hd]
      rw [ih (m + 1) bs (p.set m (tobyte (b : Int))) { f with pos := f.pos + 1 }
        (by simpa using hlen) (drop_succ_of_drop _ _ _ _ hd)
        (by simp only [List.length_set]; omega)]
      rw [take_set_self p m _ (by omega), drop_set_after p m _ (m + 1 + k) (by omega)]
      simp [Nat.add_assoc, Nat.add_comm 1]

theorem and32_eq (a b : Int) : and32 a b = toInt32 ((bits32 a &&& bits32 b : Nat) : Int) := id rfl

theorem tobyte_and32_mask (x : Int) : tobyte (and32 x 255) = tobyte x := by
  have h255 : bits32 255 = 2 ^ 8 - 1 := by decide
  rw [and32_eq, h255, Nat.and_pow_two_sub_one_eq_mod, tobyte_toInt32]
  unfold tobyte bits32
  norm_num
  omega

theorem shl32_small (l k : Nat) (h : l * 2 ^ k < 2 ^ 31) : shl32 (l : Int) k = ((l * 2 ^ k : Nat) : Int) := by
  have e : ((l : Int) * 2 ^ k) = ((l * 2 ^ k : Nat) : Int) := by push_cast; ring
  unfold shl32
  rw [e]
  generalize l * 2 ^ k = x at h
  norm_num at h
  unfold toInt32
  split <;> omega

/-- The four bytes of the length that `fileio_printstring` writes are read back
by `fileio_getstring` as the length. -/
theorem decode_length (len : Int) (h0 : 0 ≤ len) (h1 : len < 2147483648) :
    toInt32 (toInt32 (toInt32 (toInt32 (0 + shl32 (tobyte (and32 len 255) : Nat) 0)
      + shl32 (tobyte (and32 (asr len 8) 255) : Nat) 8)
      + shl32 (tobyte (and32 (asr (asr len 8) 8) 255) : Nat) 16)
      + shl32 (tobyte (and32 (asr (asr (asr len 8) 8) 8) 255) : Nat) 24) = len := by
  simp only [tobyte_and32_mask, asr_eq]
  have a0 : tobyte len = (len % 256).toNat := rfl
  have a1 : tobyte (len / 2 ^ 8) = (len / 256 % 256).toNat := by unfold tobyte; norm_num
  have a2 : tobyte (len / 2 ^ 8 / 2 ^ 8) = (len / 256 / 256 % 256).toNat := by
    unfold tobyte; norm_num
  have a3 : tobyte (len / 2 ^ 8 / 2 ^ 8 / 2 ^ 8) = (len / 256 / 256 / 256 % 256).toNat := by
    unfold tobyte; norm_num
  rw [a0, a1, a2, a3]
  have c0 : (len % 256).toNat < 256 := by omega
  have c1 : (len / 256 % 256).toNat < 256 := by omega
  have c2 : (len / 256 / 256 % 256).toNat < 256 := by omega
  have c3 : (len / 256 / 256 / 256 % 256).toNat < 128 := by omega
  have hsum : (((len % 256).toNat + (len / 256 % 256).toNat * 256
      + (len / 256 / 256 % 256).toNat * 65536
      + (len / 256 / 256 / 256 % 256).toNat * 16777216 : Nat) : Int) = len := by omega
  generalize (len % 256).toNat = l0 at *
  generalize (len / 256 % 256).toNat = l1 at *
  generalize (len / 256 / 256 % 256).toNat = l2 at *
  generalize (len / 256 / 256 / 256 % 256).toNat = l3 at *
  rw [shl32_small l0 0 (by norm_num; omega), shl32_small l1 8 (by norm_num; omega),
    shl32_small l2 16 (by norm_num; omega), shl32_small l3 24 (by norm_num; omega)]
  norm_num
  rw [toInt32_of_isInt32 (l0 : Int) (by unfold isInt32; omega)]
  rw [toInt32_of_isInt32 ((l0 : Int) + l1 * 256) (by unfold isInt32; omega)]
  rw [toInt32_of_isInt32 ((l0 : Int) + l1 * 256 + l2 * 65536) (by unfold isInt32; omega)]
  rw [toInt32_of_isInt32 ((l0 : Int) + l1 * 256 + l2 * 65536 + l3 * 16777216)
    (by unfold isInt32; omega)]
  omega

theorem getstring_short_item (handle : Int) (p : List Nat) (r : State) (g : FILE)
    (bs rest : List Nat) (hr : OpenForReading r handle g)
    (hd : g.data.drop g.pos = 0 :: bs.length :: bs ++ rest) (hp : bs.length ≤ p.length) :
    fileio_getstring handle p r = Outcome.ok
      ((bs.length : Int), (bs.map (fun (b : Nat) => tobyte (b : Int))).reverse ++ p.drop bs.length)
      (r.afterread (slot_of handle) { g with pos := g.pos + (2 + bs.length) }) := by
  have hne := handle_ne_zero hr.1
  have hs := hr.1.2.2.2
  simp only [fileio_getstring, getstring_switch, bind_run, hne, if_false, pure_run, map_handle_open handle r g hr.1,
    check_eof_run _ r hr.2, flush_written_run _ r g hs]
  rw [flushed_setstream r _ g hs]
  simp only [fileio_read_setstream _ _ g _ _ hd]
  simp only [PRINT_SHORTSTR, Nat.cast_zero, if_true, bind_run]
  rw [fileio_read_setstream _ _ { g with pos := g.pos + 1 } bs.length (bs ++ rest)
    (drop_succ_of_drop _ _ _ _ hd)]
  simp only [Int.toNat_ofNat]
  rw [getstring_short_run _ bs.length bs rest p _ _ rfl
    (drop_succ_of_drop _ _ _ _ (drop_succ_of_drop _ _ _ _ hd)) hp]
  simp only [pure_run, Nat.add_assoc, Nat.reduceAdd]
  exact congrArg (Outcome.ok _) (flushed_setstream_eq r (slot_of handle) g _)

theorem getstring_long_item (handle : Int) (p : List Nat) (r : State) (g : FILE)
    (l0 l1 l2 l3 : Nat) (bs rest : List Nat) (hr : OpenForReading r handle g)
    (hd : g.data.drop g.pos = 1 :: l0 :: l1 :: l2 :: l3 :: bs ++ rest)
    (hl : toInt32 (toInt32 (toInt32 (toInt32 (0 + shl32 (l0 : Nat) (0 * BYTESHIFT))
      + shl32 (l1 : Nat) (1 * BYTESHIFT)) + shl32 (l2 : Nat) (2 * BYTESHIFT))
      + shl32 (l3 : Nat) (3 * BYTESHIFT)) = (bs.length : Int))
    (hp : bs.length ≤ p.length) :
    fileio_getstring handle p r = Outcome.ok
      ((bs.length : Int), bs.map (fun (b : Nat) => tobyte (b : Int)) ++ p.drop bs.length)
      (r.afterread (slot_of handle) { g with pos := g.pos + (5 + bs.length) }) := by
  have hne := handle_ne_zero hr.1
  have hs := hr.1.2.2.2
  have n1 : ¬ ((1 : Int) = 0) := by decide
  simp only [fileio_getstring, getstring_switch, bind_run, hne, if_false, pure_run, map_handle_open handle r g hr.1,
    check_eof_run _ r hr.2, flush_written_run _ r g hs]
  rw [flushed_setstream r _ g hs]
  simp only [fileio_read_setstream _ _ g _ _ hd]
  simp only [PRINT_SHORTSTR, PRINT_LONGSTR, Nat.cast_one, n1, if_true, if_false]
  have this := foldlM_read4_val (slot_of handle)
    (fun (length : Int) (n : Nat) (ch : Int) => toInt32 (length + shl32 ch (n * BYTESHIFT)))
    0 1 2 3 0
    (r.setfb (slot_of handle) { r.fileinfo (slot_of handle) with lastwaswrite := false })
    { g with pos := g.pos + 1 } l0 l1 l2 l3 (bs ++ rest) (drop_succ_of_drop _ _ _ _ hd)
    (bs.length : Int) (by beta_reduce; exact hl)
  simp only [bind_run, this]
  simp only [Int.toNat_ofNat]
  have hd5 : g.data.drop (g.pos + 1 + 4) = bs ++ rest := by
    have h1 := drop_succ_of_drop _ _ _ _ hd
    have h2 := drop_succ_of_drop _ _ _ _ h1
    have h3 := drop_succ_of_drop _ _ _ _ h2
    have h4 := drop_succ_of_drop _ _ _ _ h3
    exact drop_succ_of_drop _ _ _ _ h4
  rw [getstring_long_run _ bs.length 0 bs rest p _ { g with pos := g.pos + 1 + 4 } rfl hd5
    (by omega)]
  simp only [pure_run, Nat.add_assoc, Nat.reduceAdd, List.take_zero, List.nil_append,
    Nat.zero_add]
  exact congrArg (Outcome.ok _) (flushed_setstream_eq r (slot_of handle) g _)

/-! ## Facts about the concrete states -/

theorem demo_open (f : FILE) (t : filestate) (h : t ≠ filestate.CLOSED) :
    OpenFile (demo_state f t) 254 f := by
  refine ⟨by decide, by decide, ?_, ?_⟩
  · show t ≠ filestate.CLOSED
    exact h
  · rfl

theorem demo_writing (f : FILE) : OpenForWriting (demo_state f filestate.OPENOUT) 254 f :=
  ⟨demo_open f _ (by decide), Or.inl rfl⟩

theorem demo_reading (f : FILE) (t : filestate) (h : t ≠ filestate.CLOSED) :
    OpenForReading (demo_state f t) 254 f :=
  ⟨demo_open f t h, rfl⟩

/-! ## The integer formats -/

/-- C2. For every `int32` value and every handle open for writing,
`fileio_printint` succeeds and writes exactly five bytes at the file position:
the marker 0x40 followed by the four bytes of the value, most significant
byte first (the bytes are the base 256 digits of the two's complement pattern
of the value).  Nothing else in the file table changes, the file position
moves on by five, and on a stream positioned at its end the five bytes are
appended to the file. -/
theorem printint_writes_marker_and_big_endian (s : State) (handle : Int) (f : FILE) (value : Int)
    (hv : isInt32 value) (hw : OpenForWriting s handle f) :
    ∃ b3 b2 b1 b0 : Nat, b3 < 256 ∧ b2 < 256 ∧ b1 < 256 ∧ b0 < 256 ∧
      ((b3 * 2 ^ 24 + b2 * 2 ^ 16 + b1 * 2 ^ 8 + b0 : Nat) : Int) = value % 2 ^ 32 ∧
      ∃ f1 : FILE,
        fileio_printint handle value s = Outcome.ok () (s.printed (slot_of handle) f1) ∧
        written f f1 = [0x40, b3, b2, b1, b0] ∧
        f1.pos = f.pos + 5 ∧
        (f.pos = f.data.length → f1.data = f.data ++ [0x40, b3, b2, b1, b0]) := by
  have _ := hv
  refine ⟨tobyte (asr value 24), tobyte (asr value 16), tobyte (asr value 8),
    tobyte (asr value 0), tobyte_lt _, tobyte_lt _, tobyte_lt _, tobyte_lt _, bytes_be32 value,
    _, printint_run handle value s f hw, written_putbytes _ f, ?_, ?_⟩
  · rw [putbytes_pos]; rfl
  · intro h
    exact putbytes_at_end _ f h

theorem printint_writes_marker_and_big_endian_witness :
    isInt32 (-2) ∧ OpenForWriting (demo_state empty_file filestate.OPENOUT) 254 empty_file ∧
    ∃ b3 b2 b1 b0 : Nat, b3 < 256 ∧ b2 < 256 ∧ b1 < 256 ∧ b0 < 256 ∧
      ((b3 * 2 ^ 24 + b2 * 2 ^ 16 + b1 * 2 ^ 8 + b0 : Nat) : Int) = (-2) % 2 ^ 32 ∧
      ∃ f1 : FILE,
        fileio_printint 254 (-2) (demo_state empty_file filestate.OPENOUT)
          = Outcome.ok () ((demo_state empty_file filestate.OPENOUT).printed (slot_of 254) f1) ∧
        written empty_file f1 = [0x40, b3, b2, b1, b0] ∧
        f1.pos = empty_file.pos + 5 ∧
        (empty_file.pos = empty_file.data.length →
          f1.data = empty_file.data ++ [0x40, b3, b2, b1, b0]) :=
  ⟨by decide, demo_writing empty_file,
    printint_writes_marker_and_big_endian (demo_state empty_file filestate.OPENOUT) 254
      empty_file (-2) (by decide) (demo_writing empty_file)⟩

/-- C1. Integer round trip.  Let `handle` be open for writing.  For an `int32`
value `fileio_printint`, for an `int64` value `fileio_printint64` and for a
`uint8` value `fileio_printuint8` succeeds, and whenever a handle that is open
for reading is positioned at exactly the bytes that were written (whatever
follows them in the file), `fileio_getnumber` sets `isint` to TRUE and `ip` to
the value (so a negative `int32` comes back sign-extended), leaves `fp` alone
and moves the file position on by exactly the number of bytes written. -/
theorem integer_round_trip (s : State) (handle : Int) (f : FILE) (v : Int)
    (hw : OpenForWriting s handle f) :
    (isInt32 v → ∃ f1 : FILE,
      fileio_printint handle v s = Outcome.ok () (s.printed (slot_of handle) f1) ∧
      ∀ (r : State) (handle' : Int) (g : FILE) (rest : List Nat) (out : numvars),
        OpenForReading r handle' g → g.data.drop g.pos = written f f1 ++ rest →
        fileio_getnumber handle' out r = Outcome.ok { out with ip := v, isint := true }
          (r.afterread (slot_of handle') { g with pos := g.pos + (written f f1).length })) ∧
    (isInt64 v → ∃ f1 : FILE,
      fileio_printint64 handle v s = Outcome.ok () (s.printed (slot_of handle) f1) ∧
      ∀ (r : State) (handle' : Int) (g : FILE) (rest : List Nat) (out : numvars),
        OpenForReading r handle' g → g.data.drop g.pos = written f f1 ++ rest →
        fileio_getnumber handle' out r = Outcome.ok { out with ip := v, isint := true }
          (r.afterread (slot_of handle') { g with pos := g.pos + (written f f1).length })) ∧
    (isUint8 v → ∃ f1 : FILE,
      fileio_printuint8 handle v s = Outcome.ok () (s.printed (slot_of handle) f1) ∧
      ∀ (r : State) (handle' : Int) (g : FILE) (rest : List Nat) (out : numvars),
        OpenForReading r handle' g → g.data.drop g.pos = written f f1 ++ rest →
        fileio_getnumber handle' out r = Outcome.ok { out with ip := v, isint := true }
          (r.afterread (slot_of handle') { g with pos := g.pos + (written f f1).length })) := by
  refine ⟨fun hv => ⟨_, printint_run handle v s f hw, ?_⟩,
    fun hv => ⟨_, printint64_run handle v s f hw, ?_⟩,
    fun hv => ⟨_, printuint8_run handle v s f hw, ?_⟩⟩
  · intro r handle' g rest out hr hd
    rw [written_putbytes] at hd ⊢
    rw [getnumber_int_run handle' out r g _ _ _ _ rest hr hd, decode_be32 v hv]
    rfl
  · intro r handle' g rest out hr hd
    rw [written_putbytes] at hd ⊢
    rw [getnumber_int64_run handle' out r g _ _ _ _ _ _ _ _ rest hr hd, decode_be64 v hv]
    rfl
  · intro r handle' g rest out hr hd
    rw [written_putbytes] at hd ⊢
    rw [getnumber_uint8_run handle' out r g _ rest hr hd]
    have e : ((tobyte v : Nat) : Int) = v := by
      unfold isUint8 at hv; unfold tobyte; omega
    rw [e]
    rfl

theorem integer_round_trip_witness :
    OpenForWriting (demo_state empty_file filestate.OPENOUT) 254 empty_file ∧
    isInt32 (-2) ∧ isInt64 (-2) ∧ isUint8 200 ∧
    ∃ f1 : FILE,
      fileio_printint 254 (-2) (demo_state empty_file filestate.OPENOUT)
        = Outcome.ok () ((demo_state empty_file filestate.OPENOUT).printed (slot_of 254) f1) ∧
      ∀ (r : State) (handle' : Int) (g : FILE) (rest : List Nat) (out : numvars),
        OpenForReading r handle' g → g.data.drop g.pos = written empty_file f1 ++ rest →
        fileio_getnumber handle' out r = Outcome.ok { out with ip := -2, isint := true }
          (r.afterread (slot_of handle')
            { g with pos := g.pos + (written empty_file f1).length }) :=
  ⟨demo_writing empty_file, by decide, by decide, by decide,
    (integer_round_trip (demo_state empty_file filestate.OPENOUT) 254 empty_file (-2)
      (demo_writing empty_file)).1 (by decide)⟩

/-! ## The string formats -/

theorem tobyte_length_short (n : Nat) (h : n < 256) : tobyte (n : Int) = n := tobyte_of_lt n h

/-- The four bytes of the length that `fileio_printstring` writes are the base
256 digits of the length, least significant first. -/
theorem bytes_le32 (len : Int) (h0 : 0 ≤ len) (h1 : len < 2147483648) :
    ((tobyte (and32 len 255) + tobyte (and32 (asr len 8) 255) * 2 ^ 8
      + tobyte (and32 (asr (asr len 8) 8) 255) * 2 ^ 16
      + tobyte (and32 (asr (asr (asr len 8) 8) 8) 255) * 2 ^ 24 : Nat) : Int) = len := by
  simp only [tobyte_and32_mask, asr_eq]
  unfold tobyte
  norm_num
  omega

/-- C4. What `fileio_printstring` writes for a string `str` of `n` bytes: when
`n` is less than 256, the byte 0x00, then `n` as a single byte, then the
characters in reverse order; when `n` is 256 or more, the byte 0x01, then `n`
as four bytes in little-endian order (the base 256 digits of `n`, least
significant first), then the characters in their true order.  The call
succeeds and changes nothing else. -/
theorem printstring_format (s : State) (handle : Int) (f : FILE) (str : List Nat)
    (hlen : str.length < 2147483648) (hb : ∀ b ∈ str, b < 256)
    (hw : OpenForWriting s handle f) :
    ∃ f1 : FILE,
      fileio_printstring handle str str.length s
        = Outcome.ok () (s.printed (slot_of handle) f1) ∧
      (str.length < 256 → written f f1 = 0x00 :: str.length :: str.reverse) ∧
      (256 ≤ str.length → ∃ l0 l1 l2 l3 : Nat, l0 < 256 ∧ l1 < 256 ∧ l2 < 256 ∧ l3 < 256 ∧
        l0 + l1 * 2 ^ 8 + l2 * 2 ^ 16 + l3 * 2 ^ 24 = str.length ∧
        written f f1 = 0x01 :: l0 :: l1 :: l2 :: l3 :: str) := by
  by_cases h : str.length < 256
  · refine ⟨_, printstring_run_short handle str str.length s f (by omega) hw, ?_, ?_⟩
    · intro _
      rw [written_putbytes, tobyte_of_lt _ h, Int.toNat_ofNat, reverse_map_charval str hb]
    · intro h'
      omega
  · refine ⟨_, printstring_run_long handle str str.length s f (by omega) hw, ?_, ?_⟩
    · intro h'
      omega
    · intro _
      refine ⟨tobyte (and32 (str.length : Int) 255), tobyte (and32 (asr (str.length : Int) 8) 255),
        tobyte (and32 (asr (asr (str.length : Int) 8) 8) 255),
        tobyte (and32 (asr (asr (asr (str.length : Int) 8) 8) 8) 255),
        tobyte_lt _, tobyte_lt _, tobyte_lt _, tobyte_lt _, ?_, ?_⟩
      · have := bytes_le32 (str.length : Int) (by omega) (by omega)
        exact_mod_cast this
      · rw [written_putbytes, Int.toNat_ofNat, map_getD_range]
        rfl

theorem printstring_format_witness :
    [72, 105].length < 2147483648 ∧ (∀ b ∈ [72, 105], b < 256) ∧
    OpenForWriting (demo_state empty_file filestate.OPENOUT) 254 empty_file ∧
    ∃ f1 : FILE,
      fileio_printstring 254 [72, 105] ([72, 105] : List Nat).length
          (demo_state empty_file filestate.OPENOUT)
        = Outcome.ok () ((demo_state empty_file filestate.OPENOUT).printed (slot_of 254) f1) ∧
      (([72, 105] : List Nat).length < 256 →
        written empty_file f1 = 0x00 :: ([72, 105] : List Nat).length :: [72, 105].reverse) ∧
      (256 ≤ ([72, 105] : List Nat).length →
        ∃ l0 l1 l2 l3 : Nat, l0 < 256 ∧ l1 < 256 ∧ l2 < 256 ∧ l3 < 256 ∧
        l0 + l1 * 2 ^ 8 + l2 * 2 ^ 16 + l3 * 2 ^ 24 = ([72, 105] : List Nat).length ∧
        written empty_file f1 = 0x01 :: l0 :: l1 :: l2 :: l3 :: [72, 105]) :=
  ⟨by decide, by decide, demo_writing empty_file,
    printstring_format (demo_state empty_file filestate.OPENOUT) 254 empty_file [72, 105]
      (by decide) (by decide) (demo_writing empty_file)⟩

/-- C3. String round trip.  For every byte string `str` of at most MAXSTRING
bytes (any byte values, the empty string included) `fileio_printstring`
succeeds, and whenever a handle that is open for reading is positioned at
exactly the bytes that were written and `p` has room for the string,
`fileio_getstring` returns the length of `str` and stores the bytes of `str`
in their original order at the start of `p` (the rest of `p` is unchanged); the
file position moves on by exactly the number of bytes written.  Both the short
and the long format are covered. -/
theorem string_round_trip (s : State) (handle : Int) (f : FILE) (str : List Nat)
    (hlen : str.length ≤ MAXSTRING) (hb : ∀ b ∈ str, b < 256)
    (hw : OpenForWriting s handle f) :
    ∃ f1 : FILE,
      fileio_printstring handle str str.length s
        = Outcome.ok () (s.printed (slot_of handle) f1) ∧
      ∀ (r : State) (handle' : Int) (g : FILE) (rest p : List Nat),
        OpenForReading r handle' g → g.data.drop g.pos = written f f1 ++ rest →
        str.length ≤ p.length →
        fileio_getstring handle' p r = Outcome.ok ((str.length : Int), str ++ p.drop str.length)
          (r.afterread (slot_of handle') { g with pos := g.pos + (written f f1).length }) := by
  have hmap : str.map (fun (b : Nat) => tobyte (b : Int)) = str := by
    conv_rhs => rw [← List.map_id str]
    apply List.map_congr_left
    intro b hbm
    exact tobyte_of_lt b (hb b hbm)
  have hlen' : str.length ≤ 65536 := hlen
  by_cases h : str.length < 256
  · refine ⟨_, printstring_run_short handle str str.length s f (by omega) hw, ?_⟩
    intro r handle' g rest p hr hd hp
    rw [written_putbytes, tobyte_of_lt _ h, Int.toNat_ofNat, reverse_map_charval str hb] at hd ⊢
    have hd' : g.data.drop g.pos = 0 :: str.reverse.length :: str.reverse ++ rest := by
      rw [hd]; simp
    have := getstring_short_item handle' p r g str.reverse rest hr hd' (by simpa using hp)
    have e : g.pos + (0 :: str.length :: str.reverse).length = g.pos + (2 + str.reverse.length) := by
      simp; omega
    rw [this, e]
    simp [hmap]
  · refine ⟨_, printstring_run_long handle str str.length s f (by omega) hw, ?_⟩
    intro r handle' g rest p hr hd hp
    rw [written_putbytes, Int.toNat_ofNat, map_getD_range] at hd ⊢
    have hl := decode_length (str.length : Int) (by omega) (by omega)
    have := getstring_long_item handle' p r g _ _ _ _ str rest hr
      (by rw [hd]; rfl) (by simpa only [BYTESHIFT, Nat.reduceMul] using hl) hp
    have e : g.pos + ([1, tobyte (and32 (↑str.length) 255),
        tobyte (and32 (asr (↑str.length) 8) 255),
        tobyte (and32 (asr (asr (↑str.length) 8) 8) 255),
        tobyte (and32 (asr (asr (asr (↑str.length) 8) 8) 8) 255)] ++ str).length
        = g.pos + (5 + str.length) := by
      simp; omega
    rw [this, hmap, e]

theorem string_round_trip_witness :
    ([72, 105] : List Nat).length ≤ MAXSTRING ∧ (∀ b ∈ [72, 105], b < 256) ∧
    OpenForWriting (demo_state empty_file filestate.OPENOUT) 254 empty_file ∧
    ∃ f1 : FILE,
      fileio_printstring 254 [72, 105] ([72, 105] : List Nat).length
          (demo_state empty_file filestate.OPENOUT)
        = Outcome.ok () ((demo_state empty_file filestate.OPENOUT).printed (slot_of 254) f1) ∧
      ∀ (r : State) (handle' : Int) (g : FILE) (rest p : List Nat),
        OpenForReading r handle' g → g.data.drop g.pos = written empty_file f1 ++ rest →
        ([72, 105] : List Nat).length ≤ p.length →
        fileio_getstring handle' p r
          = Outcome.ok ((([72, 105] : List Nat).length : Int),
              [72, 105] ++ p.drop ([72, 105] : List Nat).length)
            (r.afterread (slot_of handle')
              { g with pos := g.pos + (written empty_file f1).length }) :=
  ⟨by decide, by decide, demo_writing empty_file,
    string_round_trip (demo_state empty_file filestate.OPENOUT) 254 empty_file [72, 105]
      (by decide) (by decide) (demo_writing empty_file)⟩

/-! ## The floating point format -/

theorem list_of_length_eight (l : List Nat) (h : l.length = 8) :
    ∃ v0 v1 v2 v3 v4 v5 v6 v7, l = [v0, v1, v2, v3, v4, v5, v6, v7] := by
  match l, h with
  | [v0, v1, v2, v3, v4, v5, v6, v7], _ => exact ⟨v0, v1, v2, v3, v4, v5, v6, v7, rfl⟩

/-- C5. Floating point byte round trip.  For each of the four host layouts
`double_type` and every eight byte image `value` of a `float64`,
`fileio_printfloat` succeeds and writes nine bytes, the first of which is the
marker 0x88; whenever a handle that is open for reading, on a host of the same
layout, is positioned at exactly these bytes, `fileio_getnumber` sets `isint`
to FALSE and `fp` to the same eight bytes in the same order, and moves the file
position on by exactly the nine bytes. -/
theorem float_round_trip (s : State) (handle : Int) (f : FILE) (value : List Nat)
    (hlen : value.length = 8) (hb : ∀ b ∈ value, b < 256) (hw : OpenForWriting s handle f) :
    ∃ f1 : FILE,
      fileio_printfloat handle value s = Outcome.ok () (s.printed (slot_of handle) f1) ∧
      (written f f1).length = 9 ∧ (written f f1).head? = some 0x88 ∧
      ∀ (r : State) (handle' : Int) (g : FILE) (rest : List Nat) (out : numvars),
        OpenForReading r handle' g → r.double_type = s.double_type →
        g.data.drop g.pos = written f f1 ++ rest →
        fileio_getnumber handle' out r
          = Outcome.ok { out with fp := float64.image value, isint := false }
              (r.afterread (slot_of handle') { g with pos := g.pos + 9 }) := by
  obtain ⟨v0, v1, v2, v3, v4, v5, v6, v7, rfl⟩ := list_of_length_eight value hlen
  have h0 : v0 < 256 := hb v0 (by simp)
  have h1 : v1 < 256 := hb v1 (by simp)
  have h2 : v2 < 256 := hb v2 (by simp)
  have h3 : v3 < 256 := hb v3 (by simp)
  have h4 : v4 < 256 := hb v4 (by simp)
  have h5 : v5 < 256 := hb v5 (by simp)
  have h6 : v6 < 256 := hb v6 (by simp)
  have h7 : v7 < 256 := hb v7 (by simp)
  refine ⟨_, printfloat_run handle _ s f hw, ?_, ?_, ?_⟩
  · rw [written_putbytes]; rfl
  · rw [written_putbytes]; rfl
  · intro r handle' g rest out hr hdt hd
    rw [written_putbytes] at hd
    rw [getnumber_float_run handle' out r g _ _ _ _ _ _ _ _ rest hr hd, hdt]
    cases s.double_type <;>
      simp [index_xor, List.replicate, tobyte_charval, tobyte_of_lt, h0, h1, h2, h3, h4, h5, h6, h7]

theorem float_round_trip_witness :
    ([0, 0, 0, 0, 0, 0, 240, 63] : List Nat).length = 8 ∧
    (∀ b ∈ [0, 0, 0, 0, 0, 0, 240, 63], b < 256) ∧
    OpenForWriting (demo_state empty_file filestate.OPENOUT) 254 empty_file ∧
    ∃ f1 : FILE,
      fileio_printfloat 254 [0, 0, 0, 0, 0, 0, 240, 63] (demo_state empty_file filestate.OPENOUT)
        = Outcome.ok () ((demo_state empty_file filestate.OPENOUT).printed (slot_of 254) f1) ∧
      (written empty_file f1).length = 9 ∧ (written empty_file f1).head? = some 0x88 ∧
      ∀ (r : State) (handle' : Int) (g : FILE) (rest : List Nat) (out : numvars),
        OpenForReading r handle' g →
        r.double_type = (demo_state empty_file filestate.OPENOUT).double_type →
        g.data.drop g.pos = written empty_file f1 ++ rest →
        fileio_getnumber handle' out r
          = Outcome.ok { out with fp := float64.image [0, 0, 0, 0, 0, 0, 240, 63], isint := false }
              (r.afterread (slot_of handle') { g with pos := g.pos + 9 }) :=
  ⟨by decide, by decide, demo_writing empty_file,
    float_round_trip (demo_state empty_file filestate.OPENOUT) 254 empty_file
      [0, 0, 0, 0, 0, 0, 240, 63] (by decide) (by decide) (demo_writing empty_file)⟩

/-! ## The type markers -/

theorem never_pure {α : Type} (e : errnum) (a : α) : NeverRaises e (pure a : Basic α) := by
  intro s s' h
  rw [pure_run] at h
  cases h

theorem never_bind {α β : Type} (e : errnum) (m : Basic α) (k : α → Basic β)
    (hm : NeverRaises e m) (hk : ∀ a, NeverRaises e (k a)) : NeverRaises e (m >>= k) := by
  intro s s' h
  rw [bind_run] at h
  cases hms : m s with
  | ok a s1 =>
    rw [hms] at h
    exact hk a s1 s' h
  | error e1 s1 =>
    rw [hms] at h
    injection h with h1 h2
    subst h1 h2
    exact hm s s1 hms
  | fault s1 =>
    rw [hms] at h
    cases h

theorem never_on_stream {α : Type} (e : errnum) (n : Nat) (call : FILE → α × FILE) :
    NeverRaises e (on_stream n call) := by
  intro s s' h
  unfold on_stream at h
  split at h <;> cases h

theorem never_error (e e' : errnum) {α : Type} (he : e ≠ e') :
    NeverRaises e (error e' : Basic α) := by
  intro s s' h
  rw [error_run] at h
  injection h with h1 _
  exact he h1.symm

theorem never_read (e : errnum) (he : e ≠ errnum.ERR_CANTREAD) (n : Nat) :
    NeverRaises e (fileio_read n) := by
  intro s s' h
  simp only [fileio_read, bind_run] at h
  cases hos : on_stream n fgetc s with
  | ok ch s1 =>
    rw [hos] at h
    by_cases hc : ch = EOF
    · simp only [hc, if_true, error_run] at h
      injection h with h1 _
      exact he h1.symm
    · simp only [hc, if_false, pure_run] at h
      cases h
  | error e1 s1 => exact never_on_stream e1 n fgetc s s1 hos
  | fault s1 =>
    rw [hos] at h
    cases h

theorem never_get_double_type (e : errnum) : NeverRaises e get_double_type := by
  intro s s' h
  rw [get_double_type_run] at h
  cases h

theorem never_foldlM {β ι : Type} (e : errnum) (step : β → ι → Basic β)
    (hstep : ∀ b i, NeverRaises e (step b i)) (l : List ι) (init : β) :
    NeverRaises e (l.foldlM step init) := by
  induction l generalizing init with
  | nil => exact never_pure e init
  | cons i l ih =>
    rw [List.foldlM_cons]
    exact never_bind e _ _ (hstep init i) (fun b => ih b)

theorem never_getstring_short (e : errnum) (he : e ≠ errnum.ERR_CANTREAD) (n k : Nat)
    (p : List Nat) : NeverRaises e (getstring_short n k p) := by
  induction k generalizing p with
  | zero => exact never_pure e p
  | succ k ih =>
    unfold getstring_short
    exact never_bind e _ _ (never_read e he n) (fun ch => ih _)

theorem never_getstring_long (e : errnum) (he : e ≠ errnum.ERR_CANTREAD) (n k m : Nat)
    (p : List Nat) : NeverRaises e (getstring_long n k m p) := by
  induction k generalizing p m with
  | zero => exact never_pure e p
  | succ k ih =>
    unfold getstring_long
    exact never_bind e _ _ (never_read e he n) (fun ch => ih _ _)

/-- A marker of a number never leads `fileio_getnumber` to ERR_TYPENUM. -/
theorem getnumber_switch_known (n : Nat) (out : numvars) (temp : List Nat) (marker : Int)
    (h : marker = 0x40 ∨ marker = 0x50 ∨ marker = 0x60 ∨ marker = 0x80 ∨ marker = 0x88) :
    NeverRaises errnum.ERR_TYPENUM (getnumber_switch n out temp marker) := by
  have hr := never_read errnum.ERR_TYPENUM (by decide) n
  unfold getnumber_switch
  simp only [PRINT_INT, PRINT_UINT8, PRINT_INT64, PRINT_FLOAT, PRINT_FLOAT5]
  split
  · exact never_bind _ _ _
      (never_foldlM _ _ (fun b i => never_bind _ _ _ hr (fun _ => never_pure _ _)) _ _)
      (fun _ => never_pure _ _)
  split
  · exact never_bind _ _ _ hr (fun _ => never_pure _ _)
  split
  · exact never_bind _ _ _
      (never_foldlM _ _ (fun b i => never_bind _ _ _ hr (fun _ => never_pure _ _)) _ _)
      (fun _ => never_pure _ _)
  split
  · exact never_bind _ _ _ (never_get_double_type _) (fun _ => never_bind _ _ _
      (never_foldlM _ _ (fun b i => never_bind _ _ _ hr (fun _ => never_pure _ _)) _ _)
      (fun _ => never_pure _ _))
  split
  · exact never_bind _ _ _ hr (fun _ => never_bind _ _ _ hr (fun _ => never_bind _ _ _ hr
      (fun _ => never_bind _ _ _ hr (fun _ => never_bind _ _ _ hr (fun _ => never_pure _ _)))))
  · omega

theorem getnumber_switch_unknown (n : Nat) (out : numvars) (temp : List Nat) (marker : Int)
    (s : State)
    (h : marker ≠ 0x40 ∧ marker ≠ 0x50 ∧ marker ≠ 0x60 ∧ marker ≠ 0x80 ∧ marker ≠ 0x88) :
    getnumber_switch n out temp marker s = Outcome.error errnum.ERR_TYPENUM s := by
  unfold getnumber_switch
  simp only [PRINT_INT, PRINT_UINT8, PRINT_INT64, PRINT_FLOAT, PRINT_FLOAT5, h.1, h.2.1, h.2.2.1,
    h.2.2.2.1, h.2.2.2.2, if_false, error_run]

theorem getstring_switch_known (n : Nat) (p : List Nat) (marker : Int)
    (h : marker = 0x00 ∨ marker = 0x01) :
    NeverRaises errnum.ERR_TYPESTR (getstring_switch n p marker) := by
  have hr := never_read errnum.ERR_TYPESTR (by decide) n
  unfold getstring_switch
  simp only [PRINT_SHORTSTR, PRINT_LONGSTR]
  split
  · exact never_bind _ _ _ hr (fun _ => never_bind _ _ _
      (never_getstring_short _ (by decide) _ _ _) (fun _ => never_pure _ _))
  split
  · exact never_bind _ _ _
      (never_foldlM _ _ (fun b i => never_bind _ _ _ hr (fun _ => never_pure _ _)) _ _)
      (fun _ => never_bind _ _ _ (never_getstring_long _ (by decide) _ _ _ _)
        (fun _ => never_pure _ _))
  · omega

theorem getstring_switch_unknown (n : Nat) (p : List Nat) (marker : Int) (s : State)
    (h : marker ≠ 0x00 ∧ marker ≠ 0x01) :
    getstring_switch n p marker s = Outcome.error errnum.ERR_TYPESTR s := by
  unfold getstring_switch
  simp only [PRINT_SHORTSTR, PRINT_LONGSTR, h.1, h.2, if_false, error_run]

/-- Up to the `switch`, `fileio_getnumber` on a handle open for reading reads
the marker byte and does nothing else that can fail. -/
theorem getnumber_reaches_switch (handle : Int) (out : numvars) (r : State) (g : FILE)
    (m : Nat) (rest : List Nat) (hr : OpenForReading r handle g)
    (hd : g.data.drop g.pos = m :: rest) :
    fileio_getnumber handle out r
      = getnumber_switch (slot_of handle) out (List.replicate 8 0) (m : Int)
          (r.afterread (slot_of handle) { g with pos := g.pos + 1 }) := by
  have hne := handle_ne_zero hr.1
  have hs := hr.1.2.2.2
  simp only [fileio_getnumber, bind_run, hne, if_false, pure_run, map_handle_open handle r g hr.1,
    check_eof_run _ r hr.2, flush_written_run _ r g hs]
  rw [flushed_setstream r _ g hs]
  simp only [fileio_read_setstream _ _ g _ _ hd]
  exact congrArg _ (flushed_setstream_eq r (slot_of handle) g _)

theorem getstring_reaches_switch (handle : Int) (p : List Nat) (r : State) (g : FILE)
    (m : Nat) (rest : List Nat) (hr : OpenForReading r handle g)
    (hd : g.data.drop g.pos = m :: rest) :
    fileio_getstring handle p r
      = getstring_switch (slot_of handle) p (m : Int)
          (r.afterread (slot_of handle) { g with pos := g.pos + 1 }) := by
  have hne := handle_ne_zero hr.1
  have hs := hr.1.2.2.2
  simp only [fileio_getstring, bind_run, hne, if_false, pure_run, map_handle_open handle r g hr.1,
    check_eof_run _ r hr.2, flush_written_run _ r g hs]
  rw [flushed_setstream r _ g hs]
  simp only [fileio_read_setstream _ _ g _ _ hd]
  exact congrArg _ (flushed_setstream_eq r (slot_of handle) g _)

theorem getnumber_typenum_iff (handle : Int) (out : numvars) (r : State) (g : FILE)
    (m : Nat) (rest : List Nat) (hr : OpenForReading r handle g)
    (hd : g.data.drop g.pos = m :: rest) :
    (∃ st, fileio_getnumber handle out r = Outcome.error errnum.ERR_TYPENUM st) ↔
      (m ≠ 0x40 ∧ m ≠ 0x50 ∧ m ≠ 0x60 ∧ m ≠ 0x80 ∧ m ≠ 0x88) := by
  rw [getnumber_reaches_switch handle out r g m rest hr hd]
  constructor
  · rintro ⟨st, h⟩
    by_contra hc
    exact getnumber_switch_known _ out _ (m : Int) (by omega) _ st h
  · intro h
    exact ⟨_, getnumber_switch_unknown _ out _ (m : Int) _ (by omega)⟩

theorem getstring_typestr_iff (handle : Int) (p : List Nat) (r : State) (g : FILE)
    (m : Nat) (rest : List Nat) (hr : OpenForReading r handle g)
    (hd : g.data.drop g.pos = m :: rest) :
    (∃ st, fileio_getstring handle p r = Outcome.error errnum.ERR_TYPESTR st) ↔
      (m ≠ 0x00 ∧ m ≠ 0x01) := by
  rw [getstring_reaches_switch handle p r g m rest hr hd]
  constructor
  · rintro ⟨st, h⟩
    by_contra hc
    exact getstring_switch_known _ p (m : Int) (by omega) _ st h
  · intro h
    exact ⟨_, getstring_switch_unknown _ p (m : Int) _ (by omega)⟩

/-- C6. Type markers are checked on input.  Let `handle` be open for reading.
Once the marker byte `m` has been read, `fileio_getnumber` raises ERR_TYPENUM
if and only if `m` is none of 0x40, 0x50, 0x60, 0x80, 0x88, and
`fileio_getstring` raises ERR_TYPESTR if and only if `m` is neither 0x00 nor
0x01.  Consequently an item written by `fileio_printstring` (any string, any
length) is rejected by `fileio_getnumber` with ERR_TYPENUM, and an item
written by `fileio_printint`, `fileio_printuint8`, `fileio_printint64` or
`fileio_printfloat` is rejected by `fileio_getstring` with ERR_TYPESTR. -/
theorem type_markers_checked (s : State) (whandle : Int) (f : FILE) (r : State) (handle : Int)
    (g : FILE) (hw : OpenForWriting s whandle f) (hr : OpenForReading r handle g) :
    (∀ (m : Nat) (rest : List Nat) (out : numvars), g.data.drop g.pos = m :: rest →
      ((∃ st, fileio_getnumber handle out r = Outcome.error errnum.ERR_TYPENUM st) ↔
        (m ≠ 0x40 ∧ m ≠ 0x50 ∧ m ≠ 0x60 ∧ m ≠ 0x80 ∧ m ≠ 0x88))) ∧
    (∀ (m : Nat) (rest p : List Nat), g.data.drop g.pos = m :: rest →
      ((∃ st, fileio_getstring handle p r = Outcome.error errnum.ERR_TYPESTR st) ↔
        (m ≠ 0x00 ∧ m ≠ 0x01))) ∧
    (∀ (string : List Nat) (length : Int), ∃ f1 : FILE,
      fileio_printstring whandle string length s
        = Outcome.ok () (s.printed (slot_of whandle) f1) ∧
      ∀ (rest : List Nat) (out : numvars), g.data.drop g.pos = written f f1 ++ rest →
        ∃ st, fileio_getnumber handle out r = Outcome.error errnum.ERR_TYPENUM st) ∧
    (∀ (v : Int), ∃ f1 : FILE,
      fileio_printint whandle v s = Outcome.ok () (s.printed (slot_of whandle) f1) ∧
      ∀ (rest p : List Nat), g.data.drop g.pos = written f f1 ++ rest →
        ∃ st, fileio_getstring handle p r = Outcome.error errnum.ERR_TYPESTR st) ∧
    (∀ (v : Int), ∃ f1 : FILE,
      fileio_printuint8 whandle v s = Outcome.ok () (s.printed (slot_of whandle) f1) ∧
      ∀ (rest p : List Nat), g.data.drop g.pos = written f f1 ++ rest →
        ∃ st, fileio_getstring handle p r = Outcome.error errnum.ERR_TYPESTR st) ∧
    (∀ (v : Int), ∃ f1 : FILE,
      fileio_printint64 whandle v s = Outcome.ok () (s.printed (slot_of whandle) f1) ∧
      ∀ (rest p : List Nat), g.data.drop g.pos = written f f1 ++ rest →
        ∃ st, fileio_getstring handle p r = Outcome.error errnum.ERR_TYPESTR st) ∧
    (∀ (value : List Nat), ∃ f1 : FILE,
      fileio_printfloat whandle value s = Outcome.ok () (s.printed (slot_of whandle) f1) ∧
      ∀ (rest p : List Nat), g.data.drop g.pos = written f f1 ++ rest →
        ∃ st, fileio_getstring handle p r = Outcome.error errnum.ERR_TYPESTR st) := by
  refine ⟨fun m rest out hd => getnumber_typenum_iff handle out r g m rest hr hd,
    fun m rest p hd => getstring_typestr_iff handle p r g m rest hr hd, ?_, ?_, ?_, ?_, ?_⟩
  · intro string length
    by_cases h : length < 256
    · refine ⟨_, printstring_run_short whandle string length s f h hw, ?_⟩
      intro rest out hd
      rw [written_putbytes] at hd
      exact (getnumber_typenum_iff handle out r g 0 _ hr hd).2 (by decide)
    · refine ⟨_, printstring_run_long whandle string length s f (by omega) hw, ?_⟩
      intro rest out hd
      rw [written_putbytes] at hd
      exact (getnumber_typenum_iff handle out r g 1 _ hr hd).2 (by decide)
  · intro v
    refine ⟨_, printint_run whandle v s f hw, ?_⟩
    intro rest p hd
    rw [written_putbytes] at hd
    exact (getstring_typestr_iff handle p r g 0x40 _ hr hd).2 (by decide)
  · intro v
    refine ⟨_, printuint8_run whandle v s f hw, ?_⟩
    intro rest p hd
    rw [written_putbytes] at hd
    exact (getstring_typestr_iff handle p r g 0x50 _ hr hd).2 (by decide)
  · intro v
    refine ⟨_, printint64_run whandle v s f hw, ?_⟩
    intro rest p hd
    rw [written_putbytes] at hd
    exact (getstring_typestr_iff handle p r g 0x60 _ hr hd).2 (by decide)
  · intro value
    refine ⟨_, printfloat_run whandle value s f hw, ?_⟩
    intro rest p hd
    rw [written_putbytes] at hd
    exact (getstring_typestr_iff handle p r g 0x88 _ hr hd).2 (by decide)

theorem type_markers_checked_witness :
    OpenForWriting (demo_state empty_file filestate.OPENOUT) 254 empty_file ∧
    OpenForReading (demo_state { data := [0x41, 7], pos := 0 } filestate.OPENIN) 254
      { data := [0x41, 7], pos := 0 } ∧
    ((∃ st, fileio_getnumber 254 demo_out
        (demo_state { data := [0x41, 7], pos := 0 } filestate.OPENIN)
        = Outcome.error errnum.ERR_TYPENUM st) ↔
      ((0x41 : Nat) ≠ 0x40 ∧ (0x41 : Nat) ≠ 0x50 ∧ (0x41 : Nat) ≠ 0x60 ∧ (0x41 : Nat) ≠ 0x80
        ∧ (0x41 : Nat) ≠ 0x88)) :=
  ⟨demo_writing empty_file, demo_reading _ _ (by decide),
    (type_markers_checked (demo_state empty_file filestate.OPENOUT) 254 empty_file
      (demo_state { data := [0x41, 7], pos := 0 } filestate.OPENIN) 254
      { data := [0x41, 7], pos := 0 } (demo_writing empty_file)
      (demo_reading _ _ (by decide))).1 0x41 [7] demo_out rfl⟩

/-! ## The file table: allocation of handles -/

/-- The search loop stops at the lowest slot at or after `n` whose stream is
NIL, or at `MAXFILES`; it never runs out of fuel before that. -/
theorem find_unused_spec (fileinfo : Nat → fileblock) (fuel n : Nat) :
    n ≤ find_unused fileinfo fuel n ∧ find_unused fileinfo fuel n ≤ n + fuel ∧
    (∀ k, n ≤ k → k < find_unused fileinfo fuel n →
      k < MAXFILES ∧ (fileinfo k).stream ≠ streamptr.NIL) ∧
    (find_unused fileinfo fuel n < n + fuel →
      ¬ (find_unused fileinfo fuel n < MAXFILES ∧
        (fileinfo (find_unused fileinfo fuel n)).stream ≠ streamptr.NIL)) := by
  induction fuel generalizing n with
  | zero =>
    simp [find_unused]
    intro k h1 h2
    omega
  | succ fuel ih =>
    unfold find_unused
    split
    · rename_i hc
      obtain ⟨h1, h2, h3, h4⟩ := ih (n + 1)
      refine ⟨by omega, by omega, ?_, ?_⟩
      · intro k hk1 hk2
        by_cases hkn : k = n
        · subst hkn; exact hc
        · exact h3 k (by omega) hk2
      · intro h
        exact h4 (by omega)
    · rename_i hc
      refine ⟨le_refl _, by omega, ?_, ?_⟩
      · intro k h1 h2
        omega
      · intro _
        exact hc

/-- With `MAXFILES` iterations the loop of the open functions has left its
body: the result is the lowest free slot, or `MAXFILES` if there is none. -/
theorem find_unused_exit (fileinfo : Nat → fileblock) :
    (find_unused fileinfo MAXFILES 0 < MAXFILES →
      (fileinfo (find_unused fileinfo MAXFILES 0)).stream = streamptr.NIL) ∧
    (∀ k, k < find_unused fileinfo MAXFILES 0 → (fileinfo k).stream ≠ streamptr.NIL) ∧
    find_unused fileinfo MAXFILES 0 ≤ MAXFILES := by
  obtain ⟨_, h2, h3, h4⟩ := find_unused_spec fileinfo MAXFILES 0
  refine ⟨?_, ?_, by omega⟩
  · intro h
    have := h4 (by omega)
    by_contra hc
    exact this ⟨h, hc⟩
  · intro k hk
    exact (h3 k (Nat.zero_le _) hk).2

theorem find_unused_full (fileinfo : Nat → fileblock)
    (h : ∀ n, n < MAXFILES → (fileinfo n).stream ≠ streamptr.NIL) :
    find_unused fileinfo MAXFILES 0 ≥ MAXFILES := by
  by_contra hc
  have hlt : find_unused fileinfo MAXFILES 0 < MAXFILES := by omega
  exact h _ hlt ((find_unused_exit fileinfo).1 hlt)

/-- The state change of a successful open: slot `n` is entered, nothing else
in the table changes. -/
theorem enter_other (s : State) (n k : Nat) (stream : streamptr) (t : filestate) (h : k ≠ n) :
    (s.enter n stream t).fileinfo k = s.fileinfo k := by
  simp [State.enter, setfb_fileinfo_other _ _ _ _ h]

theorem enter_same (s : State) (n : Nat) (stream : streamptr) (t : filestate) :
    ((s.enter n stream t).fileinfo n).stream = stream ∧
    ((s.enter n stream t).fileinfo n).filetype = t := by
  simp [State.enter]

/-- The outcome `Outcome.ok h s'` with a handle that is not zero comes from
the assignments to slot `n`. -/
theorem entered_ok (s s0 s' : State) (n : Nat) (h : Int) (stream : streamptr) (t : filestate)
    (hfi : s0.fileinfo = s.fileinfo) (hn : ¬ n ≥ MAXFILES) (hs : stream ≠ streamptr.NIL)
    (ht : t ≠ filestate.CLOSED)
    (he : (Outcome.ok (FIRSTHANDLE - (n : Int)) (s0.enter n stream t) : Outcome Int)
      = Outcome.ok h s') :
    n < MAXFILES ∧ h = FIRSTHANDLE - (n : Int) ∧
      (s'.fileinfo n).stream ≠ streamptr.NIL ∧ (s'.fileinfo n).filetype ≠ filestate.CLOSED ∧
      ∀ k, k ≠ n → s'.fileinfo k = s.fileinfo k := by
  injection he with h1 h2
  subst h1 h2
  refine ⟨by omega, rfl, ?_, ?_, ?_⟩
  · rw [(enter_same s0 n stream t).1]; exact hs
  · rw [(enter_same s0 n stream t).2]; exact ht
  · intro k hk
    rw [enter_other s0 n k stream t hk, hfi]

theorem openin_success (host : Host) (name : List Nat) (namelen : Int) (s s' : State) (h : Int)
    (he : fileio_openin host name namelen s = Outcome.ok h s') (hne : h ≠ 0) :
    find_unused s.fileinfo MAXFILES 0 < MAXFILES ∧
      h = FIRSTHANDLE - (find_unused s.fileinfo MAXFILES 0 : Int) ∧
      (s'.fileinfo (find_unused s.fileinfo MAXFILES 0)).stream ≠ streamptr.NIL ∧
      (s'.fileinfo (find_unused s.fileinfo MAXFILES 0)).filetype ≠ filestate.CLOSED ∧
      ∀ k, k ≠ find_unused s.fileinfo MAXFILES 0 → s'.fileinfo k = s.fileinfo k := by
  unfold fileio_openin at he
  simp only [] at he
  split at he
  · cases he
  split at he
  · cases he
  rename_i hn
  repeat' split at he
  all_goals first
    | exact entered_ok s s s' _ h _ _ rfl hn (by simp) (by decide) he
    | exact entered_ok s _ s' _ h _ _ (by rfl) hn (by simp) (by decide) he
    | (injection he with h1 _; exact absurd h1.symm hne)

theorem openout_success (host : Host) (name : List Nat) (namelen : Int) (s s' : State) (h : Int)
    (he : fileio_openout host name namelen s = Outcome.ok h s') :
    find_unused s.fileinfo MAXFILES 0 < MAXFILES ∧
      h = FIRSTHANDLE - (find_unused s.fileinfo MAXFILES 0 : Int) ∧
      (s'.fileinfo (find_unused s.fileinfo MAXFILES 0)).stream ≠ streamptr.NIL ∧
      (s'.fileinfo (find_unused s.fileinfo MAXFILES 0)).filetype ≠ filestate.CLOSED ∧
      ∀ k, k ≠ find_unused s.fileinfo MAXFILES 0 → s'.fileinfo k = s.fileinfo k := by
  unfold fileio_openout at he
  simp only [] at he
  split at he
  · cases he
  split at he
  · cases he
  rename_i hn
  repeat' split at he
  all_goals first
    | exact entered_ok s s s' _ h _ _ rfl hn (by simp) (by decide) he
    | cases he

theorem openup_success (host : Host) (name : List Nat) (namelen : Int) (s s' : State) (h : Int)
    (he : fileio_openup host name namelen s = Outcome.ok h s') (hne : h ≠ 0) :
    find_unused s.fileinfo MAXFILES 0 < MAXFILES ∧
      h = FIRSTHANDLE - (find_unused s.fileinfo MAXFILES 0 : Int) ∧
      (s'.fileinfo (find_unused s.fileinfo MAXFILES 0)).stream ≠ streamptr.NIL ∧
      (s'.fileinfo (find_unused s.fileinfo MAXFILES 0)).filetype ≠ filestate.CLOSED ∧
      ∀ k, k ≠ find_unused s.fileinfo MAXFILES 0 → s'.fileinfo k = s.fileinfo k := by
  unfold fileio_openup at he
  simp only [] at he
  split at he
  · cases he
  split at he
  · cases he
  rename_i hn
  repeat' split at he
  all_goals first
    | exact entered_ok s s s' _ h _ _ rfl hn (by simp) (by decide) he
    | exact entered_ok s _ s' _ h _ _ (by rfl) hn (by simp) (by decide) he
    | (injection he with h1 _; exact absurd h1.symm hne)
    | (injection he with h1 h2; subst h1 h2
       exact ⟨by omega, rfl, by simp, by simp, fun k hk => setfb_fileinfo_other _ _ _ _ hk⟩)

theorem open_success (op : Host → List Nat → Int → Basic Int) (hop : op ∈ opens) (host : Host)
    (name : List Nat) (namelen : Int) (s s' : State) (h : Int)
    (he : op host name namelen s = Outcome.ok h s') (hne : h ≠ 0) :
    find_unused s.fileinfo MAXFILES 0 < MAXFILES ∧
      h = FIRSTHANDLE - (find_unused s.fileinfo MAXFILES 0 : Int) ∧
      (s'.fileinfo (find_unused s.fileinfo MAXFILES 0)).stream ≠ streamptr.NIL ∧
      (s'.fileinfo (find_unused s.fileinfo MAXFILES 0)).filetype ≠ filestate.CLOSED ∧
      ∀ k, k ≠ find_unused s.fileinfo MAXFILES 0 → s'.fileinfo k = s.fileinfo k := by
  simp only [opens, List.mem_cons, List.mem_singleton, List.not_mem_nil, or_false] at hop
  rcases hop with rfl | rfl | rfl
  · exact openin_success host name namelen s s' h he hne
  · exact openout_success host name namelen s s' h he
  · exact openup_success host name namelen s s' h he hne

theorem open_invalid_name (op : Host → List Nat → Int → Basic Int) (hop : op ∈ opens)
    (host : Host) (name : List Nat) (namelen : Int) (s : State)
    (h : namelen < 0 ∨ namelen > host.FNAMESIZE - 1) :
    op host name namelen s = Outcome.error errnum.ERR_INVALIDFNAME s := by
  simp only [opens, List.mem_cons, List.mem_singleton, List.not_mem_nil, or_false] at hop
  rcases hop with rfl | rfl | rfl
  · unfold fileio_openin; rw [if_pos h]
  · unfold fileio_openout; rw [if_pos h]
  · unfold fileio_openup; rw [if_pos h]

theorem open_table_full (op : Host → List Nat → Int → Basic Int) (hop : op ∈ opens)
    (host : Host) (name : List Nat) (namelen : Int) (s : State)
    (h : ¬ (namelen < 0 ∨ namelen > host.FNAMESIZE - 1))
    (hfull : ∀ n, n < MAXFILES → (s.fileinfo n).stream ≠ streamptr.NIL) :
    op host name namelen s = Outcome.error errnum.ERR_MAXHANDLE s := by
  have hf := find_unused_full s.fileinfo hfull
  simp only [opens, List.mem_cons, List.mem_singleton, List.not_mem_nil, or_false] at hop
  rcases hop with rfl | rfl | rfl
  · unfold fileio_openin; rw [if_neg h]; simp only []; rw [if_pos hf]
  · unfold fileio_openout; rw [if_neg h]; simp only []; rw [if_pos hf]
  · unfold fileio_openup; rw [if_neg h]; simp only []; rw [if_pos hf]

theorem full_table_full : ∀ n, n < MAXFILES → (full_table.fileinfo n).stream ≠ streamptr.NIL := by
  intro n _ h
  simp [full_table] at h

/-- C7, as the claim states it, fails: with no free slot, `fileio_openin`
called with a name of 5000 characters (where `FILENAME_MAX` is 4096) raises
ERR_INVALIDFNAME, not ERR_MAXHANDLE, because the length of the name is checked
before the table is searched. -/
theorem open_full_table_invalid_name :
    (∀ n, n < MAXFILES → (full_table.fileinfo n).stream ≠ streamptr.NIL) ∧
    fileio_openin demo_host (List.replicate 5000 97) 5000 full_table
      = Outcome.error errnum.ERR_INVALIDFNAME full_table ∧
    fileio_openin demo_host (List.replicate 5000 97) 5000 full_table
      ≠ Outcome.error errnum.ERR_MAXHANDLE full_table := by
  have h : fileio_openin demo_host (List.replicate 5000 97) 5000 full_table
      = Outcome.error errnum.ERR_INVALIDFNAME full_table :=
    open_invalid_name fileio_openin (by simp [opens]) demo_host (List.replicate 5000 97) 5000
      full_table (Or.inr (by decide))
  refine ⟨full_table_full, h, ?_⟩
  rw [h]
  intro hc
  injection hc with h1 _
  cases h1

/-- C7 (amended). For each of `fileio_openin`, `fileio_openout` and
`fileio_openup`: a successful call (one that returns a handle other than 0)
uses the lowest-numbered slot `n` in 0..MAXFILES-1 whose stream is NIL and
returns the handle FIRSTHANDLE - n, which lies in 230..254; it fills in that
slot and leaves every other slot as it was.  When no slot is free and the name
length is in the range 0..FNAMESIZE-1, the call raises ERR_MAXHANDLE and leaves
the file table unchanged.  A name length outside that range raises
ERR_INVALIDFNAME, whatever the table holds, and also leaves it unchanged. -/
theorem open_allocates_lowest_free_slot (op : Host → List Nat → Int → Basic Int)
    (hop : op ∈ opens) (host : Host) (name : List Nat) (namelen : Int) (s : State) :
    (∀ (h : Int) (s' : State), op host name namelen s = Outcome.ok h s' → h ≠ 0 →
      ∃ n, n < MAXFILES ∧ (s.fileinfo n).stream = streamptr.NIL ∧
        (∀ k, k < n → (s.fileinfo k).stream ≠ streamptr.NIL) ∧
        h = FIRSTHANDLE - (n : Int) ∧ 230 ≤ h ∧ h ≤ 254 ∧
        (s'.fileinfo n).stream ≠ streamptr.NIL ∧
        (s'.fileinfo n).filetype ≠ filestate.CLOSED ∧
        ∀ k, k ≠ n → s'.fileinfo k = s.fileinfo k) ∧
    ((∀ n, n < MAXFILES → (s.fileinfo n).stream ≠ streamptr.NIL) →
      0 ≤ namelen → namelen ≤ host.FNAMESIZE - 1 →
      op host name namelen s = Outcome.error errnum.ERR_MAXHANDLE s) ∧
    ((namelen < 0 ∨ namelen > host.FNAMESIZE - 1) →
      op host name namelen s = Outcome.error errnum.ERR_INVALIDFNAME s) := by
  refine ⟨?_, ?_, open_invalid_name op hop host name namelen s⟩
  · intro h s' he hne
    obtain ⟨h1, h2, h3, h4, h5⟩ := open_success op hop host name namelen s s' h he hne
    obtain ⟨e1, e2, _⟩ := find_unused_exit s.fileinfo
    refine ⟨_, h1, e1 h1, e2, h2, ?_, ?_, h3, h4, h5⟩
    · have h1' : find_unused s.fileinfo MAXFILES 0 < 25 := h1
      rw [h2]; simp only [FIRSTHANDLE]; omega
    · rw [h2]; simp only [FIRSTHANDLE]; omega
  · intro hfull h0 h1
    exact open_table_full op hop host name namelen s (by omega) hfull

theorem open_allocates_lowest_free_slot_witness :
    fileio_openin ∈ opens ∧
    (∀ n, n < MAXFILES → (full_table.fileinfo n).stream ≠ streamptr.NIL) ∧
    fileio_openin demo_host [] 0 full_table = Outcome.error errnum.ERR_MAXHANDLE full_table :=
  ⟨by simp [opens], full_table_full,
    (open_allocates_lowest_free_slot fileio_openin (by simp [opens]) demo_host [] 0
      full_table).2.1 full_table_full (by decide) (by decide)⟩

/-- An open on the empty table: `fileio_openout` returns the handle 254 and
fills in slot 0. -/
theorem openout_closed_table :
    ∃ s', fileio_openout demo_host [65] 1 closed_table = Outcome.ok 254 s' ∧
      (s'.fileinfo 0).filetype = filestate.OPENOUT ∧
      (s'.fileinfo 0).stream = streamptr.file empty_file :=
  ⟨_, rfl, rfl, rfl⟩

/-- C8. `map_handle` checks that a Basic file handle is valid.  For every
`int32` handle: when the index FIRSTHANDLE - handle is in 0..MAXFILES-1 and the
filetype of that slot is not CLOSED, `map_handle` returns the index; in every
other case (handle above 254, handle below 230, or slot closed) it raises
ERR_BADHANDLE; nothing is changed.  In particular `map_handle` of a handle
just returned by a successful open returns the slot that the open filled in,
which is the lowest slot that was free. -/
theorem map_handle_checks (handle : Int) (s : State) (hh : isInt32 handle) :
    ((0 ≤ FIRSTHANDLE - handle ∧ FIRSTHANDLE - handle < MAXFILES ∧
        (s.fileinfo (FIRSTHANDLE - handle).toNat).filetype ≠ filestate.CLOSED) →
      map_handle handle s = Outcome.ok (FIRSTHANDLE - handle).toNat s) ∧
    ((handle > 254 ∨ handle < 230 ∨
        (s.fileinfo (FIRSTHANDLE - handle).toNat).filetype = filestate.CLOSED) →
      map_handle handle s = Outcome.error errnum.ERR_BADHANDLE s) ∧
    (∀ (op : Host → List Nat → Int → Basic Int) (host : Host) (name : List Nat) (namelen : Int)
        (s0 : State), op ∈ opens → op host name namelen s0 = Outcome.ok handle s → handle ≠ 0 →
      map_handle handle s = Outcome.ok (FIRSTHANDLE - handle).toNat s ∧
      (s0.fileinfo (FIRSTHANDLE - handle).toNat).stream = streamptr.NIL ∧
      (∀ k, k < (FIRSTHANDLE - handle).toNat → (s0.fileinfo k).stream ≠ streamptr.NIL) ∧
      (s.fileinfo (FIRSTHANDLE - handle).toNat).stream ≠ streamptr.NIL) := by
  have hrun := map_handle_run handle s hh
  unfold slot_of at hrun
  refine ⟨?_, ?_, ?_⟩
  · intro ⟨h1, h2, h3⟩
    rw [hrun, if_pos]
    refine ⟨?_, ?_, h3⟩
    · unfold FIRSTHANDLE MAXFILES at h2; omega
    · unfold FIRSTHANDLE at h1; omega
  · intro h
    rw [hrun, if_neg]
    intro ⟨h1, h2, h3⟩
    rcases h with h | h | h
    · omega
    · omega
    · exact h3 h
  · intro op host name namelen s0 hop he hne
    obtain ⟨h1, h2, h3, h4, h5⟩ := open_success op hop host name namelen s0 s handle he hne
    obtain ⟨e1, e2, _⟩ := find_unused_exit s0.fileinfo
    have h1' : find_unused s0.fileinfo MAXFILES 0 < 25 := h1
    have hn : (FIRSTHANDLE - handle).toNat = find_unused s0.fileinfo MAXFILES 0 := by
      rw [h2]; simp only [FIRSTHANDLE]; omega
    rw [hn]
    refine ⟨?_, e1 h1, e2, h3⟩
    rw [hrun, if_pos, hn]
    rw [hn]
    refine ⟨?_, ?_, h4⟩
    · rw [h2]; simp only [FIRSTHANDLE]; omega
    · rw [h2]; simp only [FIRSTHANDLE]; omega

theorem map_handle_checks_witness :
    isInt32 254 ∧
    (0 ≤ FIRSTHANDLE - 254 ∧ FIRSTHANDLE - 254 < MAXFILES ∧
      ((demo_state empty_file filestate.OPENIN).fileinfo (FIRSTHANDLE - 254).toNat).filetype
        ≠ filestate.CLOSED) ∧
    map_handle 254 (demo_state empty_file filestate.OPENIN)
      = Outcome.ok (FIRSTHANDLE - 254).toNat (demo_state empty_file filestate.OPENIN) :=
  ⟨by decide, by decide,
    (map_handle_checks 254 (demo_state empty_file filestate.OPENIN) (by decide)).1 (by decide)⟩

/-! ## The file table: closing files -/

theorem close_file_run (n : Nat) (s : State) (hn : n < MAXFILES) (hok : (s.fileinfo n).ok)
    (hopen : (s.fileinfo n).filetype ≠ filestate.CLOSED) :
    close_file n s = Outcome.ok () (s.setfb n (s.fileinfo n).closed) := by
  have hle : (n : Int) ≤ FIRSTHANDLE := by
    unfold MAXFILES at hn; unfold FIRSTHANDLE; omega
  unfold fileblock.closed
  unfold fileblock.ok at hok
  by_cases hnet : (s.fileinfo n).filetype = filestate.NETWORK
  · simp only [close_file, bind_run, getfb_run, hle, hnet, and_self, if_true, modfb_run]
  · have hf : ∃ f, (s.fileinfo n).stream = streamptr.file f := by
      cases hft : (s.fileinfo n).filetype with
      | CLOSED => exact absurd hft hopen
      | NETWORK => exact absurd hft hnet
      | OPENIN => rw [hft] at hok; exact hok
      | OPENUP => rw [hft] at hok; exact hok
      | OPENOUT => rw [hft] at hok; exact hok
    obtain ⟨f, hf⟩ := hf
    simp only [close_file, bind_run, getfb_run, hnet, and_false, if_false,
      on_stream_file n _ s f hf, fclose, setstream_self s n f hf, modfb_run]

theorem closed_is_closed (b : fileblock) :
    b.closed.filetype = filestate.CLOSED ∧ b.closed.stream = streamptr.NIL := by
  unfold fileblock.closed
  split <;> exact ⟨rfl, rfl⟩

/-- The loop of `fileio_close(0)` over the slots `n` to `n + k - 1`: it ends
without an error, these slots are closed and no other slot is touched. -/
theorem close_all_run (k n : Nat) (s : State) (hk : n + k ≤ MAXFILES)
    (hok : ∀ m, n ≤ m → m < n + k → (s.fileinfo m).ok) :
    ∃ s', close_all k n s = Outcome.ok () s' ∧
      (∀ m, n ≤ m → m < n + k →
        (s'.fileinfo m).filetype = filestate.CLOSED ∧ (s'.fileinfo m).stream = streamptr.NIL) ∧
      (∀ m, (m < n ∨ n + k ≤ m) → s'.fileinfo m = s.fileinfo m) := by
  induction k generalizing n s with
  | zero =>
    refine ⟨s, rfl, ?_, fun m _ => rfl⟩
    intro m h1 h2
    omega
  | succ k ih =>
    have hn : n < MAXFILES := by omega
    by_cases hopen : (s.fileinfo n).filetype = filestate.CLOSED
    · obtain ⟨s', h1, h2, h3⟩ := ih (n + 1) s (by omega) (fun m hm1 hm2 => hok m (by omega) (by omega))
      refine ⟨s', ?_, ?_, ?_⟩
      · simp only [close_all, bind_run, getfb_run, hopen, ne_eq, not_true_eq_false, if_false,
          pure_run]
        exact h1
      · intro m hm1 hm2
        by_cases hmn : m = n
        · subst hmn
          rw [h3 m (Or.inl (by omega))]
          have := hok m (le_refl _) (by omega)
          unfold fileblock.ok at this
          rw [hopen] at this
          exact ⟨hopen, this⟩
        · exact h2 m (by omega) (by omega)
      · intro m hm
        exact h3 m (by omega)
    · have hrun := close_file_run n s hn (hok n (le_refl _) (by omega)) hopen
      obtain ⟨s', h1, h2, h3⟩ := ih (n + 1) (s.setfb n (s.fileinfo n).closed) (by omega)
        (fun m hm1 hm2 => by
          rw [setfb_fileinfo_other _ _ _ _ (by omega : m ≠ n)]
          exact hok m (by omega) (by omega))
      refine ⟨s', ?_, ?_, ?_⟩
      · simp only [close_all, bind_run, getfb_run, hopen, ne_eq, not_false_eq_true, if_true, hrun]
        exact h1
      · intro m hm1 hm2
        by_cases hmn : m = n
        · subst hmn
          rw [h3 m (Or.inl (by omega)), setfb_fileinfo_same]
          exact closed_is_closed _
        · exact h2 m (by omega) (by omega)
      · intro m hm
        rw [h3 m (by omega), setfb_fileinfo_other _ _ _ _ (by omega : m ≠ n)]

/-- C9. `fileio_close(0)` closes all open files: for every state of the file
table in which each slot is consistent, which are all the states a run can be
in (`reachable_consistent`), the call ends without raising an error, also when
no file was open, and afterwards every slot 0..MAXFILES-1 has filetype CLOSED
and stream NIL. -/
theorem close_zero_closes_all (s : State) (hc : Consistent s) :
    ∃ s', fileio_close 0 s = Outcome.ok () s' ∧
      ∀ n, n < MAXFILES →
        (s'.fileinfo n).filetype = filestate.CLOSED ∧ (s'.fileinfo n).stream = streamptr.NIL := by
  obtain ⟨s', h1, h2, _⟩ := close_all_run MAXFILES 0 s (by omega) (fun m _ hm => hc m (by omega))
  refine ⟨s', ?_, fun n hn => h2 n (Nat.zero_le _) (by omega)⟩
  simp only [fileio_close, if_true]
  exact h1

theorem closed_table_consistent : Consistent closed_table := by
  intro n _
  show closed_block.ok
  unfold fileblock.ok closed_block
  rfl

theorem demo_state_consistent (f : FILE) : Consistent (demo_state f filestate.OPENOUT) := by
  intro n _
  by_cases h : n = 0
  · subst h
    exact ⟨f, rfl⟩
  · have : (demo_state f filestate.OPENOUT).fileinfo n = closed_block := by
      simp [demo_state, h]
    rw [this]
    unfold fileblock.ok closed_block
    rfl

theorem close_zero_closes_all_witness :
    Consistent closed_table ∧ Consistent (demo_state empty_file filestate.OPENOUT) ∧
    (∃ s', fileio_close 0 closed_table = Outcome.ok () s' ∧
      ∀ n, n < MAXFILES →
        (s'.fileinfo n).filetype = filestate.CLOSED ∧ (s'.fileinfo n).stream = streamptr.NIL) ∧
    (∃ s', fileio_close 0 (demo_state empty_file filestate.OPENOUT) = Outcome.ok () s' ∧
      ∀ n, n < MAXFILES →
        (s'.fileinfo n).filetype = filestate.CLOSED ∧ (s'.fileinfo n).stream = streamptr.NIL) :=
  ⟨closed_table_consistent, demo_state_consistent empty_file,
    close_zero_closes_all closed_table closed_table_consistent,
    close_zero_closes_all _ (demo_state_consistent empty_file)⟩

/-- When `map_handle` refuses a handle, every function that takes the handle
raises ERR_BADHANDLE before it does anything else. -/
theorem rejected_of_map_handle (host : Host) (handle : Int) (t : State) (hne : handle ≠ 0)
    (hm : map_handle handle t = Outcome.error errnum.ERR_BADHANDLE t) :
    Rejected host handle t := by
  unfold Rejected Raises
  refine ⟨?_, ?_, ?_, ?_, ?_, ?_, ?_, ?_, ?_, ?_, ?_, ?_, ?_, ?_, ?_, ?_, ?_⟩
  · simp only [fileio_bget, bind_run, hne, if_false, pure_run, hm]
  · simp only [fileio_getdol, bind_run, hne, if_false, pure_run, hm]
  · intro out
    simp only [fileio_getnumber, bind_run, hne, if_false, pure_run, hm]
  · intro p
    simp only [fileio_getstring, bind_run, hne, if_false, pure_run, hm]
  · intro value
    simp only [fileio_bput, bind_run, hne, if_false, pure_run, hm]
  · intro string length
    simp only [fileio_bputstr, bind_run, hne, if_false, pure_run, hm]
  · intro value
    simp only [fileio_printint, print_start, bind_run, hne, if_false, pure_run, hm]
  · intro value
    simp only [fileio_printuint8, print_start, bind_run, hne, if_false, pure_run, hm]
  · intro value
    simp only [fileio_printint64, print_start, bind_run, hne, if_false, pure_run, hm]
  · intro value
    simp only [fileio_printfloat, print_start, bind_run, hne, if_false, pure_run, hm]
  · intro string length
    simp only [fileio_printstring, print_start, bind_run, hne, if_false, pure_run, hm]
  · intro newoffset
    simp only [fileio_setptr, bind_run, hne, if_false, pure_run, hm]
  · simp only [fileio_getptr, bind_run, hne, if_false, pure_run, hm]
  · simp only [fileio_getext, bind_run, hne, if_false, pure_run, hm]
  · intro newsize
    simp only [fileio_setext, bind_run, hne, if_false, pure_run, hm]
  · simp only [fileio_eof, bind_run, hne, if_false, pure_run, hm]
  · simp only [fileio_close, bind_run, hne, if_false, pure_run, hm]

theorem map_handle_closed (handle : Int) (t : State) (hh : isInt32 handle)
    (h : (t.fileinfo (slot_of handle)).filetype = filestate.CLOSED) :
    map_handle handle t = Outcome.error errnum.ERR_BADHANDLE t := by
  rw [map_handle_run handle t hh, if_neg]
  intro hc
  exact hc.2.2 h

/-- C10. For a handle `handle` other than zero, `fileio_close(handle)` closes
only the file given by the handle.  If the handle is a valid open handle, the
call ends without an error, slot FIRSTHANDLE - handle becomes CLOSED with
stream NIL, every other slot of the file table and the rest of the state are
unchanged, and in every later state in which that slot is still closed (so
before it is reused by another open) every read, write, pointer or close
operation on the handle raises ERR_BADHANDLE.  If the handle is invalid or its
slot is already closed, `fileio_close(handle)` raises ERR_BADHANDLE and changes
nothing.  The state `s` is any state a run can be in: each slot of the table
is consistent (`reachable_consistent`). -/
theorem close_one_handle (host : Host) (handle : Int) (s : State) (hh : isInt32 handle)
    (hne : handle ≠ 0) (hc : Consistent s) :
    ((230 ≤ handle ∧ handle ≤ 254 ∧
        (s.fileinfo (slot_of handle)).filetype ≠ filestate.CLOSED) →
      ∃ s', fileio_close handle s = Outcome.ok () s' ∧
        (s'.fileinfo (slot_of handle)).filetype = filestate.CLOSED ∧
        (s'.fileinfo (slot_of handle)).stream = streamptr.NIL ∧
        (∀ m, m ≠ slot_of handle → s'.fileinfo m = s.fileinfo m) ∧
        s'.double_type = s.double_type ∧
        s'.matrixflags_translatefname = s.matrixflags_translatefname ∧
        Rejected host handle s' ∧
        ∀ t : State, (t.fileinfo (slot_of handle)).filetype = filestate.CLOSED →
          Rejected host handle t) ∧
    (¬ (230 ≤ handle ∧ handle ≤ 254 ∧
        (s.fileinfo (slot_of handle)).filetype ≠ filestate.CLOSED) →
      fileio_close handle s = Outcome.error errnum.ERR_BADHANDLE s) := by
  have hrun := map_handle_run handle s hh
  constructor
  · intro hv
    have hn : slot_of handle < MAXFILES := by
      unfold slot_of FIRSTHANDLE MAXFILES; omega
    have hclose := close_file_run (slot_of handle) s hn (hc _ hn) hv.2.2
    have hrej : ∀ t : State, (t.fileinfo (slot_of handle)).filetype = filestate.CLOSED →
        Rejected host handle t :=
      fun t ht => rejected_of_map_handle host handle t hne (map_handle_closed handle t hh ht)
    refine ⟨s.setfb (slot_of handle) (s.fileinfo (slot_of handle)).closed,
      ?_, ?_, ?_, ?_, rfl, rfl, ?_, hrej⟩
    · simp only [fileio_close, hne, if_false, bind_run, hrun, hv, ne_eq, not_false_eq_true,
        and_self, if_true, getfb_run, hv.2.2, hclose]
    · rw [setfb_fileinfo_same]; exact (closed_is_closed _).1
    · rw [setfb_fileinfo_same]; exact (closed_is_closed _).2
    · intro m hm
      exact setfb_fileinfo_other _ _ _ _ hm
    · apply hrej
      rw [setfb_fileinfo_same]; exact (closed_is_closed _).1
  · intro hv
    simp only [fileio_close, hne, if_false, bind_run, hrun, hv]

theorem close_one_handle_witness :
    isInt32 254 ∧ (254 : Int) ≠ 0 ∧ Consistent (demo_state empty_file filestate.OPENOUT) ∧
    (230 ≤ (254 : Int) ∧ (254 : Int) ≤ 254 ∧
      ((demo_state empty_file filestate.OPENOUT).fileinfo (slot_of 254)).filetype
        ≠ filestate.CLOSED) ∧
    ∃ s', fileio_close 254 (demo_state empty_file filestate.OPENOUT) = Outcome.ok () s' ∧
      (s'.fileinfo (slot_of 254)).filetype = filestate.CLOSED ∧
      (s'.fileinfo (slot_of 254)).stream = streamptr.NIL ∧
      (∀ m, m ≠ slot_of 254 →
        s'.fileinfo m = (demo_state empty_file filestate.OPENOUT).fileinfo m) ∧
      s'.double_type = (demo_state empty_file filestate.OPENOUT).double_type ∧
      s'.matrixflags_translatefname
        = (demo_state empty_file filestate.OPENOUT).matrixflags_translatefname ∧
      Rejected demo_host 254 s' ∧
      ∀ t : State, (t.fileinfo (slot_of 254)).filetype = filestate.CLOSED →
        Rejected demo_host 254 t :=
  ⟨by decide, by decide, demo_state_consistent empty_file, by decide,
    (close_one_handle demo_host 254 (demo_state empty_file filestate.OPENOUT) (by decide)
      (by decide) (demo_state_consistent empty_file)).1 (by decide)⟩

/-! ## The functions that neither open nor close a file -/

theorem same_refl (s : State) : SameTable s s := fun _ => ⟨rfl, rfl⟩

theorem same_trans {s1 s2 s3 : State} (h1 : SameTable s1 s2) (h2 : SameTable s2 s3) :
    SameTable s1 s3 :=
  fun n => ⟨(h2 n).1.trans (h1 n).1, (h2 n).2.trans (h1 n).2⟩

theorem same_setfb (s : State) (n : Nat) (fb : fileblock)
    (h1 : fb.filetype = (s.fileinfo n).filetype)
    (h2 : fb.stream.kind = (s.fileinfo n).stream.kind) : SameTable s (s.setfb n fb) := by
  intro m
  by_cases hm : m = n
  · subst hm
    rw [setfb_fileinfo_same]
    exact ⟨h1, h2⟩
  · rw [setfb_fileinfo_other _ _ _ _ hm]
    exact ⟨rfl, rfl⟩

theorem keeps_pure {α : Type} (a : α) : Keeps (pure a : Basic α) := fun s => same_refl s

theorem keeps_error {α : Type} (e : errnum) : Keeps (error e : Basic α) := fun s => same_refl s

theorem keeps_fault {α : Type} : Keeps (fun s => Outcome.fault s : Basic α) := fun s => same_refl s

theorem keeps_getfb (n : Nat) : Keeps (getfb n) := fun s => same_refl s

theorem keeps_get_double_type : Keeps get_double_type := fun s => same_refl s

theorem keeps_bind {α β : Type} (m : Basic α) (k : α → Basic β) (hm : Keeps m)
    (hk : ∀ a, Keeps (k a)) : Keeps (m >>= k) := by
  intro s
  have h := hm s
  rw [bind_run]
  cases hms : m s with
  | ok a s1 =>
    rw [hms] at h
    exact same_trans h (hk a s1)
  | error e s1 =>
    rw [hms] at h
    exact h
  | fault s1 =>
    rw [hms] at h
    exact h

theorem keeps_ite {α : Type} (c : Prop) [Decidable c] (a b : Basic α) (ha : Keeps a)
    (hb : Keeps b) : Keeps (if c then a else b) := by
  split
  · exact ha
  · exact hb

theorem keeps_modfb (n : Nat) (g : fileblock → fileblock)
    (hg : ∀ b, (g b).filetype = b.filetype ∧ (g b).stream = b.stream) : Keeps (modfb n g) := by
  intro s
  rw [modfb_run]
  exact same_setfb s n _ (hg _).1 (by rw [(hg _).2])

theorem keeps_on_stream {α : Type} (n : Nat) (call : FILE → α × FILE) :
    Keeps (on_stream n call) := by
  intro s
  unfold on_stream
  split
  · rename_i f hf
    exact same_setfb s n _ rfl (by rw [hf]; rfl)
  · exact same_refl s

theorem keeps_map_handle (handle : Int) : Keeps (map_handle handle) := by
  intro s
  unfold map_handle
  simp only []
  split <;> exact same_refl s

theorem keeps_read (n : Nat) : Keeps (fileio_read n) := by
  unfold fileio_read
  refine keeps_bind _ _ (keeps_on_stream n fgetc) (fun ch => ?_)
  dsimp only
  exact keeps_ite _ _ _ (keeps_bind _ _ (keeps_error _) (fun _ => keeps_pure _))
    (keeps_bind _ _ (keeps_pure _) (fun _ => keeps_pure _))

theorem keeps_write (n : Nat) (value : Int) : Keeps (fileio_write n value) := by
  unfold fileio_write
  refine keeps_bind _ _ (keeps_on_stream n _) (fun result => ?_)
  exact keeps_ite _ _ _ (keeps_error _) (keeps_pure _)

theorem keeps_foldlM {β ι : Type} (step : β → ι → Basic β) (hstep : ∀ b i, Keeps (step b i))
    (l : List ι) (init : β) : Keeps (l.foldlM step init) := by
  induction l generalizing init with
  | nil => exact keeps_pure init
  | cons i l ih =>
    rw [List.foldlM_cons]
    exact keeps_bind _ _ (hstep init i) (fun b => ih b)

theorem keeps_forM {ι : Type} (step : ι → Basic PUnit) (hstep : ∀ i, Keeps (step i))
    (l : List ι) : Keeps (l.forM step) := by
  induction l with
  | nil => exact keeps_pure _
  | cons i l ih =>
    have e : (i :: l).forM step = (step i >>= fun _ => l.forM step) := rfl
    rw [e]
    exact keeps_bind _ _ (hstep i) (fun _ => ih)

set_option linter.unusedTactic false
set_option linter.unreachableTactic false

theorem keeps_check_eof (n : Nat) : Keeps (check_eof n) := by
  unfold check_eof
  repeat' first
    | with_reducible exact keeps_pure _
    | with_reducible exact keeps_error _
    | with_reducible exact keeps_fault
    | with_reducible exact keeps_getfb _
    | with_reducible exact keeps_get_double_type
    | with_reducible exact keeps_on_stream _ _
    | with_reducible exact keeps_map_handle _
    | with_reducible exact keeps_read _
    | with_reducible exact keeps_write _ _
    | (with_reducible apply keeps_modfb; intro b; exact ⟨rfl, rfl⟩)
    | with_reducible apply keeps_ite
    | with_reducible apply keeps_bind
    | intro _
    | dsimp only

theorem keeps_flush_written (n : Nat) : Keeps (flush_written n) := by
  unfold flush_written
  repeat' first
    | with_reducible exact keeps_pure _
    | with_reducible exact keeps_error _
    | with_reducible exact keeps_fault
    | with_reducible exact keeps_getfb _
    | with_reducible exact keeps_get_double_type
    | with_reducible exact keeps_on_stream _ _
    | with_reducible exact keeps_map_handle _
    | with_reducible exact keeps_read _
    | with_reducible exact keeps_write _ _
    | (with_reducible apply keeps_modfb; intro b; exact ⟨rfl, rfl⟩)
    | with_reducible apply keeps_ite
    | with_reducible apply keeps_bind
    | intro _
    | dsimp only

theorem keeps_print_start (handle : Int) : Keeps (print_start handle) := by
  unfold print_start
  repeat' first
    | with_reducible exact keeps_pure _
    | with_reducible exact keeps_error _
    | with_reducible exact keeps_fault
    | with_reducible exact keeps_getfb _
    | with_reducible exact keeps_get_double_type
    | with_reducible exact keeps_on_stream _ _
    | with_reducible exact keeps_map_handle _
    | with_reducible exact keeps_read _
    | with_reducible exact keeps_write _ _
    | (with_reducible apply keeps_modfb; intro b; exact ⟨rfl, rfl⟩)
    | with_reducible apply keeps_ite
    | with_reducible apply keeps_bind
    | intro _
    | dsimp only

theorem keeps_getstring_short (n k : Nat) (p : List Nat) : Keeps (getstring_short n k p) := by
  induction k generalizing p with
  | zero => exact keeps_pure p
  | succ k ih =>
    unfold getstring_short
    exact keeps_bind _ _ (keeps_read n) (fun ch => ih _)

theorem keeps_getstring_long (n k i : Nat) (p : List Nat) : Keeps (getstring_long n k i p) := by
  induction k generalizing i p with
  | zero => exact keeps_pure p
  | succ k ih =>
    unfold getstring_long
    exact keeps_bind _ _ (keeps_read n) (fun ch => ih _ _)

theorem keeps_printstring_short (n : Nat) (string : List Nat) (k : Nat) :
    Keeps (printstring_short n string k) := by
  induction k with
  | zero => exact keeps_pure _
  | succ k ih =>
    unfold printstring_short
    exact keeps_bind _ _ (keeps_write n _) (fun _ => ih)

theorem keeps_printstring_length (n k : Nat) (temp : Int) :
    Keeps (printstring_length n k temp) := by
  induction k generalizing temp with
  | zero => exact keeps_pure _
  | succ k ih =>
    unfold printstring_length
    exact keeps_bind _ _ (keeps_write n _) (fun _ => ih _)

theorem keeps_getnumber_switch (n : Nat) (out : numvars) (temp : List Nat) (marker : Int) :
    Keeps (getnumber_switch n out temp marker) := by
  unfold getnumber_switch
  repeat' first
    | (with_reducible apply keeps_foldlM; intro _ _)
    | with_reducible exact keeps_pure _
    | with_reducible exact keeps_error _
    | with_reducible exact keeps_fault
    | with_reducible exact keeps_getfb _
    | with_reducible exact keeps_get_double_type
    | with_reducible exact keeps_on_stream _ _
    | with_reducible exact keeps_map_handle _
    | with_reducible exact keeps_read _
    | with_reducible exact keeps_write _ _
    | (with_reducible apply keeps_modfb; intro b; exact ⟨rfl, rfl⟩)
    | with_reducible apply keeps_ite
    | with_reducible apply keeps_bind
    | intro _
    | dsimp only

theorem keeps_getstring_switch (n : Nat) (p : List Nat) (marker : Int) :
    Keeps (getstring_switch n p marker) := by
  unfold getstring_switch
  repeat' first
    | with_reducible exact keeps_getstring_short _ _ _
    | with_reducible exact keeps_getstring_long _ _ _ _
    | (with_reducible apply keeps_foldlM; intro _ _)
    | with_reducible exact keeps_pure _
    | with_reducible exact keeps_error _
    | with_reducible exact keeps_fault
    | with_reducible exact keeps_getfb _
    | with_reducible exact keeps_get_double_type
    | with_reducible exact keeps_on_stream _ _
    | with_reducible exact keeps_map_handle _
    | with_reducible exact keeps_read _
    | with_reducible exact keeps_write _ _
    | (with_reducible apply keeps_modfb; intro b; exact ⟨rfl, rfl⟩)
    | with_reducible apply keeps_ite
    | with_reducible apply keeps_bind
    | intro _
    | dsimp only

theorem keeps_getnumber (handle : Int) (out : numvars) : Keeps (fileio_getnumber handle out) := by
  unfold fileio_getnumber
  repeat' first
    | with_reducible exact keeps_check_eof _
    | with_reducible exact keeps_flush_written _
    | with_reducible exact keeps_getnumber_switch _ _ _ _
    | with_reducible exact keeps_pure _
    | with_reducible exact keeps_error _
    | with_reducible exact keeps_fault
    | with_reducible exact keeps_getfb _
    | with_reducible exact keeps_get_double_type
    | with_reducible exact keeps_on_stream _ _
    | with_reducible exact keeps_map_handle _
    | with_reducible exact keeps_read _
    | with_reducible exact keeps_write _ _
    | (with_reducible apply keeps_modfb; intro b; exact ⟨rfl, rfl⟩)
    | with_reducible apply keeps_ite
    | with_reducible apply keeps_bind
    | intro _
    | dsimp only

theorem keeps_getstring (handle : Int) (p : List Nat) : Keeps (fileio_getstring handle p) := by
  unfold fileio_getstring
  repeat' first
    | with_reducible exact keeps_check_eof _
    | with_reducible exact keeps_flush_written _
    | with_reducible exact keeps_getstring_switch _ _ _
    | with_reducible exact keeps_pure _
    | with_reducible exact keeps_error _
    | with_reducible exact keeps_fault
    | with_reducible exact keeps_getfb _
    | with_reducible exact keeps_get_double_type
    | with_reducible exact keeps_on_stream _ _
    | with_reducible exact keeps_map_handle _
    | with_reducible exact keeps_read _
    | with_reducible exact keeps_write _ _
    | (with_reducible apply keeps_modfb; intro b; exact ⟨rfl, rfl⟩)
    | with_reducible apply keeps_ite
    | with_reducible apply keeps_bind
    | intro _
    | dsimp only

theorem keeps_printint (handle value : Int) : Keeps (fileio_printint handle value) := by
  unfold fileio_printint
  repeat' first
    | with_reducible exact keeps_print_start _
    | (with_reducible apply keeps_forM; intro _)
    | with_reducible exact keeps_pure _
    | with_reducible exact keeps_error _
    | with_reducible exact keeps_fault
    | with_reducible exact keeps_getfb _
    | with_reducible exact keeps_get_double_type
    | with_reducible exact keeps_on_stream _ _
    | with_reducible exact keeps_map_handle _
    | with_reducible exact keeps_read _
    | with_reducible exact keeps_write _ _
    | (with_reducible apply keeps_modfb; intro b; exact ⟨rfl, rfl⟩)
    | with_reducible apply keeps_ite
    | with_reducible apply keeps_bind
    | intro _
    | dsimp only

theorem keeps_printuint8 (handle value : Int) : Keeps (fileio_printuint8 handle value) := by
  unfold fileio_printuint8
  repeat' first
    | with_reducible exact keeps_print_start _
    | with_reducible exact keeps_pure _
    | with_reducible exact keeps_error _
    | with_reducible exact keeps_fault
    | with_reducible exact keeps_getfb _
    | with_reducible exact keeps_get_double_type
    | with_reducible exact keeps_on_stream _ _
    | with_reducible exact keeps_map_handle _
    | with_reducible exact keeps_read _
    | with_reducible exact keeps_write _ _
    | (with_reducible apply keeps_modfb; intro b; exact ⟨rfl, rfl⟩)
    | with_reducible apply keeps_ite
    | with_reducible apply keeps_bind
    | intro _
    | dsimp only

theorem keeps_printint64 (handle value : Int) : Keeps (fileio_printint64 handle value) := by
  unfold fileio_printint64
  repeat' first
    | with_reducible exact keeps_print_start _
    | (with_reducible apply keeps_forM; intro _)
    | with_reducible exact keeps_pure _
    | with_reducible exact keeps_error _
    | with_reducible exact keeps_fault
    | with_reducible exact keeps_getfb _
    | with_reducible exact keeps_get_double_type
    | with_reducible exact keeps_on_stream _ _
    | with_reducible exact keeps_map_handle _
    | with_reducible exact keeps_read _
    | with_reducible exact keeps_write _ _
    | (with_reducible apply keeps_modfb; intro b; exact ⟨rfl, rfl⟩)
    | with_reducible apply keeps_ite
    | with_reducible apply keeps_bind
    | intro _
    | dsimp only

theorem keeps_printfloat (handle : Int) (value : List Nat) :
    Keeps (fileio_printfloat handle value) := by
  unfold fileio_printfloat
  repeat' first
    | with_reducible exact keeps_print_start _
    | (with_reducible apply keeps_forM; intro _)
    | with_reducible exact keeps_pure _
    | with_reducible exact keeps_error _
    | with_reducible exact keeps_fault
    | with_reducible exact keeps_getfb _
    | with_reducible exact keeps_get_double_type
    | with_reducible exact keeps_on_stream _ _
    | with_reducible exact keeps_map_handle _
    | with_reducible exact keeps_read _
    | with_reducible exact keeps_write _ _
    | (with_reducible apply keeps_modfb; intro b; exact ⟨rfl, rfl⟩)
    | with_reducible apply keeps_ite
    | with_reducible apply keeps_bind
    | intro _
    | dsimp only

theorem keeps_printstring (handle : Int) (string : List Nat) (length : Int) :
    Keeps (fileio_printstring handle string length) := by
  unfold fileio_printstring stream_fwrite
  repeat' first
    | with_reducible exact keeps_print_start _
    | with_reducible exact keeps_printstring_short _ _ _
    | with_reducible exact keeps_printstring_length _ _ _
    | with_reducible exact keeps_pure _
    | with_reducible exact keeps_error _
    | with_reducible exact keeps_fault
    | with_reducible exact keeps_getfb _
    | with_reducible exact keeps_get_double_type
    | with_reducible exact keeps_on_stream _ _
    | with_reducible exact keeps_map_handle _
    | with_reducible exact keeps_read _
    | with_reducible exact keeps_write _ _
    | (with_reducible apply keeps_modfb; intro b; exact ⟨rfl, rfl⟩)
    | with_reducible apply keeps_ite
    | with_reducible apply keeps_bind
    | intro _
    | dsimp only

theorem keeps_bget (host : Host) (handle : Int) : Keeps (fileio_bget host handle) := by
  unfold fileio_bget
  repeat' first
    | with_reducible exact keeps_flush_written _
    | with_reducible exact keeps_pure _
    | with_reducible exact keeps_error _
    | with_reducible exact keeps_fault
    | with_reducible exact keeps_getfb _
    | with_reducible exact keeps_get_double_type
    | with_reducible exact keeps_on_stream _ _
    | with_reducible exact keeps_map_handle _
    | with_reducible exact keeps_read _
    | with_reducible exact keeps_write _ _
    | (with_reducible apply keeps_modfb; intro b; exact ⟨rfl, rfl⟩)
    | with_reducible apply keeps_ite
    | with_reducible apply keeps_bind
    | intro _
    | dsimp only

theorem keeps_getdol (handle : Int) : Keeps (fileio_getdol handle) := by
  unfold fileio_getdol
  repeat' first
    | with_reducible exact keeps_check_eof _
    | with_reducible exact keeps_flush_written _
    | split
    | with_reducible exact keeps_pure _
    | with_reducible exact keeps_error _
    | with_reducible exact keeps_fault
    | with_reducible exact keeps_getfb _
    | with_reducible exact keeps_get_double_type
    | with_reducible exact keeps_on_stream _ _
    | with_reducible exact keeps_map_handle _
    | with_reducible exact keeps_read _
    | with_reducible exact keeps_write _ _
    | (with_reducible apply keeps_modfb; intro b; exact ⟨rfl, rfl⟩)
    | with_reducible apply keeps_ite
    | with_reducible apply keeps_bind
    | intro _
    | dsimp only

theorem keeps_bput (host : Host) (handle value : Int) : Keeps (fileio_bput host handle value) := by
  unfold fileio_bput
  repeat' first
    | with_reducible exact keeps_pure _
    | with_reducible exact keeps_error _
    | with_reducible exact keeps_fault
    | with_reducible exact keeps_getfb _
    | with_reducible exact keeps_get_double_type
    | with_reducible exact keeps_on_stream _ _
    | with_reducible exact keeps_map_handle _
    | with_reducible exact keeps_read _
    | with_reducible exact keeps_write _ _
    | (with_reducible apply keeps_modfb; intro b; exact ⟨rfl, rfl⟩)
    | with_reducible apply keeps_ite
    | with_reducible apply keeps_bind
    | intro _
    | dsimp only

theorem keeps_bputstr (host : Host) (handle : Int) (string : List Nat) (length : Int) :
    Keeps (fileio_bputstr host handle string length) := by
  unfold fileio_bputstr stream_fwrite
  repeat' first
    | with_reducible exact keeps_pure _
    | with_reducible exact keeps_error _
    | with_reducible exact keeps_fault
    | with_reducible exact keeps_getfb _
    | with_reducible exact keeps_get_double_type
    | with_reducible exact keeps_on_stream _ _
    | with_reducible exact keeps_map_handle _
    | with_reducible exact keeps_read _
    | with_reducible exact keeps_write _ _
    | (with_reducible apply keeps_modfb; intro b; exact ⟨rfl, rfl⟩)
    | with_reducible apply keeps_ite
    | with_reducible apply keeps_bind
    | intro _
    | dsimp only

theorem keeps_setptr (handle newoffset : Int) : Keeps (fileio_setptr handle newoffset) := by
  unfold fileio_setptr
  repeat' first
    | with_reducible exact keeps_pure _
    | with_reducible exact keeps_error _
    | with_reducible exact keeps_fault
    | with_reducible exact keeps_getfb _
    | with_reducible exact keeps_get_double_type
    | with_reducible exact keeps_on_stream _ _
    | with_reducible exact keeps_map_handle _
    | with_reducible exact keeps_read _
    | with_reducible exact keeps_write _ _
    | (with_reducible apply keeps_modfb; intro b; exact ⟨rfl, rfl⟩)
    | with_reducible apply keeps_ite
    | with_reducible apply keeps_bind
    | intro _
    | dsimp only

theorem keeps_getptr (handle : Int) : Keeps (fileio_getptr handle) := by
  unfold fileio_getptr
  repeat' first
    | with_reducible exact keeps_pure _
    | with_reducible exact keeps_error _
    | with_reducible exact keeps_fault
    | with_reducible exact keeps_getfb _
    | with_reducible exact keeps_get_double_type
    | with_reducible exact keeps_on_stream _ _
    | with_reducible exact keeps_map_handle _
    | with_reducible exact keeps_read _
    | with_reducible exact keeps_write _ _
    | (with_reducible apply keeps_modfb; intro b; exact ⟨rfl, rfl⟩)
    | with_reducible apply keeps_ite
    | with_reducible apply keeps_bind
    | intro _
    | dsimp only

theorem keeps_getext (handle : Int) : Keeps (fileio_getext handle) := by
  unfold fileio_getext
  repeat' first
    | with_reducible exact keeps_pure _
    | with_reducible exact keeps_error _
    | with_reducible exact keeps_fault
    | with_reducible exact keeps_getfb _
    | with_reducible exact keeps_get_double_type
    | with_reducible exact keeps_on_stream _ _
    | with_reducible exact keeps_map_handle _
    | with_reducible exact keeps_read _
    | with_reducible exact keeps_write _ _
    | (with_reducible apply keeps_modfb; intro b; exact ⟨rfl, rfl⟩)
    | with_reducible apply keeps_ite
    | with_reducible apply keeps_bind
    | intro _
    | dsimp only

theorem keeps_setext (handle newsize : Int) : Keeps (fileio_setext handle newsize) := by
  unfold fileio_setext
  repeat' first
    | with_reducible exact keeps_pure _
    | with_reducible exact keeps_error _
    | with_reducible exact keeps_fault
    | with_reducible exact keeps_getfb _
    | with_reducible exact keeps_get_double_type
    | with_reducible exact keeps_on_stream _ _
    | with_reducible exact keeps_map_handle _
    | with_reducible exact keeps_read _
    | with_reducible exact keeps_write _ _
    | (with_reducible apply keeps_modfb; intro b; exact ⟨rfl, rfl⟩)
    | with_reducible apply keeps_ite
    | with_reducible apply keeps_bind
    | intro _
    | dsimp only

theorem keeps_eof (host : Host) (handle : Int) : Keeps (fileio_eof host handle) := by
  unfold fileio_eof
  repeat' first
    | with_reducible exact keeps_pure _
    | with_reducible exact keeps_error _
    | with_reducible exact keeps_fault
    | with_reducible exact keeps_getfb _
    | with_reducible exact keeps_get_double_type
    | with_reducible exact keeps_on_stream _ _
    | with_reducible exact keeps_map_handle _
    | with_reducible exact keeps_read _
    | with_reducible exact keeps_write _ _
    | (with_reducible apply keeps_modfb; intro b; exact ⟨rfl, rfl⟩)
    | with_reducible apply keeps_ite
    | with_reducible apply keeps_bind
    | intro _
    | dsimp only

set_option linter.unusedTactic false
set_option linter.unreachableTactic false

/-! ## The states a run can be in are consistent -/

theorem consistent_of_same {s s' : State} (hc : Consistent s) (h : SameTable s s') :
    Consistent s' := by
  intro n hn
  have h1 := hc n hn
  obtain ⟨ht, hk⟩ := h n
  unfold fileblock.ok at h1 ⊢
  rw [ht]
  cases hs : (s.fileinfo n).stream <;> cases hs' : (s'.fileinfo n).stream <;>
    rw [hs, hs'] at hk <;> rw [hs] at h1 <;>
    simp only [streamptr.kind, reduceCtorEq] at hk <;>
    cases hft : (s.fileinfo n).filetype <;> rw [hft] at h1 <;>
    simp only [reduceCtorEq, exists_false, exists_eq', streamptr.file.injEq] at h1 ⊢ <;>
    first
      | exact h1
      | exact hk ▸ h1
      | (injection hk with hk; subst hk; exact h1)

theorem consistent_setfb {s : State} (hc : Consistent s) (n : Nat) (fb : fileblock)
    (hfb : fb.ok) : Consistent (s.setfb n fb) := by
  intro m hm
  by_cases hmn : m = n
  · subst hmn
    rw [setfb_fileinfo_same]
    exact hfb
  · rw [setfb_fileinfo_other _ _ _ _ hmn]
    exact hc m hm

theorem consistent_enter {s : State} (hc : Consistent s) (n : Nat) (f : FILE) (t : filestate)
    (h1 : t ≠ filestate.CLOSED) (h2 : t ≠ filestate.NETWORK) :
    Consistent (s.enter n (streamptr.file f) t) := by
  unfold State.enter
  apply consistent_setfb hc
  unfold fileblock.ok
  cases t
  · exact absurd rfl h1
  · exact ⟨f, rfl⟩
  · exact ⟨f, rfl⟩
  · exact ⟨f, rfl⟩
  · exact absurd rfl h2

theorem consistent_flag {s : State} (hc : Consistent s) (v : Int) :
    Consistent { s with matrixflags_translatefname := v } := hc

theorem consistent_openin (host : Host) (name : List Nat) (namelen : Int) (s : State)
    (hc : Consistent s) : Consistent (fileio_openin host name namelen s).state := by
  unfold fileio_openin
  dsimp only
  repeat' split
  all_goals first
    | exact hc
    | exact consistent_enter hc _ _ _ (by decide) (by decide)
    | exact consistent_enter (consistent_flag hc 1) _ _ _ (by decide) (by decide)

theorem consistent_openout (host : Host) (name : List Nat) (namelen : Int) (s : State)
    (hc : Consistent s) : Consistent (fileio_openout host name namelen s).state := by
  unfold fileio_openout
  dsimp only
  repeat' split
  all_goals first
    | exact hc
    | exact consistent_enter hc _ _ _ (by decide) (by decide)

theorem consistent_openup (host : Host) (name : List Nat) (namelen : Int) (s : State)
    (hc : Consistent s) : Consistent (fileio_openup host name namelen s).state := by
  unfold fileio_openup
  dsimp only
  repeat' split
  all_goals first
    | exact hc
    | exact consistent_enter hc _ _ _ (by decide) (by decide)
    | exact consistent_enter (consistent_flag hc 1) _ _ _ (by decide) (by decide)
    | exact consistent_setfb hc _ _ rfl

theorem map_handle_cases (handle : Int) (s : State) :
    map_handle handle s = Outcome.error errnum.ERR_BADHANDLE s ∨
    ∃ n, n < MAXFILES ∧ (s.fileinfo n).filetype ≠ filestate.CLOSED ∧
      map_handle handle s = Outcome.ok n s := by
  unfold map_handle
  dsimp only
  split
  · exact Or.inl rfl
  · rename_i h
    refine Or.inr ⟨_, ?_, ?_, rfl⟩
    · have : ¬ (toInt32 (FIRSTHANDLE - handle) < 0) := fun hc => h (Or.inl hc)
      have : ¬ (toInt32 (FIRSTHANDLE - handle) ≥ MAXFILES) := fun hc => h (Or.inr (Or.inl hc))
      omega
    · exact fun hc => h (Or.inr (Or.inr hc))

theorem consistent_close_file (n : Nat) (s : State) (hn : n < MAXFILES) (hc : Consistent s)
    (hopen : (s.fileinfo n).filetype ≠ filestate.CLOSED) :
    Consistent (close_file n s).state := by
  rw [close_file_run n s hn (hc n hn) hopen]
  apply consistent_setfb hc
  unfold fileblock.ok
  rw [(closed_is_closed _).1]
  exact (closed_is_closed _).2

theorem consistent_close (handle : Int) (s : State) (hc : Consistent s) :
    Consistent (fileio_close handle s).state := by
  by_cases h0 : handle = 0
  · subst h0
    obtain ⟨s', h1, h2, _⟩ :=
      close_all_run MAXFILES 0 s (by omega) (fun m _ hm => hc m (by omega))
    have e : fileio_close 0 s = Outcome.ok () s' := by
      simp only [fileio_close, if_true]
      exact h1
    rw [e]
    show Consistent s'
    intro n hn
    unfold fileblock.ok
    rw [(h2 n (Nat.zero_le _) (by omega)).1]
    exact (h2 n (Nat.zero_le _) (by omega)).2
  · rcases map_handle_cases handle s with h | ⟨n, hn, hopen, h⟩
    · simp only [fileio_close, h0, if_false, bind_run, h]
      exact hc
    · simp only [fileio_close, h0, if_false, bind_run, h, getfb_run, hopen, ne_eq,
        not_false_eq_true, if_true]
      exact consistent_close_file n s hn hc hopen

theorem consistent_shutdown_slots (k n count : Nat) (s : State) (hk : n + k ≤ MAXFILES)
    (hc : Consistent s) : Consistent (shutdown_slots k n count s).state := by
  induction k generalizing n count s with
  | zero => exact hc
  | succ k ih =>
    have hn : n < MAXFILES := by omega
    by_cases hopen : (s.fileinfo n).filetype = filestate.CLOSED
    · simp only [shutdown_slots, bind_run, getfb_run, hopen, ne_eq, not_true_eq_false, if_false]
      exact ih (n + 1) count s (by omega) hc
    · have h1 := consistent_close_file n s hn hc hopen
      rw [close_file_run n s hn (hc n hn) hopen] at h1
      simp only [shutdown_slots, bind_run, getfb_run, hopen, ne_eq, not_false_eq_true, if_true,
        close_file_run n s hn (hc n hn) hopen]
      exact ih (n + 1) (count + 1) _ (by omega) h1

theorem init_slots_run (k n : Nat) (s : State) :
    ∃ s', init_slots k n s = Outcome.ok () s' ∧
      (∀ m, n ≤ m → m < n + k →
        (s'.fileinfo m).filetype = filestate.CLOSED ∧ (s'.fileinfo m).stream = streamptr.NIL) ∧
      (∀ m, m < n → s'.fileinfo m = s.fileinfo m) := by
  induction k generalizing n s with
  | zero => exact ⟨s, rfl, fun m h1 h2 => by omega, fun m _ => rfl⟩
  | succ k ih =>
    obtain ⟨s', h1, h2, h3⟩ := ih (n + 1)
      (s.setfb n { s.fileinfo n with
        stream := streamptr.NIL, filetype := filestate.CLOSED, eofstatus := eofstate.ATEOF })
    refine ⟨s', ?_, ?_, ?_⟩
    · simp only [init_slots, bind_run, modfb_run]
      exact h1
    · intro m hm1 hm2
      by_cases hmn : m = n
      · subst hmn
        rw [h3 m (by omega), setfb_fileinfo_same]
        exact ⟨rfl, rfl⟩
      · exact h2 m (by omega) (by omega)
    · intro m hm
      rw [h3 m (by omega), setfb_fileinfo_other _ _ _ _ (by omega)]

theorem consistent_init (host : Host) (s0 s : State) (h : (init_fileio host s0).state = s) :
    Consistent s := by
  subst h
  obtain ⟨s', h1, h2, _⟩ := init_slots_run MAXFILES 0 s0
  have hc : Consistent s' := by
    intro n hn
    unfold fileblock.ok
    rw [(h2 n (Nat.zero_le _) (by omega)).1]
    exact (h2 n (Nat.zero_le _) (by omega)).2
  simp only [init_fileio, bind_run, h1]
  unfold find_floatformat
  repeat' split
  all_goals exact hc

set_option linter.unusedTactic false
set_option linter.unreachableTactic false

/-- In every state a run of the interpreter can be in, the file table is
consistent: `init_fileio` leaves all slots closed with stream NIL, the three
functions that open a file enter a stream together with its type, `close_file`
clears both, and no other function changes the type of a slot or whether it
has a stream. -/
theorem reachable_consistent (host : Host) (s : State) (h : Reachable host s) :
    Consistent s := by
  induction h with
  | init s0 =>
    generalize h : (init_fileio host s0).state = t
    exact consistent_init host s0 t h
  | flag s v _ ih => exact consistent_flag ih v
  | openin s name namelen _ ih => exact consistent_openin host name namelen s ih
  | openout s name namelen _ ih => exact consistent_openout host name namelen s ih
  | openup s name namelen _ ih => exact consistent_openup host name namelen s ih
  | close s handle _ ih => exact consistent_close handle s ih
  | shutdown s _ ih => exact consistent_shutdown_slots MAXFILES 0 0 s (by omega) ih
  | bget s handle _ ih => exact consistent_of_same ih (keeps_bget host handle s)
  | getdol s handle _ ih => exact consistent_of_same ih (keeps_getdol handle s)
  | getnumber s handle out _ ih => exact consistent_of_same ih (keeps_getnumber handle out s)
  | getstring s handle p _ ih => exact consistent_of_same ih (keeps_getstring handle p s)
  | bput s handle value _ ih => exact consistent_of_same ih (keeps_bput host handle value s)
  | bputstr s handle string length _ ih =>
    exact consistent_of_same ih (keeps_bputstr host handle string length s)
  | printint s handle value _ ih => exact consistent_of_same ih (keeps_printint handle value s)
  | printuint8 s handle value _ ih => exact consistent_of_same ih (keeps_printuint8 handle value s)
  | printint64 s handle value _ ih => exact consistent_of_same ih (keeps_printint64 handle value s)
  | printfloat s handle value _ ih => exact consistent_of_same ih (keeps_printfloat handle value s)
  | printstring s handle string length _ ih =>
    exact consistent_of_same ih (keeps_printstring handle string length s)
  | setptr s handle newoffset _ ih => exact consistent_of_same ih (keeps_setptr handle newoffset s)
  | getptr s handle _ ih => exact consistent_of_same ih (keeps_getptr handle s)
  | getext s handle _ ih => exact consistent_of_same ih (keeps_getext handle s)
  | setext s handle newsize _ ih => exact consistent_of_same ih (keeps_setext handle newsize s)
  | eof s handle _ ih => exact consistent_of_same ih (keeps_eof host handle s)

/-! ## The Basic stack -/

theorem store_above (memory : Nat → Nat) (addr : Nat) (cells : List Nat) (a : Nat)
    (h : addr + cells.length ≤ a) : store memory addr cells a = memory a := by
  unfold store
  rw [if_neg]
  omega

theorem store_at (memory : Nat → Nat) (addr : Nat) (cells : List Nat) (i : Nat)
    (h : i < cells.length) : store memory addr cells (addr + i) = cells.getD i 0 := by
  unfold store
  rw [if_pos ⟨by omega, by omega⟩]
  congr 1
  omega

/-- A pop with a tag other than the tag of the top frame fails with
`StackCorruption`. -/
theorem pop_wrong_tag (entrysize : Nat → Nat) (t : Nat) (w : workspace) (h : peekTag w ≠ t) :
    pop entrysize t w = Except.error stackerr.StackCorruption := by
  unfold pop
  rw [if_pos h]

/-- A push for which the stack has no room fails with `StackOverflow`. -/
theorem push_no_room (entrysize : Nat → Nat) (f : frame) (w : workspace)
    (h : w.stacktop < w.stacklimit + entrysize f.itemtype) :
    push entrysize f w = Except.error stackerr.StackOverflow := by
  unfold push
  rw [if_pos h]

theorem push_run (entrysize : Nat → Nat) (f : frame) (w : workspace)
    (hpos : 0 < entrysize f.itemtype)
    (h : w.stacklimit + entrysize f.itemtype ≤ w.stacktop) :
    ∃ w1, push entrysize f w = Except.ok w1 ∧
      w1.stacktop + entrysize f.itemtype = w.stacktop ∧
      w1.stacklimit = w.stacklimit ∧
      w1.current = w.current ∧ w1.error_handler = w.error_handler ∧
      w1.error_line = w.error_line ∧ w1.error_number = w.error_number ∧
      (∀ a, w.stacktop ≤ a → w1.memory a = w.memory a) ∧
      w1.memory w1.stacktop = f.itemtype ∧
      (∀ i, i + 1 < entrysize f.itemtype → w1.memory (w1.stacktop + 1 + i) = f.payload.getD i 0) := by
  refine ⟨{ w with
      stacktop := w.stacktop - entrysize f.itemtype
      memory := store w.memory (w.stacktop - entrysize f.itemtype)
        (f.itemtype :: (List.range (entrysize f.itemtype - 1)).map (fun i => f.payload.getD i 0)) },
    ?_, ?_, rfl, rfl, rfl, rfl, rfl, ?_, ?_, ?_⟩
  · unfold push
    rw [if_neg (by omega)]
  · show w.stacktop - entrysize f.itemtype + entrysize f.itemtype = w.stacktop
    omega
  · intro a ha
    show store _ _ _ a = _
    apply store_above
    simp only [List.length_cons, List.length_map, List.length_range]
    omega
  · show store _ _ _ (w.stacktop - entrysize f.itemtype) = _
    have := store_at w.memory (w.stacktop - entrysize f.itemtype)
      (f.itemtype :: (List.range (entrysize f.itemtype - 1)).map (fun i => f.payload.getD i 0)) 0
      (by simp)
    rw [Nat.add_zero] at this
    rw [this]
    rfl
  · intro i hi
    show store _ _ _ (w.stacktop - entrysize f.itemtype + 1 + i) = _
    have := store_at w.memory (w.stacktop - entrysize f.itemtype)
      (f.itemtype :: (List.range (entrysize f.itemtype - 1)).map (fun i => f.payload.getD i 0))
      (1 + i) (by simp; omega)
    rw [← Nat.add_assoc] at this
    rw [this]
    have e : 1 + i = i + 1 := by omega
    rw [e, List.getD_cons_succ, List.getD_eq_getElem _ _ (by simp; omega)]
    simp

theorem pushall_run (entrysize : Nat → Nat) (fs : List frame) (w : workspace)
    (hpos : ∀ f ∈ fs, 0 < entrysize f.itemtype)
    (h : w.stacklimit + room entrysize fs ≤ w.stacktop) :
    ∃ w1, pushall entrysize fs w = Except.ok w1 ∧
      w1.stacktop + room entrysize fs = w.stacktop ∧
      w1.stacklimit = w.stacklimit ∧
      w1.current = w.current ∧ w1.error_handler = w.error_handler ∧
      w1.error_line = w.error_line ∧ w1.error_number = w.error_number ∧
      (∀ a, w.stacktop ≤ a → w1.memory a = w.memory a) := by
  induction fs generalizing w with
  | nil => exact ⟨w, rfl, by simp [room], rfl, rfl, rfl, rfl, rfl, fun _ _ => rfl⟩
  | cons f fs ih =>
    have hr : room entrysize (f :: fs) = entrysize f.itemtype + room entrysize fs := by
      simp [room]
    rw [hr] at h
    obtain ⟨w1, h1, h2, h3, h4, h5, h6, h7, h8, _, _⟩ :=
      push_run entrysize f w (hpos f (List.mem_cons_self f fs)) (by omega)
    obtain ⟨w2, k1, k2, k3, k4, k5, k6, k7, k8⟩ :=
      ih w1 (fun g hg => hpos g (List.mem_cons_of_mem f hg)) (by omega)
    refine ⟨w2, ?_, ?_, by rw [k3, h3], by rw [k4, h4], by rw [k5, h5], by rw [k6, h6],
      by rw [k7, h7], ?_⟩
    · show (push entrysize f w >>= fun w1 => pushall entrysize fs w1) = _
      rw [h1]
      exact k1
    · rw [hr]; omega
    · intro a ha
      rw [k8 a (by omega), h8 a ha]

theorem load_eq (memory : Nat → Nat) (addr : Nat) (l : List Nat)
    (h : ∀ i, i < l.length → memory (addr + i) = l.getD i 0) :
    load memory addr l.length = l := by
  apply List.ext_getElem
  · simp [load]
  · intro i h1 h2
    simp only [load, List.getElem_map, List.getElem_range]
    rw [h i h2, List.getD_eq_getElem _ _ h2]

theorem pop_run (entrysize : Nat → Nat) (t : Nat) (w : workspace) (h : w.memory w.stacktop = t) :
    pop entrysize t w = Except.ok (load w.memory (w.stacktop + 1) (entrysize t - 1),
      { w with stacktop := w.stacktop + entrysize t }) := by
  unfold pop peekTag
  rw [if_neg (by simp [h])]

theorem popall_cons (entrysize : Nat → Nat) (t : Nat) (ts : List Nat) (w : workspace) :
    popall entrysize (t :: ts) w =
      match pop entrysize t w with
      | Except.error e => Except.error e
      | Except.ok (payload, w1) =>
        match popall entrysize ts w1 with
        | Except.error e => Except.error e
        | Except.ok (rest, w2) =>
          Except.ok ({ itemtype := peekTag w, payload := payload } :: rest, w2) := by
  rw [popall]
  cases pop entrysize t w with
  | error e => rfl
  | ok r =>
    obtain ⟨payload, w1⟩ := r
    dsimp only
    show (popall entrysize ts w1 >>= _) = _
    cases hq : popall entrysize ts w1 with
    | error e => rfl
    | ok r2 => rfl

theorem popall_append (entrysize : Nat → Nat) (ts us : List Nat) (w w1 w2 : workspace)
    (r1 r2 : List frame) (h1 : popall entrysize ts w = Except.ok (r1, w1))
    (h2 : popall entrysize us w1 = Except.ok (r2, w2)) :
    popall entrysize (ts ++ us) w = Except.ok (r1 ++ r2, w2) := by
  induction ts generalizing w r1 with
  | nil =>
    injection h1 with h1
    injection h1 with e1 e2
    subst e1 e2
    exact h2
  | cons t ts ih =>
    rw [popall_cons] at h1
    rw [List.cons_append, popall_cons]
    cases hp : pop entrysize t w with
    | error e => rw [hp] at h1; cases h1
    | ok r =>
      obtain ⟨payload, wa⟩ := r
      rw [hp] at h1
      simp only at h1 ⊢
      cases hq : popall entrysize ts wa with
      | error e => rw [hq] at h1; cases h1
      | ok r3 =>
        obtain ⟨rest, wb⟩ := r3
        rw [hq] at h1
        simp only at h1
        injection h1 with h1
        injection h1 with e1 e2
        subst e1 e2
        rw [ih wa rest hq]
        rfl

/-- Pushes followed by pops in reverse order: the frames come back, and the
pops leave the stack pointer where it was before the pushes. -/
theorem round_trip_run (entrysize : Nat → Nat) (fs : List frame) (w : workspace)
    (hs : ∀ f ∈ fs, f.sized entrysize)
    (hroom : w.stacklimit + room entrysize fs ≤ w.stacktop) :
    ∃ w1 w2, pushall entrysize fs w = Except.ok w1 ∧
      popall entrysize (fs.reverse.map frame.itemtype) w1 = Except.ok (fs.reverse, w2) ∧
      w2.stacktop = w.stacktop ∧ w2.memory = w1.memory ∧
      (∀ a, w.stacktop ≤ a → w1.memory a = w.memory a) := by
  induction fs generalizing w with
  | nil => exact ⟨w, w, rfl, rfl, rfl, rfl, fun _ _ => rfl⟩
  | cons f fs ih =>
    have hf : f.payload.length + 1 = entrysize f.itemtype := hs f (List.mem_cons_self f fs)
    have hr : room entrysize (f :: fs) = entrysize f.itemtype + room entrysize fs := by
      simp [room]
    rw [hr] at hroom
    obtain ⟨wa, h1, h2, h3, _, _, _, _, h8, h9, h10⟩ :=
      push_run entrysize f w (by omega) (by omega)
    obtain ⟨w1, w2, k1, k2, k3, k4, k5⟩ :=
      ih wa (fun g hg => hs g (List.mem_cons_of_mem f hg)) (by omega)
    have htag : w2.memory w2.stacktop = f.itemtype := by
      rw [k4, k3, k5 _ (Nat.le_refl _), h9]
    have hload : load w2.memory (w2.stacktop + 1) (entrysize f.itemtype - 1) = f.payload := by
      have e : entrysize f.itemtype - 1 = f.payload.length := by omega
      rw [e]
      apply load_eq
      intro i hi
      rw [k4, k3, k5 _ (by omega), h10 i (by omega)]
    have hpop : popall entrysize [f.itemtype] w2
        = Except.ok ([f], { w2 with stacktop := w2.stacktop + entrysize f.itemtype }) := by
      rw [popall_cons, pop_run entrysize f.itemtype w2 htag, hload]
      simp only [popall, peekTag, htag]
    refine ⟨w1, { w2 with stacktop := w2.stacktop + entrysize f.itemtype }, ?_, ?_, ?_, k4, ?_⟩
    · show (push entrysize f w >>= fun w1 => pushall entrysize fs w1) = _
      rw [h1]
      exact k1
    · rw [List.reverse_cons, List.map_append]
      exact popall_append entrysize _ _ w1 w2 _ _ _ k2 hpop
    · show w2.stacktop + entrysize f.itemtype = w.stacktop
      omega
    · intro a ha
      rw [k5 a (by omega), h8 a ha]

/-- A sequence of pushes for which the stack has no room fails with
`StackOverflow`. -/
theorem pushall_no_room (entrysize : Nat → Nat) (fs : List frame) (w : workspace)
    (hpos : ∀ f ∈ fs, 0 < entrysize f.itemtype) (hinv : w.stacklimit ≤ w.stacktop)
    (h : w.stacktop < w.stacklimit + room entrysize fs) :
    pushall entrysize fs w = Except.error stackerr.StackOverflow := by
  induction fs generalizing w with
  | nil =>
    simp only [room, List.map_nil, List.sum_nil] at h
    omega
  | cons f fs ih =>
    have hr : room entrysize (f :: fs) = entrysize f.itemtype + room entrysize fs := by
      simp [room]
    rw [hr] at h
    show (push entrysize f w >>= fun w1 => pushall entrysize fs w1) = _
    by_cases hf : w.stacktop < w.stacklimit + entrysize f.itemtype
    · rw [push_no_room entrysize f w hf]
      rfl
    · obtain ⟨w1, h1, h2, h3, _⟩ :=
        push_run entrysize f w (hpos f (List.mem_cons_self f fs)) (by omega)
      rw [h1]
      exact ih w1 (fun g hg => hpos g (List.mem_cons_of_mem f hg)) (by omega) (by omega)

/-- C11. Execution-stack round trip: for every table of entry sizes and every
sequence `fs` of tagged frames of these sizes, the pushes succeed when the
stack has room for them, and then the pops in reverse order, each with the tag
that was pushed, succeed and return the frames in reverse order: the tag read
before each pop and the payload popped equal the pushed tag and payload.  The
stack pointer is back where it was.  When the stack has no room for the
frames (its pointer being within `stacklimit`), the pushes fail with
`StackOverflow`. -/
theorem stack_round_trip (entrysize : Nat → Nat) (fs : List frame) (w : workspace)
    (hs : ∀ f ∈ fs, f.sized entrysize) :
    (w.stacklimit + room entrysize fs ≤ w.stacktop →
      ∃ w1 w2, pushall entrysize fs w = Except.ok w1 ∧
        popall entrysize (fs.reverse.map frame.itemtype) w1 = Except.ok (fs.reverse, w2) ∧
        w2.stacktop = w.stacktop) ∧
    (w.stacklimit ≤ w.stacktop → w.stacktop < w.stacklimit + room entrysize fs →
      pushall entrysize fs w = Except.error stackerr.StackOverflow) := by
  constructor
  · intro hroom
    obtain ⟨w1, w2, h1, h2, h3, _, _⟩ := round_trip_run entrysize fs w hs hroom
    exact ⟨w1, w2, h1, h2, h3⟩
  · intro hinv hroom
    apply pushall_no_room entrysize fs w _ hinv hroom
    intro f hf
    have := hs f hf
    unfold frame.sized at this
    omega

theorem stack_round_trip_witness :
    (∀ f ∈ demo_frames, f.sized demo_entrysize) ∧
    demo_work.stacklimit + room demo_entrysize demo_frames ≤ demo_work.stacktop ∧
    ∃ w1 w2, pushall demo_entrysize demo_frames demo_work = Except.ok w1 ∧
      popall demo_entrysize (demo_frames.reverse.map frame.itemtype) w1
        = Except.ok (demo_frames.reverse, w2) ∧
      w2.stacktop = demo_work.stacktop :=
  ⟨by decide, by decide,
    (stack_round_trip demo_entrysize demo_frames demo_work (by decide)).1 (by decide)⟩

/-! ## The error handlers -/

theorem load_getD (memory : Nat → Nat) (addr n i : Nat) (h : i < n) :
    (load memory addr n).getD i 0 = memory (addr + i) := by
  unfold load
  rw [List.getD_eq_getElem _ _ (by simp [h])]
  simp

theorem ofCells_cells (h : errorblock) (l : List Nat)
    (h0 : l.getD 0 0 = h.cells.getD 0 0) (h1 : l.getD 1 0 = h.cells.getD 1 0)
    (h2 : l.getD 2 0 = h.cells.getD 2 0) : errorblock.ofCells l = h := by
  unfold errorblock.ofCells
  rw [h0, h1, h2]
  cases h with
  | mk islocal current stacktop =>
    cases islocal <;> simp [errorblock.cells]

theorem raise_local_run (entrysize : Nat → Nat) (errorKind line : Int) (w : workspace)
    (hcur : w.error_handler.current ≠ NIL) (hloc : w.error_handler.islocal = true)
    (htag : w.memory (w.error_handler.stacktop - entrysize STACK_ERROR) = STACK_ERROR) :
    raise entrysize errorKind line w = Except.ok (resume.handler w.error_handler.current,
      { w with
        error_number := errorKind
        error_line := line
        stacktop := w.error_handler.stacktop - entrysize STACK_ERROR + entrysize STACK_ERROR
        current := w.error_handler.current
        error_handler := errorblock.ofCells (load w.memory
          (w.error_handler.stacktop - entrysize STACK_ERROR + 1) (entrysize STACK_ERROR - 1)) }) := by
  unfold raise
  dsimp only
  rw [if_neg hcur, if_pos hloc, pop_run entrysize STACK_ERROR _ htag]
  rfl

theorem raise_global_run (entrysize : Nat → Nat) (errorKind line : Int) (w : workspace)
    (hcur : w.error_handler.current ≠ NIL) (hloc : w.error_handler.islocal = false) :
    raise entrysize errorKind line w = Except.ok (resume.handler w.error_handler.current,
      { w with
        error_number := errorKind
        error_line := line
        stacktop := w.error_handler.stacktop
        current := w.error_handler.current }) := by
  unfold raise
  dsimp only
  rw [if_neg hcur, if_neg (by simp [hloc])]

/-- A raise with an active handler resumes at the target of the handler, with
the stack pointer at the watermark of the handler. -/
theorem raise_active (entrysize : Nat → Nat) (errorKind line : Int) (w : workspace)
    (hcur : w.error_handler.current ≠ NIL)
    (hsaved : w.error_handler.islocal = true →
      entrysize STACK_ERROR ≤ w.error_handler.stacktop ∧
      w.memory (w.error_handler.stacktop - entrysize STACK_ERROR) = STACK_ERROR) :
    ∃ w1, raise entrysize errorKind line w
        = Except.ok (resume.handler w.error_handler.current, w1) ∧
      w1.stacktop = w.error_handler.stacktop ∧ w1.current = w.error_handler.current := by
  cases hloc : w.error_handler.islocal with
  | true =>
    obtain ⟨h1, h2⟩ := hsaved hloc
    refine ⟨_, raise_local_run entrysize errorKind line w hcur hloc h2, ?_, rfl⟩
    show w.error_handler.stacktop - entrysize STACK_ERROR + entrysize STACK_ERROR = _
    omega
  | false =>
    exact ⟨_, raise_global_run entrysize errorKind line w hcur hloc, rfl, rfl⟩

/-- The installation of a local handler: the saved-error-handler frame is
pushed, it holds the handler that was active, and the watermark is the stack
pointer before the push. -/
theorem install_local_run (entrysize : Nat → Nat) (target : Nat) (w : workspace)
    (hpos : 0 < entrysize STACK_ERROR)
    (hroom : w.stacklimit + entrysize STACK_ERROR ≤ w.stacktop) :
    ∃ w1, installHandler entrysize true target w = Except.ok w1 ∧
      w1.error_handler = { islocal := true, current := target, stacktop := w.stacktop } ∧
      w1.stacktop + entrysize STACK_ERROR = w.stacktop ∧
      w1.stacklimit = w.stacklimit ∧
      (∀ a, w.stacktop ≤ a → w1.memory a = w.memory a) ∧
      w1.memory w1.stacktop = STACK_ERROR ∧
      (∀ i, i + 1 < entrysize STACK_ERROR →
        w1.memory (w1.stacktop + 1 + i) = w.error_handler.cells.getD i 0) := by
  obtain ⟨wa, h1, h2, h3, _, _, _, _, h8, h9, h10⟩ :=
    push_run entrysize { itemtype := STACK_ERROR, payload := w.error_handler.cells } w hpos hroom
  refine ⟨{ wa with
      error_handler := { islocal := true, current := target, stacktop := w.stacktop } },
    ?_, rfl, h2, h3, h8, h9, h10⟩
  unfold installHandler
  rw [if_pos rfl]
  show (push entrysize _ w >>= _) = _
  rw [h1]
  rfl

/-- C12. Local error handler unwinding.  In a work space `w` whose active
handler H0 (installed by `ON ERROR`, or an outer local handler) is in place,
a local handler with the resume address `target` is installed; its watermark
`errorblock.stacktop` is the stack pointer of `w`.  After any pushes `fs`, an
error raised is caught by the local handler: control resumes at `target`, the
stack pointer is exactly the watermark, and H0 is the active handler again.
After any further pushes `fs'`, a second raise resumes at the target of H0,
with the stack pointer at the watermark of H0. -/
theorem local_handler_unwinds (entrysize : Nat → Nat) (w : workspace) (target : Nat)
    (fs fs' : List frame) (errorKind line errorKind' line' : Int)
    (hpos : ∀ t, 0 < entrysize t) (hsize : 4 ≤ entrysize STACK_ERROR)
    (htarget : target ≠ NIL) (hactive : HandlerActive entrysize w)
    (hroom : w.stacklimit + entrysize STACK_ERROR + room entrysize fs ≤ w.stacktop)
    (hroom' : w.stacklimit + room entrysize fs' ≤ w.stacktop) :
    ∃ w1 w2 w3 w4 w5,
      installHandler entrysize true target w = Except.ok w1 ∧
      w1.error_handler = { islocal := true, current := target, stacktop := w.stacktop } ∧
      pushall entrysize fs w1 = Except.ok w2 ∧
      raise entrysize errorKind line w2 = Except.ok (resume.handler target, w3) ∧
      w3.stacktop = w1.error_handler.stacktop ∧
      w3.current = target ∧
      w3.error_handler = w.error_handler ∧
      pushall entrysize fs' w3 = Except.ok w4 ∧
      raise entrysize errorKind' line' w4
        = Except.ok (resume.handler w.error_handler.current, w5) ∧
      w5.stacktop = w.error_handler.stacktop ∧
      w5.current = w.error_handler.current := by
  obtain ⟨w1, i1, i2, i3, i4, i5, i6, i7⟩ :=
    install_local_run entrysize target w (hpos _) (by omega)
  obtain ⟨w2, p1, p2, p3, _, p5, _, _, p8⟩ :=
    pushall_run entrysize fs w1 (fun f _ => hpos _) (by omega)
  have hh : w2.error_handler = { islocal := true, current := target, stacktop := w.stacktop } := by
    rw [p5, i2]
  have hst : w.stacktop - entrysize STACK_ERROR = w1.stacktop := by omega
  have htag : w2.memory (w2.error_handler.stacktop - entrysize STACK_ERROR) = STACK_ERROR := by
    rw [hh]
    show w2.memory (w.stacktop - entrysize STACK_ERROR) = _
    rw [hst, p8 _ (Nat.le_refl _), i6]
  have hr1 := raise_local_run entrysize errorKind line w2 (by rw [hh]; exact htarget)
    (by rw [hh]) htag
  have hsaved : errorblock.ofCells (load w2.memory
      (w2.error_handler.stacktop - entrysize STACK_ERROR + 1) (entrysize STACK_ERROR - 1))
      = w.error_handler := by
    have hcell : ∀ i, i < 3 → (load w2.memory
        (w2.error_handler.stacktop - entrysize STACK_ERROR + 1) (entrysize STACK_ERROR - 1)).getD i 0
        = w.error_handler.cells.getD i 0 := by
      intro i hi
      rw [load_getD _ _ _ _ (by omega), hh]
      show w2.memory (w.stacktop - entrysize STACK_ERROR + 1 + i) = _
      rw [hst, p8 _ (by omega), i7 i (by omega)]
    exact ofCells_cells _ _ (hcell 0 (by omega)) (hcell 1 (by omega)) (hcell 2 (by omega))
  rw [hsaved, hh] at hr1
  have hw3 : w.stacktop - entrysize STACK_ERROR + entrysize STACK_ERROR = w.stacktop := by omega
  obtain ⟨w4, q1, q2, q3, _, q5, _, _, q8⟩ :=
    pushall_run entrysize fs'
      { w2 with
        error_number := errorKind
        error_line := line
        stacktop := w.stacktop - entrysize STACK_ERROR + entrysize STACK_ERROR
        current := target
        error_handler := w.error_handler }
      (fun f _ => hpos _)
      (by show w2.stacklimit + _ ≤ w.stacktop - entrysize STACK_ERROR + entrysize STACK_ERROR
          rw [p3, i4]; omega)
  have q5' : w4.error_handler = w.error_handler := q5
  obtain ⟨w5, r1, r2, r3⟩ := raise_active entrysize errorKind' line' w4
    (by rw [q5']; exact hactive.1)
    (by
      rw [q5']
      intro hloc
      obtain ⟨a1, a2⟩ := hactive.2 hloc
      refine ⟨by omega, ?_⟩
      rw [q8 _ (by show w.stacktop - entrysize STACK_ERROR + entrysize STACK_ERROR ≤ _; omega)]
      show w2.memory _ = _
      rw [p8 _ (by omega), i5 _ (by omega)]
      exact a2)
  rw [q5'] at r1 r2 r3
  refine ⟨w1, w2, _, w4, w5, i1, i2, p1, hr1, ?_, rfl, rfl, q1, r1, r2, r3⟩
  rw [i2]
  exact hw3

theorem demo_entrysize_pos (t : Nat) : 0 < demo_entrysize t := by
  unfold demo_entrysize
  split_ifs <;> omega

theorem demo_work_active : HandlerActive demo_entrysize demo_work :=
  ⟨by decide, fun h => absurd h (by decide)⟩

theorem local_handler_unwinds_witness :
    HandlerActive demo_entrysize demo_work ∧
    ∃ w1 w2 w3 w4 w5,
      installHandler demo_entrysize true 650 demo_work = Except.ok w1 ∧
      w1.error_handler = { islocal := true, current := 650, stacktop := demo_work.stacktop } ∧
      pushall demo_entrysize demo_frames w1 = Except.ok w2 ∧
      raise demo_entrysize 18 120 w2 = Except.ok (resume.handler 650, w3) ∧
      w3.stacktop = w1.error_handler.stacktop ∧
      w3.current = 650 ∧
      w3.error_handler = demo_work.error_handler ∧
      pushall demo_entrysize demo_frames w3 = Except.ok w4 ∧
      raise demo_entrysize 18 130 w4
        = Except.ok (resume.handler demo_work.error_handler.current, w5) ∧
      w5.stacktop = demo_work.error_handler.stacktop ∧
      w5.current = demo_work.error_handler.current :=
  ⟨demo_work_active,
    local_handler_unwinds demo_entrysize demo_work 650 demo_frames demo_frames 18 120 18 130
      demo_entrysize_pos (by decide) (by decide) demo_work_active (by decide) (by decide)⟩

/-- The handler that `installHandler` installs is active in the sense of
`HandlerActive`, also after further pushes: the hypothesis of
`local_handler_unwinds` holds for an enclosing handler of either kind. -/
theorem install_makes_active (entrysize : Nat → Nat) (isLocal : Bool) (target : Nat)
    (w : workspace) (fs : List frame) (hpos : ∀ t, 0 < entrysize t) (htarget : target ≠ NIL)
    (hroom : w.stacklimit + entrysize STACK_ERROR + room entrysize fs ≤ w.stacktop) :
    ∃ w1 w2, installHandler entrysize isLocal target w = Except.ok w1 ∧
      pushall entrysize fs w1 = Except.ok w2 ∧ HandlerActive entrysize w2 := by
  cases isLocal with
  | true =>
    obtain ⟨w1, i1, i2, i3, i4, i5, i6, i7⟩ :=
      install_local_run entrysize target w (hpos _) (by omega)
    obtain ⟨w2, p1, p2, p3, _, p5, _, _, p8⟩ :=
      pushall_run entrysize fs w1 (fun f _ => hpos _) (by omega)
    refine ⟨w1, w2, i1, p1, ?_, ?_⟩
    · rw [p5, i2]; exact htarget
    · intro _
      rw [p5, i2]
      refine ⟨by show w2.stacktop + _ ≤ w.stacktop; omega, ?_⟩
      show w2.memory (w.stacktop - entrysize STACK_ERROR) = _
      have hst : w.stacktop - entrysize STACK_ERROR = w1.stacktop := by omega
      rw [hst, p8 _ (Nat.le_refl _), i6]
  | false =>
    obtain ⟨w2, p1, p2, p3, _, p5, _, _, p8⟩ :=
      pushall_run entrysize fs
        { w with error_handler := { islocal := false, current := target, stacktop := w.stacktop } }
        (fun f _ => hpos _) (by show w.stacklimit + _ ≤ w.stacktop; omega)
    refine ⟨_, w2, rfl, p1, ?_, ?_⟩
    · rw [p5]; exact htarget
    · intro hloc
      rw [p5] at hloc
      cases hloc

/-- The example of the specification, with local handlers nested to depth 2:
the first raise resumes at the innermost handler, with the stack pointer at
its watermark 996; the second at the handler that encloses it, with the stack
pointer at 1000; the third at the target of `ON ERROR`. -/
theorem demo_nested_run :
    demo_nested = Except.ok
      [(resume.handler 660, 996), (resume.handler 650, 1000), (resume.handler 600, 1000)] :=
  rfl

/-! ## Variable type flags -/

/-- C13. Variable type tags are well formed: every array tag and every pointer
tag T satisfies T & TYPEMASK = its base element type and T & PARMTYPEMASK = T;
the scalar, array, pointer, VAR_PROC, VAR_FUNCTION and VAR_MARKER tags are
pairwise distinct; the flag bits VAR_FIXED and VAR_RETURN are disjoint from
each other and from every type tag, and (tag | flags) & 0xFF recovers the tag
for every type tag and every value of the flags. -/
theorem type_tags_well_formed :
    (∀ p ∈ array_tags ++ pointer_tags, p.1 &&& TYPEMASK = p.2 ∧ p.1 &&& PARMTYPEMASK = p.1) ∧
    type_tags.Nodup ∧
    VAR_FIXED &&& VAR_RETURN = 0 ∧
    (∀ tag ∈ type_tags, tag &&& VAR_FIXED = 0 ∧ tag &&& VAR_RETURN = 0) ∧
    (∀ tag ∈ type_tags, ∀ flags ∈ flag_values, (tag ||| flags) &&& 0xFF = tag) := by
  decide

end Brandy
